import Mathlib

/-!
Patients chaincode.

A shallow embedding of `chaincode/medical/go/chaincode_patientsSys.go`: the eight
registry operations of the `PatientsChaincode` and its `Invoke` dispatcher, as pure
functions from a ledger to a response and a ledger.

Conventions of the embedding.

* Go `string` and `[]byte` values are Lean `String`s (byte sequences that are not
  valid UTF-8 are outside the model); a `nil` byte slice returned by `GetState` is
  `none`.
* `int64` values are `Int`; the only arithmetic on them is done by `ParseInt`, which
  enforces the 64-bit range itself.
* A Go slice field is a `Slice`: `nil` or a sequence, because `json.Marshal` tells
  the two apart.
* The ledger collaborator (`shim.ChaincodeStubInterface`) is split in two: the
  `Ledger` holds what `PutState` has written, the `Stub` holds what the collaborator
  answers during one invocation (reported errors, composite keys, the version
  iterator, the clock readings of `time.Now().Unix()`).
* Library functions whose tables are not part of the repository (`strings.ToLower`,
  `encoding/json`, `time.Time.String`) are the fields of a `Platform`; everything
  proved below holds for every platform.
-/

namespace PatientsChaincode

/-! ## Data model -/

/-- Contents of a Go `[]byte`. -/
abbrev Bytes := String

/-- A Go slice value: `nil`, or a (possibly empty) sequence. -/
inductive Slice (α : Type) where
  | nil : Slice α
  | of (xs : List α) : Slice α
deriving DecidableEq, Repr

/-- The elements a `range` loop over the slice visits. -/
def Slice.elems {α : Type} : Slice α → List α
  | .nil => []
  | .of xs => xs

/-- Go `append(s, x)`. -/
def Slice.append {α : Type} (s : Slice α) (x : α) : Slice α :=
  .of (s.elems ++ [x])

/-- Go `type Disease struct`. -/
structure Disease where
  ID : Int
  Name : String
  Description : String
deriving DecidableEq, Repr

/-- Go `type Opration struct`. -/
structure Opration where
  Description : String
  CreatedAt : Int
deriving DecidableEq, Repr

/-- Go `type Patient struct`. -/
structure Patient where
  ID : Int
  Name : String
  Address : String
  CreatedAt : Int
  UpdatedAt : Int
  Diseases : Slice Disease
  History : Slice Opration
deriving DecidableEq, Repr

/-- The `pb.Response` built by `shim.Success(payload)` or `shim.Error(msg)`. -/
inductive Response where
  | success (payload : Option Bytes) : Response
  | error (message : String) : Response
deriving DecidableEq, Repr

/-- Whether the response was built by `shim.Error`. -/
def Response.isError : Response → Bool
  | .success _ => false
  | .error _ => true

/-- One version of a key as the history iterator yields it
(`queryresult.KeyModification`); the timestamp is kept as seconds and nanoseconds. -/
structure KeyModification where
  TxId : String
  Value : Bytes
  Seconds : Int
  Nanos : Int
  IsDelete : Bool
deriving DecidableEq, Repr

/-! ## Library functions -/

/-- The library functions the chaincode calls whose behaviour is fixed outside the
repository. `json.Marshal` has no failing case on the `Patient` and `Disease` struct
types, so marshalling is total and the `err != nil` branches that follow it in the
source are not reachable. -/
structure Platform where
  /-- Go `strings.ToLower`. -/
  toLower : String → String
  /-- Go `json.Marshal` on a `Patient`. -/
  marshalPatient : Patient → Bytes
  /-- Go `json.Unmarshal` into a zero `Patient`; the error carries its message. -/
  unmarshalPatient : Bytes → Except String Patient
  /-- Go `json.Marshal` on a `Disease`. -/
  marshalDisease : Disease → Bytes
  /-- Go `json.Unmarshal` into a zero `Disease`. -/
  unmarshalDisease : Bytes → Except String Disease
  /-- Go `time.Unix(sec, nsec).String()`. -/
  timeString : Int → Int → String

/-- Go `len(s) <= 0` decides emptiness; `len` counts the bytes of the string. -/
def len (s : String) : Nat := s.utf8ByteSize

/-- Value of a decimal digit. -/
def digitVal (c : Char) : Option Nat :=
  if '0' ≤ c ∧ c ≤ '9' then some (c.toNat - '0'.toNat) else none

/-- Digit loop of `strconv.ParseUint` in base 10 (underscores are not accepted when
the base is given explicitly); the accumulator is unbounded here, the range is
checked by the caller. -/
def parseDigits : List Char → Nat → Option Nat
  | [], acc => some acc
  | c :: cs, acc =>
    match digitVal c with
    | none => none
    | some d => parseDigits cs (acc * 10 + d)

/-- Go `strconv.ParseUint(s, 10, 64)` without its range check: `none` on a syntax
error (empty input or a character that is not a decimal digit). -/
def ParseUint (cs : List Char) : Option Nat :=
  match cs with
  | [] => none
  | _ => parseDigits cs 0

/-- Go `strconv.ParseInt(s, 10, 64)`: `none` when it returns an error (syntax or
range), the parsed value otherwise. -/
def ParseInt (s : String) : Option Int :=
  match s.data with
  | [] => none
  | c :: rest =>
    if c = '+' then
      match ParseUint rest with
      | none => none
      | some un => if un < 2 ^ 63 then some (Int.ofNat un) else none
    else if c = '-' then
      match ParseUint rest with
      | none => none
      | some un => if un ≤ 2 ^ 63 then some (-(Int.ofNat un)) else none
    else
      match ParseUint (c :: rest) with
      | none => none
      | some un => if un < 2 ^ 63 then some (Int.ofNat un) else none

/-- Go `fmt.Sprintf("%d", v)` / `%v` on an `int64`. -/
def fmtInt (v : Int) : String := toString v

/-- The key `fmt.Sprintf("Patient-%d", patientID)` of a patient record. -/
def patientKey (patientID : Int) : String := "Patient-" ++ fmtInt patientID

/-- The key `fmt.Sprintf("Disease-%d", diseaseID)` of a disease record. -/
def diseaseKey (diseaseID : Int) : String := "Disease-" ++ fmtInt diseaseID

/-- Go conversion `string(v)` of an `int64`: the UTF-8 string of the code point `v`,
and `"�"` when `v` is not a valid code point. -/
def runeString (v : Int) : String :=
  if 0 ≤ v ∧ Nat.isValidChar v.toNat then String.singleton (Char.ofNat v.toNat)
  else "�"

/-! ## Ledger collaborator -/

/-- What `PutState` has written: the current value of each key and the versions each
key went through. -/
structure Ledger where
  state : String → Option Bytes
  versions : String → List KeyModification

/-- The ledger nothing was written to. -/
def Ledger.empty : Ledger :=
  { state := fun _ => none, versions := fun _ => [] }

/-- Answers of the ledger collaborator during one invocation. -/
structure Stub where
  /-- Error reported by `GetState` for a key, if any. -/
  getStateErr : String → Option String
  /-- Error reported by `PutState` for a key and value, if any. -/
  putStateErr : String → Bytes → Option String
  /-- Result of `CreateCompositeKey`. -/
  createCompositeKey : String → List String → Except String String
  /-- Result of `GetHistoryForKey`: an error, a nil iterator, or the results of the
  successive `Next` calls of the iterator. -/
  getHistoryForKey : Ledger → String →
    Except String (Option (List (Except String KeyModification)))
  /-- Identifier of the transaction of this invocation. -/
  txID : String
  /-- Timestamp of the transaction of this invocation. -/
  txSeconds : Int
  /-- Nanoseconds of the timestamp. -/
  txNanos : Int
  /-- The successive readings of `time.Now().Unix()` during this invocation. -/
  now : Nat → Int

/-- Call `stub.GetState(key)`. -/
def Stub.GetState (S : Stub) (L : Ledger) (key : String) : Except String (Option Bytes) :=
  match S.getStateErr key with
  | some e => .error e
  | none => .ok (L.state key)

/-- The ledger after a write of `value` under `key` by the transaction of `S`. -/
def Ledger.put (L : Ledger) (S : Stub) (key : String) (value : Bytes) : Ledger :=
  { state := fun k => if k = key then some value else L.state k
    versions := fun k =>
      if k = key then L.versions k ++ [⟨S.txID, value, S.txSeconds, S.txNanos, false⟩]
      else L.versions k }

/-- Call `stub.PutState(key, value)`: the reported error, or the ledger written to. -/
def Stub.PutState (S : Stub) (L : Ledger) (key : String) (value : Bytes) :
    Except String Ledger :=
  match S.putStateErr key value with
  | some e => .error e
  | none => .ok (L.put S key value)

/-! ## Registry operations -/

/-- Go `func (t *PatientsChaincode) createPatient`. -/
def createPatient (P : Platform) (S : Stub) (L : Ledger) (args : List String) :
    Response × Ledger :=
  match args with
  | [a0, a1, a2] =>
    if len a0 ≤ 0 then (.error "ID: 1st argument must be a non-empty string", L)
    else if len a1 ≤ 0 then (.error "Name: 2nd argument must be a non-empty string", L)
    else if len a2 ≤ 0 then
      (.error "Address: 3rd argument must be a non-empty string", L)
    else
      match ParseInt a0 with
      | none => (.error "ID: 1st argument must be a numeric 64bit of string", L)
      | some patientID =>
        let patientIDstr := patientKey patientID
        let patientName := P.toLower a1
        let patientAddress := P.toLower a2
        match S.GetState L patientIDstr with
        | .error e => (.error ("Failed to get patient: " ++ e), L)
        | .ok (some _) => (.error ("This patient already exists: " ++ patientIDstr), L)
        | .ok none =>
          let timeNowUNIX := S.now 0
          let patient : Patient :=
            ⟨patientID, patientName, patientAddress, timeNowUNIX, timeNowUNIX, .nil, .nil⟩
          let patientJSONBytes := P.marshalPatient patient
          match S.PutState L patientIDstr patientJSONBytes with
          | .error e => (.error e, L)
          | .ok L1 =>
            match S.createCompositeKey "patient~ID" ["patient", runeString patientID] with
            | .error e => (.error e, L1)
            | .ok IDIndexKey =>
              match S.PutState L1 IDIndexKey "\x00" with
              | .error _ => (.success none, L1)
              | .ok L2 => (.success none, L2)
  | _ => (.error "Incorrect number of arguments. Expecting 3", L)

/-- Go `func (t *PatientsChaincode) getPatientbyID`. -/
def getPatientbyID (_P : Platform) (S : Stub) (L : Ledger) (args : List String) :
    Response × Ledger :=
  match args with
  | [a0] =>
    if len a0 ≤ 0 then (.error "ID: 1st argument must be a non-empty string", L)
    else
      match ParseInt a0 with
      | none => (.error "ID: 1st argument must be a numeric 64bit of string", L)
      | some patientID =>
        let patientIDstr := patientKey patientID
        match S.GetState L patientIDstr with
        | .error e => (.error ("Failed to get patient:" ++ e), L)
        | .ok none => (.error "patient does not exist", L)
        | .ok (some patientAsBytes) => (.success (some patientAsBytes), L)
  | _ => (.error "Incorrect number of arguments. Expecting 1", L)

/-- Go `func (t *PatientsChaincode) updatePatientData`. -/
def updatePatientData (P : Platform) (S : Stub) (L : Ledger) (args : List String) :
    Response × Ledger :=
  match args with
  | [a0, a1, a2] =>
    if len a0 ≤ 0 then (.error "ID: 1st argument must be a non-empty string", L)
    else if len a1 ≤ 0 then (.error "Name: 2nd argument must be a non-empty string", L)
    else if len a2 ≤ 0 then
      (.error "Address: 3rd argument must be a non-empty string", L)
    else
      match ParseInt a0 with
      | none => (.error "ID: 1st argument must be a numeric 64bit of string", L)
      | some patientID =>
        let patientIDstr := patientKey patientID
        let patientName := P.toLower a1
        let patientAddress := P.toLower a2
        match S.GetState L patientIDstr with
        | .error e => (.error ("Failed to get patient:" ++ e), L)
        | .ok none => (.error "patient does not exist", L)
        | .ok (some patientAsBytes) =>
          match P.unmarshalPatient patientAsBytes with
          | .error e => (.error e, L)
          | .ok patientToUpdate =>
            let patientToUpdate :=
              { patientToUpdate with
                Name := patientName, Address := patientAddress, UpdatedAt := S.now 0 }
            let patientJSONasBytes := P.marshalPatient patientToUpdate
            match S.PutState L patientIDstr patientJSONasBytes with
            | .error e => (.error e, L)
            | .ok L1 => (.success none, L1)
  | _ => (.error "Incorrect number of arguments. Expecting 3", L)

/-- Go `func (t *PatientsChaincode) addPatientHistory`; the clock is read twice, first
for the new entry and then for `UpdatedAt`. -/
def addPatientHistory (P : Platform) (S : Stub) (L : Ledger) (args : List String) :
    Response × Ledger :=
  match args with
  | [a0, a1] =>
    if len a0 ≤ 0 then (.error "ID: 1st argument must be a non-empty string", L)
    else if len a1 ≤ 0 then
      (.error "Histroy: 2nd argument must be a non-empty string", L)
    else
      match ParseInt a0 with
      | none => (.error "ID: 1st argument must be a numeric 64bit of string", L)
      | some patientID =>
        let patientIDstr := patientKey patientID
        let patientHistory := P.toLower a1
        match S.GetState L patientIDstr with
        | .error e => (.error ("Failed to get patient:" ++ e), L)
        | .ok none => (.error "patient does not exist", L)
        | .ok (some patientAsBytes) =>
          match P.unmarshalPatient patientAsBytes with
          | .error e => (.error e, L)
          | .ok patientToUpdate =>
            let patientToUpdate :=
              { patientToUpdate with
                History := patientToUpdate.History.append ⟨patientHistory, S.now 0⟩ }
            let patientToUpdate := { patientToUpdate with UpdatedAt := S.now 1 }
            let patientJSONasBytes := P.marshalPatient patientToUpdate
            match S.PutState L patientIDstr patientJSONasBytes with
            | .error e => (.error e, L)
            | .ok L1 => (.success none, L1)
  | _ => (.error "Incorrect number of arguments. Expecting 2", L)

/-- Go `strconv.FormatBool`. -/
def FormatBool (b : Bool) : String := if b then "true" else "false"

/-- What one pass of the history loop writes to the buffer for `response`, the comma
that separates array members apart. -/
def historyMember (P : Platform) (response : KeyModification) : String :=
  "\x7b\"TxId\":" ++ "\"" ++ response.TxId ++ "\""
    ++ ", \"Value\":" ++ (if response.IsDelete then "null" else response.Value)
    ++ ", \"Timestamp\":" ++ "\"" ++ P.timeString response.Seconds response.Nanos ++ "\""
    ++ ", \"IsDelete\":" ++ "\"" ++ FormatBool response.IsDelete ++ "\""
    ++ "\x7d"

/-- The loop `for pateintHistoryIer.HasNext()` of `getPatientHistorybyID`: the list
holds the results of the remaining `Next` calls; an error of `Next` ends the
operation with that error, otherwise the buffer is returned. -/
def historyLoop (P : Platform) :
    List (Except String KeyModification) → String → Bool → Except String String
  | [], buffer, _ => .ok buffer
  | .error e :: _, _, _ => .error e
  | .ok response :: rest, buffer, bArrayMemberAlreadyWritten =>
    let buffer := if bArrayMemberAlreadyWritten = true then buffer ++ "," else buffer
    historyLoop P rest (buffer ++ historyMember P response) true

/-- Go `func (t *PatientsChaincode) getPatientHistorybyID`. -/
def getPatientHistorybyID (P : Platform) (S : Stub) (L : Ledger) (args : List String) :
    Response × Ledger :=
  match args with
  | [a0] =>
    if len a0 ≤ 0 then (.error "ID: 1st argument must be a non-empty string", L)
    else
      match ParseInt a0 with
      | none => (.error "ID: 1st argument must be a numeric 64bit of string", L)
      | some patientID =>
        let patientIDstr := patientKey patientID
        match S.getHistoryForKey L patientIDstr with
        | .error e => (.error ("Failed to get patient:" ++ e), L)
        | .ok none => (.error "patient does not exist", L)
        | .ok (some pateintHistoryIer) =>
          match historyLoop P pateintHistoryIer "[" false with
          | .error e => (.error e, L)
          | .ok buffer => (.success (some (buffer ++ "]")), L)
  | _ => (.error "Incorrect number of arguments. Expecting 1", L)

/-- Go `func (t *PatientsChaincode) createDisease`. -/
def createDisease (P : Platform) (S : Stub) (L : Ledger) (args : List String) :
    Response × Ledger :=
  match args with
  | [a0, a1, a2] =>
    if len a0 ≤ 0 then (.error "ID: 1st argument must be a non-empty string", L)
    else if len a1 ≤ 0 then (.error "Name: 2nd argument must be a non-empty string", L)
    else if len a2 ≤ 0 then
      (.error "Description: 3rd argument must be a non-empty string", L)
    else
      match ParseInt a0 with
      | none => (.error "ID: 1st argument must be a numeric 64bit of string", L)
      | some diseaseID =>
        let diseaseIDstr := diseaseKey diseaseID
        let diseaseName := P.toLower a1
        let diseaseDescription := P.toLower a2
        match S.GetState L diseaseIDstr with
        | .error e => (.error ("Failed to get disease: " ++ e), L)
        | .ok (some _) => (.error ("This Disease already exists: " ++ diseaseIDstr), L)
        | .ok none =>
          let disease : Disease := ⟨diseaseID, diseaseName, diseaseDescription⟩
          let diseaseJSONBytes := P.marshalDisease disease
          match S.PutState L diseaseIDstr diseaseJSONBytes with
          | .error e => (.error e, L)
          | .ok L1 =>
            match S.createCompositeKey "Disease~ID" ["Disease", runeString diseaseID] with
            | .error e => (.error e, L1)
            | .ok IDIndexKey =>
              match S.PutState L1 IDIndexKey "\x00" with
              | .error _ => (.success none, L1)
              | .ok L2 => (.success none, L2)
  | _ => (.error "Incorrect number of arguments. Expecting 2", L)

/-- Go `func (t *PatientsChaincode) getDiseasebyID`. -/
def getDiseasebyID (_P : Platform) (S : Stub) (L : Ledger) (args : List String) :
    Response × Ledger :=
  match args with
  | [a0] =>
    if len a0 ≤ 0 then (.error "ID: 1st argument must be a non-empty string", L)
    else
      match ParseInt a0 with
      | none => (.error "ID: 1st argument must be a numeric 64bit of string", L)
      | some diseaseID =>
        let diseaseIDstr := diseaseKey diseaseID
        match S.GetState L diseaseIDstr with
        | .error e => (.error ("Failed to get Disease:" ++ e), L)
        | .ok none => (.error "Disease does not exist", L)
        | .ok (some diseaseAsBytes) => (.success (some diseaseAsBytes), L)
  | _ => (.error "Incorrect number of arguments. Expecting 1", L)

/-- The message of the duplicate check of `assignDiseaseToPatient`
(`fmt.Sprintf` with four `%v` verbs). -/
def alreadyHaveMsg (patientToUpdate : Patient) (diseaseToUpdate : Disease) : String :=
  "This Patient:" ++ fmtInt patientToUpdate.ID ++ "-" ++ patientToUpdate.Name
    ++ " already have this Disease:" ++ fmtInt diseaseToUpdate.ID ++ "-"
    ++ diseaseToUpdate.Name

/-- Go `func (t *PatientsChaincode) assignDiseaseToPatient`; the second id is parsed
after the patient was fetched, as in the source. -/
def assignDiseaseToPatient (P : Platform) (S : Stub) (L : Ledger) (args : List String) :
    Response × Ledger :=
  match args with
  | [a0, a1] =>
    if len a0 ≤ 0 then (.error "PatientID: 1st argument must be a non-empty string", L)
    else if len a1 ≤ 0 then
      (.error "DiseaseID: 2nd argument must be a non-empty string", L)
    else
      match ParseInt a0 with
      | none => (.error "ID: 1st argument must be a numeric 64bit of string", L)
      | some patientID =>
        let patientIDstr := patientKey patientID
        match S.GetState L patientIDstr with
        | .error e => (.error ("Failed to get patient:" ++ e), L)
        | .ok none => (.error "patient does not exist", L)
        | .ok (some patientAsBytes) =>
          match ParseInt a1 with
          | none => (.error "ID: 1st argument must be a numeric 64bit of string", L)
          | some diseaseID =>
            let diseaseIDstr := diseaseKey diseaseID
            match S.GetState L diseaseIDstr with
            | .error e => (.error ("Failed to get disease: " ++ e), L)
            | .ok none => (.error "Disease does not exist", L)
            | .ok (some diseaseAsBytes) =>
              match P.unmarshalPatient patientAsBytes with
              | .error e => (.error e, L)
              | .ok patientToUpdate =>
                match P.unmarshalDisease diseaseAsBytes with
                | .error e => (.error e, L)
                | .ok diseaseToUpdate =>
                  if patientToUpdate.Diseases.elems.any
                      (fun dis => decide (dis.ID = diseaseToUpdate.ID)) then
                    (.error (alreadyHaveMsg patientToUpdate diseaseToUpdate), L)
                  else
                    let patientToUpdate :=
                      { patientToUpdate with
                        Diseases := patientToUpdate.Diseases.append diseaseToUpdate,
                        UpdatedAt := S.now 0 }
                    let patientJSONasBytes := P.marshalPatient patientToUpdate
                    match S.PutState L patientIDstr patientJSONasBytes with
                    | .error e => (.error e, L)
                    | .ok L1 => (.success none, L1)
  | _ => (.error "Incorrect number of arguments. Expecting 2", L)

/-- The message of `Invoke` for a function name it does not know. -/
def invalidFunctionMsg : String :=
  "Invalid invoke function name. Expecting \"createPatient\" \"updatePatientData\" \t\"addPatientHistory\" \t\"getPatientbyID\" \t\"createDisease\" \t\"getDiseasebyID\" \t\"assignDiseaseToPatient\""

/-- Go `func (t *PatientsChaincode) Invoke`, on the function name and parameters that
`stub.GetFunctionAndParameters()` returns. -/
def Invoke (P : Platform) (S : Stub) (L : Ledger) (function : String)
    (args : List String) : Response × Ledger :=
  if function = "createPatient" then createPatient P S L args
  else if function = "updatePatientData" then updatePatientData P S L args
  else if function = "addPatientHistory" then addPatientHistory P S L args
  else if function = "getPatientbyID" then getPatientbyID P S L args
  else if function = "getPatientHistorybyID" then getPatientHistorybyID P S L args
  else if function = "createDisease" then createDisease P S L args
  else if function = "getDiseasebyID" then getDiseasebyID P S L args
  else if function = "assignDiseaseToPatient" then assignDiseaseToPatient P S L args
  else (.error invalidFunctionMsg, L)

/-! ## The eight operations as a family -/

/-- The eight registry operations `Invoke` dispatches to. -/
inductive Operation where
  | createPatient
  | updatePatientData
  | addPatientHistory
  | getPatientbyID
  | getPatientHistorybyID
  | createDisease
  | getDiseasebyID
  | assignDiseaseToPatient
deriving DecidableEq, Repr

/-- The function name `Invoke` compares with. -/
def Operation.name : Operation → String
  | .createPatient => "createPatient"
  | .updatePatientData => "updatePatientData"
  | .addPatientHistory => "addPatientHistory"
  | .getPatientbyID => "getPatientbyID"
  | .getPatientHistorybyID => "getPatientHistorybyID"
  | .createDisease => "createDisease"
  | .getDiseasebyID => "getDiseasebyID"
  | .assignDiseaseToPatient => "assignDiseaseToPatient"

/-- The Go function of an operation. -/
def Operation.run (P : Platform) (S : Stub) (L : Ledger) :
    Operation → List String → Response × Ledger
  | .createPatient => PatientsChaincode.createPatient P S L
  | .updatePatientData => PatientsChaincode.updatePatientData P S L
  | .addPatientHistory => PatientsChaincode.addPatientHistory P S L
  | .getPatientbyID => PatientsChaincode.getPatientbyID P S L
  | .getPatientHistorybyID => PatientsChaincode.getPatientHistorybyID P S L
  | .createDisease => PatientsChaincode.createDisease P S L
  | .getDiseasebyID => PatientsChaincode.getDiseasebyID P S L
  | .assignDiseaseToPatient => PatientsChaincode.assignDiseaseToPatient P S L

/-- The names the messages of an operation give to its arguments, in position order
(the comment that heads each function in the source); their number is the number
of arguments the operation expects. -/
def Operation.argNames : Operation → List String
  | .createPatient => ["ID", "Name", "Address"]
  | .updatePatientData => ["ID", "Name", "Address"]
  | .addPatientHistory => ["ID", "Histroy"]
  | .getPatientbyID => ["ID"]
  | .getPatientHistorybyID => ["ID"]
  | .createDisease => ["ID", "Name", "Description"]
  | .getDiseasebyID => ["ID"]
  | .assignDiseaseToPatient => ["PatientID", "DiseaseID"]

/-- The positions of the arguments that are ids. -/
def Operation.idPositions : Operation → List Nat
  | .assignDiseaseToPatient => [0, 1]
  | _ => [0]

/-- The ordinal by which a message names an argument position. -/
def ordinal : Nat → String
  | 0 => "1st"
  | 1 => "2nd"
  | _ => "3rd"

/-- A violated check of the validation rule. -/
inductive Violation where
  | count : Violation
  | empty (position : Nat) : Violation
  | unparsable (position : Nat) : Violation
deriving DecidableEq, Repr

/-- Position of the first empty argument. -/
def firstEmpty : List String → Nat → Option Nat
  | [], _ => none
  | a :: rest, i => if a = "" then some i else firstEmpty rest (i + 1)

/-- Position of the first id argument, among the given positions, that
`strconv.ParseInt` refuses. -/
def firstUnparsable (args : List String) : List Nat → Option Nat
  | [] => none
  | i :: rest =>
    match args.get? i with
    | none => firstUnparsable args rest
    | some a => if (ParseInt a).isNone then some i else firstUnparsable args rest

/-- The first violated check in the order of the validation rule: the argument count,
then the non-emptiness of each argument in position order, then the parsing of the
id arguments at `ids`. -/
def firstViolation (expected : Nat) (ids : List Nat) (args : List String) :
    Option Violation :=
  if args.length ≠ expected then some .count
  else
    match firstEmpty args 0 with
    | some i => some (.empty i)
    | none =>
      match firstUnparsable args ids with
      | some i => some (.unparsable i)
      | none => none

/-- The validation rule as stated for every operation: every id argument is parsed
before the ledger is consulted. -/
def Operation.statedViolation (op : Operation) (args : List String) : Option Violation :=
  firstViolation op.argNames.length op.idPositions args

/-- The checks an operation makes before it consults the ledger: the count, the
non-emptiness of every argument, and the parsing of its first argument. -/
def Operation.earlyViolation (op : Operation) (args : List String) : Option Violation :=
  firstViolation op.argNames.length [0] args

/-- The message of each operation for a wrong number of arguments. -/
def Operation.countMsg : Operation → String
  | .createPatient => "Incorrect number of arguments. Expecting 3"
  | .updatePatientData => "Incorrect number of arguments. Expecting 3"
  | .addPatientHistory => "Incorrect number of arguments. Expecting 2"
  | .getPatientbyID => "Incorrect number of arguments. Expecting 1"
  | .getPatientHistorybyID => "Incorrect number of arguments. Expecting 1"
  | .createDisease => "Incorrect number of arguments. Expecting 2"
  | .getDiseasebyID => "Incorrect number of arguments. Expecting 1"
  | .assignDiseaseToPatient => "Incorrect number of arguments. Expecting 2"

/-- The message of a violated check: the messages of the per-argument checks name the
argument by its position. -/
def Operation.violationMsg (op : Operation) : Violation → String
  | .count => op.countMsg
  | .empty i =>
    (op.argNames.getD i "") ++ ": " ++ ordinal i ++ " argument must be a non-empty string"
  | .unparsable i => "ID: " ++ ordinal i ++ " argument must be a numeric 64bit of string"

/-- An argument list with the wrong number of arguments, or an empty argument, or an
id argument that does not parse. -/
def Operation.invalidArgs (op : Operation) (args : List String) : Prop :=
  args.length ≠ op.argNames.length ∨ "" ∈ args ∨
    ∃ i ∈ op.idPositions, ∃ a, args.get? i = some a ∧ ParseInt a = none

/-! ## Sequences of invocations -/

/-- The index keys of the collaborator are not keys of patient records. -/
def Stub.IndexApart (S : Stub) : Prop :=
  ∀ objectType attributes k, S.createCompositeKey objectType attributes = .ok k →
    ∀ id, k ≠ patientKey id

/-- The ledgers reached from the empty ledger by a finite sequence of invocations, with
any arguments and any answers of a collaborator whose index keys are apart from the
patient keys. -/
inductive Reachable (P : Platform) : Ledger → Prop where
  | empty : Reachable P Ledger.empty
  | invoke {L : Ledger} (S : Stub) (function : String) (args : List String) :
      Reachable P L → S.IndexApart → Reachable P (Invoke P S L function args).2

/-- Run `addPatientHistory` on the patient `idStr` once for each call, in order, each
call with its own collaborator answers and description; `none` as soon as a call
fails. -/
def addHistories (P : Platform) (idStr : String) :
    List (Stub × String) → Ledger → Option Ledger
  | [], L => some L
  | (S, description) :: calls, L =>
    match addPatientHistory P S L [idStr, description] with
    | (.success _, L1) => addHistories P idStr calls L1
    | (.error _, _) => none

/-! ## A reference platform and collaborator

A concrete platform and a concrete collaborator, used to instantiate the statements
below on examples. The codec writes the JSON text `json.Marshal` produces for records
whose strings need no escape other than the quote and the backslash, and reads that
text back. The collaborator answers like the Fabric shim: it reports no error on get
and put, builds composite keys between U+0000 separators and refuses U+0000 and
U+10FFFF in their parts, and lists the versions the ledger recorded. -/

/-- Strip the literal `lit` from the front of the input. -/
def dropLit : List Char → List Char → Option (List Char)
  | [], cs => some cs
  | _ :: _, [] => none
  | l :: ls, c :: cs => if l = c then dropLit ls cs else none

/-- Escape the characters of a string: a backslash before each quote and backslash. -/
def jsonEscape : List Char → List Char
  | [] => []
  | c :: cs =>
    if c = '"' ∨ c = '\\' then '\\' :: c :: jsonEscape cs else c :: jsonEscape cs

/-- A JSON string: the escaped characters between quotes. -/
def writeString (s : String) : List Char := '"' :: (jsonEscape s.data ++ ['"'])

/-- Read the characters of a string up to its closing quote; the flag tells that the
previous character was a backslash. -/
def readStringBody : List Char → Bool → List Char → Option (List Char × List Char)
  | [], _, _ => none
  | c :: cs, true, acc => readStringBody cs false (c :: acc)
  | c :: cs, false, acc =>
    if c = '"' then some (acc.reverse, cs)
    else if c = '\\' then readStringBody cs true acc
    else readStringBody cs false (c :: acc)

/-- Read a JSON string. -/
def readString (cs : List Char) : Option (String × List Char) :=
  match cs with
  | [] => none
  | c :: cs =>
    if c = '"' then
      match readStringBody cs false [] with
      | none => none
      | some (s, rest) => some (String.mk s, rest)
    else none

/-- A JSON number for an integer, in decimal. -/
def writeInt (v : Int) : List Char := (fmtInt v).data

/-- Read decimal digits as long as there are some. -/
def readDigits : List Char → Nat → Nat × List Char
  | [], acc => (acc, [])
  | c :: cs, acc =>
    match digitVal c with
    | some d => readDigits cs (acc * 10 + d)
    | none => (acc, c :: cs)

/-- Read a natural number: one decimal digit at least. -/
def readNat (cs : List Char) : Option (Nat × List Char) :=
  match cs with
  | [] => none
  | c :: _ => if (digitVal c).isSome then some (readDigits cs 0) else none

/-- Read an integer: an optional minus sign and a natural number. -/
def readInt (cs : List Char) : Option (Int × List Char) :=
  match cs with
  | [] => none
  | c :: rest =>
    if c = '-' then
      match readNat rest with
      | none => none
      | some (n, rest) => some (-(Int.ofNat n), rest)
    else
      match readNat (c :: rest) with
      | none => none
      | some (n, rest) => some (Int.ofNat n, rest)

/-- The opening brace of an object and the key of its first member. -/
def openKey (name : String) : List Char := '\x7b' :: '"' :: (name.data ++ ['"', ':'])

/-- The comma after a member and the key of the next member. -/
def nextKey (name : String) : List Char := ',' :: '"' :: (name.data ++ ['"', ':'])

/-- The closing brace of an object. -/
def closeObject : List Char := ['\x7d']

/-- The JSON object of a `Disease`, members in the order of the struct fields. -/
def writeDisease (d : Disease) : List Char :=
  openKey "ID" ++ writeInt d.ID ++ nextKey "Name" ++ writeString d.Name
    ++ nextKey "Description" ++ writeString d.Description ++ closeObject

/-- Read the JSON object of a `Disease`. -/
def readDisease (cs : List Char) : Option (Disease × List Char) := do
  let cs ← dropLit (openKey "ID") cs
  let (id, cs) ← readInt cs
  let cs ← dropLit (nextKey "Name") cs
  let (name, cs) ← readString cs
  let cs ← dropLit (nextKey "Description") cs
  let (description, cs) ← readString cs
  let cs ← dropLit closeObject cs
  pure (⟨id, name, description⟩, cs)

/-- The JSON object of an `Opration`. -/
def writeOpration (o : Opration) : List Char :=
  openKey "Description" ++ writeString o.Description ++ nextKey "CreatedAt"
    ++ writeInt o.CreatedAt ++ closeObject

/-- Read the JSON object of an `Opration`. -/
def readOpration (cs : List Char) : Option (Opration × List Char) := do
  let cs ← dropLit (openKey "Description") cs
  let (description, cs) ← readString cs
  let cs ← dropLit (nextKey "CreatedAt") cs
  let (createdAt, cs) ← readInt cs
  let cs ← dropLit closeObject cs
  pure (⟨description, createdAt⟩, cs)

/-- Write the members after the first: each preceded by a comma, then the closing
bracket. -/
def writeRest {α : Type} (w : α → List Char) : List α → List Char
  | [] => [']']
  | x :: xs => ',' :: (w x ++ writeRest w xs)

/-- A JSON array for a slice, and `null` for the nil slice. -/
def writeSlice {α : Type} (w : α → List Char) : Slice α → List Char
  | .nil => "null".data
  | .of [] => "[]".data
  | .of (x :: xs) => '[' :: (w x ++ writeRest w xs)

/-- Read the members after the first and the closing bracket; the fuel bounds the
number of members. -/
def readRest {α : Type} (r : List Char → Option (α × List Char)) :
    Nat → List Char → Option (List α × List Char)
  | 0, _ => none
  | _ + 1, [] => none
  | fuel + 1, c :: cs =>
    if c = ']' then some ([], cs)
    else if c = ',' then
      match r cs with
      | none => none
      | some (x, cs) =>
        match readRest r fuel cs with
        | none => none
        | some (xs, cs) => some (x :: xs, cs)
    else none

/-- Read `null` or a JSON array. -/
def readSlice {α : Type} (r : List Char → Option (α × List Char)) (cs : List Char) :
    Option (Slice α × List Char) :=
  match dropLit "null".data cs with
  | some cs => some (.nil, cs)
  | none =>
    match dropLit "[]".data cs with
    | some cs => some (.of [], cs)
    | none =>
      match dropLit "[".data cs with
      | none => none
      | some cs =>
        match r cs with
        | none => none
        | some (x, cs) =>
          match readRest r (cs.length) cs with
          | none => none
          | some (xs, cs) => some (.of (x :: xs), cs)

/-- Members `ID`, `Name` and `Address` of a patient object. -/
def writePatientIdentity (p : Patient) : List Char :=
  openKey "ID" ++ writeInt p.ID ++ nextKey "Name" ++ writeString p.Name
    ++ nextKey "Address" ++ writeString p.Address

/-- Members `CreatedAt` and `UpdatedAt` of a patient object. -/
def writePatientTimes (p : Patient) : List Char :=
  nextKey "CreatedAt" ++ writeInt p.CreatedAt ++ nextKey "UpdatedAt" ++ writeInt p.UpdatedAt

/-- Members `Diseases` and `History` of a patient object, and its closing brace. -/
def writePatientLists (p : Patient) : List Char :=
  nextKey "Diseases" ++ writeSlice writeDisease p.Diseases
    ++ nextKey "History" ++ writeSlice writeOpration p.History ++ closeObject

/-- The JSON object of a `Patient`, members in the order of the struct fields. -/
def writePatient (p : Patient) : List Char :=
  writePatientIdentity p ++ writePatientTimes p ++ writePatientLists p

/-- Read the members `ID`, `Name` and `Address`. -/
def readPatientIdentity (cs : List Char) : Option ((Int × String × String) × List Char) := do
  let cs ← dropLit (openKey "ID") cs
  let (id, cs) ← readInt cs
  let cs ← dropLit (nextKey "Name") cs
  let (name, cs) ← readString cs
  let cs ← dropLit (nextKey "Address") cs
  let (address, cs) ← readString cs
  pure ((id, name, address), cs)

/-- Read the members `CreatedAt` and `UpdatedAt`. -/
def readPatientTimes (cs : List Char) : Option ((Int × Int) × List Char) := do
  let cs ← dropLit (nextKey "CreatedAt") cs
  let (createdAt, cs) ← readInt cs
  let cs ← dropLit (nextKey "UpdatedAt") cs
  let (updatedAt, cs) ← readInt cs
  pure ((createdAt, updatedAt), cs)

/-- Read the members `Diseases` and `History` and the closing brace. -/
def readPatientLists (cs : List Char) :
    Option ((Slice Disease × Slice Opration) × List Char) := do
  let cs ← dropLit (nextKey "Diseases") cs
  let (diseases, cs) ← readSlice readDisease cs
  let cs ← dropLit (nextKey "History") cs
  let (history, cs) ← readSlice readOpration cs
  let cs ← dropLit closeObject cs
  pure ((diseases, history), cs)

/-- Read the JSON object of a `Patient`. -/
def readPatient (cs : List Char) : Option (Patient × List Char) := do
  let ((id, name, address), cs) ← readPatientIdentity cs
  let ((createdAt, updatedAt), cs) ← readPatientTimes cs
  let ((diseases, history), cs) ← readPatientLists cs
  pure (⟨id, name, address, createdAt, updatedAt, diseases, history⟩, cs)

/-- ASCII lower-casing, the part of `strings.ToLower` the examples need. -/
def asciiLower (s : String) : String := String.mk (s.data.map Char.toLower)

/-- The reference platform. -/
def Platform.reference : Platform where
  toLower := asciiLower
  marshalPatient := fun p => String.mk (writePatient p)
  unmarshalPatient := fun b =>
    match readPatient b.data with
    | some (p, []) => .ok p
    | _ => .error "json: cannot unmarshal into Go value of type main.Patient"
  marshalDisease := fun d => String.mk (writeDisease d)
  unmarshalDisease := fun b =>
    match readDisease b.data with
    | some (d, []) => .ok d
    | _ => .error "json: cannot unmarshal into Go value of type main.Disease"
  timeString := fun sec nsec => fmtInt sec ++ "." ++ fmtInt nsec

/-- Whether the Fabric shim accepts `s` as a part of a composite key. -/
def compositeKeyAttributeOK (s : String) : Bool :=
  s.data.all fun c => c != Char.ofNat 0 && c != Char.ofNat 0x10FFFF

/-- The `CreateCompositeKey` of the Fabric shim. -/
def fabricCreateCompositeKey (objectType : String) (attributes : List String) :
    Except String String :=
  if compositeKeyAttributeOK objectType && attributes.all compositeKeyAttributeOK then
    .ok (String.mk ('\x00' :: (objectType.data ++ '\x00' ::
      (attributes.map fun a => a.data ++ ['\x00']).flatten)))
  else
    .error "U+0000 and U+10FFFF are not allowed in the input attribute of a composite key"

/-- A collaborator that answers like the Fabric shim, in the transaction `txID` at
the clock reading `t`. -/
def Stub.fabric (txID : String) (t : Int) : Stub where
  getStateErr := fun _ => none
  putStateErr := fun _ _ => none
  createCompositeKey := fabricCreateCompositeKey
  getHistoryForKey := fun L key => .ok (some ((L.versions key).map .ok))
  txID := txID
  txSeconds := t
  txNanos := 0
  now := fun _ => t

/-- A collaborator like `Stub.fabric` whose `PutState` reports an error for the
composite keys (the keys that start with U+0000). -/
def Stub.indexPutFails (txID : String) (t : Int) : Stub :=
  { Stub.fabric txID t with
    putStateErr := fun key _ =>
      if key.data.head? = some '\x00' then some "put failed" else none }

/-- The empty ledger after `createPatient ["1", "Ali", "Cairo"]`. -/
def ledgerWithPatient : Ledger :=
  (createPatient Platform.reference (Stub.fabric "tx1" 100) Ledger.empty
    ["1", "Ali", "Cairo"]).2

/-- The ledger `ledgerWithPatient` after `createDisease ["7", "Diabetes", "desc"]`. -/
def ledgerWithDisease : Ledger :=
  (createDisease Platform.reference (Stub.fabric "tx2" 101) ledgerWithPatient
    ["7", "Diabetes", "desc"]).2

/-- The ledger `ledgerWithDisease` after `assignDiseaseToPatient ["1", "7"]`. -/
def ledgerWithAssignment : Ledger :=
  (assignDiseaseToPatient Platform.reference (Stub.fabric "tx3" 102) ledgerWithDisease
    ["1", "7"]).2

/-! ## Invariants -/

/-- No two entries of the patient's `Diseases` have the same `ID`. -/
def Patient.distinctDiseases (p : Patient) : Prop :=
  (p.Diseases.elems.map Disease.ID).Nodup

/-- Every value under a patient key is the encoding of a patient with distinct
diseases. -/
def Ledger.wellStored (P : Platform) (L : Ledger) : Prop :=
  ∀ id b, L.state (patientKey id) = some b →
    ∃ p, b = P.marshalPatient p ∧ p.distinctDiseases

/-! ## Further collaborator properties -/

/-- The index keys of the collaborator are keys of no patient and no disease record. -/
def Stub.RecordsApart (S : Stub) : Prop :=
  ∀ objectType attributes k, S.createCompositeKey objectType attributes = .ok k →
    ∀ id, k ≠ patientKey id ∧ k ≠ diseaseKey id

/-- The collaborator reports no error on a get or a put. -/
def Stub.NoFault (S : Stub) : Prop :=
  (∀ key, S.getStateErr key = none) ∧ ∀ key value, S.putStateErr key value = none

/-- A ledger whose key `Patient-1` holds bytes that are not a record. -/
def ledgerWithGarbage : Ledger :=
  Ledger.empty.put (Stub.fabric "tx1" 100) (patientKey 1) "not json"

/-! ## The history report as stated -/

/-- The array member stated for a version: its `TxId`, its `Value` (the literal
`null` for a deletion, the value bytes otherwise), its rendered `Timestamp` and
`IsDelete` as the string `true` or `false`. -/
def statedHistoryEntry (P : Platform) (v : KeyModification) : String :=
  "\x7b\"TxId\":\"" ++ v.TxId ++ "\", \"Value\":" ++ (if v.IsDelete then "null" else v.Value)
    ++ ", \"Timestamp\":\"" ++ P.timeString v.Seconds v.Nanos
    ++ "\", \"IsDelete\":\"" ++ (if v.IsDelete then "true" else "false") ++ "\"\x7d"

/-- Each member preceded by a comma. -/
def commaTail : List String → String
  | [] => ""
  | y :: ys => "," ++ y ++ commaTail ys

/-- The members separated by commas, in order. -/
def commaSeparated : List String → String
  | [] => ""
  | x :: xs => x ++ commaTail xs

/-- The array stated for a version sequence: the members between brackets,
separated by commas, in the order of the sequence. -/
def statedHistoryReport (P : Platform) (vs : List KeyModification) : String :=
  "[" ++ commaSeparated (vs.map (statedHistoryEntry P)) ++ "]"

/-- A collaborator like `Stub.fabric` whose history iterator yields the versions `vs`
for every key. -/
def Stub.withHistory (vs : List KeyModification) : Stub :=
  { Stub.fabric "tx9" 200 with getHistoryForKey := fun _ _ => .ok (some (vs.map .ok)) }

/-- The ledger `ledgerWithPatient` after `updatePatientData ["1", "Ali Hassan", "Alex"]`. -/
def ledgerUpdatedOnce : Ledger :=
  (updatePatientData Platform.reference (Stub.fabric "tx2" 101) ledgerWithPatient
    ["1", "Ali Hassan", "Alex"]).2

/-- The ledger `ledgerUpdatedOnce` after `updatePatientData ["1", "Ali", "Giza"]`. -/
def ledgerUpdatedTwice : Ledger :=
  (updatePatientData Platform.reference (Stub.fabric "tx3" 102) ledgerUpdatedOnce
    ["1", "Ali", "Giza"]).2

/-- The ledger `ledgerWithPatient`, created at the clock reading 100, after an
`updatePatientData` at the clock reading 50. -/
def ledgerClockBack : Ledger :=
  (updatePatientData Platform.reference (Stub.fabric "tx2" 50) ledgerWithPatient
    ["1", "Ali Hassan", "Alex"]).2

/-! ## Invocations under a clock that does not go back -/

/-- The ledgers reached from the empty ledger by a finite sequence of invocations
during which the clock never goes back: `ReachableBy P t L` when `L` is reached and
every clock reading made so far is at most `t`; the readings of a further invocation
are at least `t`. -/
inductive ReachableBy (P : Platform) : Int → Ledger → Prop where
  | empty (t : Int) : ReachableBy P t Ledger.empty
  | invoke {t : Int} {L : Ledger} (S : Stub) (function : String) (args : List String)
      (t1 : Int) :
      ReachableBy P t L → S.IndexApart → (∀ i, t ≤ S.now i ∧ S.now i ≤ t1) →
      ReachableBy P t1 (Invoke P S L function args).2

/-- Every value under a patient key is the encoding of a patient created no later
than it was last updated, and last updated no later than `t`. -/
def Ledger.timely (P : Platform) (t : Int) (L : Ledger) : Prop :=
  ∀ id b, L.state (patientKey id) = some b →
    ∃ p, b = P.marshalPatient p ∧ p.CreatedAt ≤ p.UpdatedAt ∧ p.UpdatedAt ≤ t

/-! ## Stored identifiers -/

/-- Decoding the encoding of a record gives a record with the same `ID`. -/
def Platform.KeepsID (P : Platform) : Prop :=
  (∀ p : Patient, ∃ q, P.unmarshalPatient (P.marshalPatient p) = .ok q ∧ q.ID = p.ID) ∧
  (∀ d : Disease, ∃ e, P.unmarshalDisease (P.marshalDisease d) = .ok e ∧ e.ID = d.ID)

/-- Every value under the patient key of `n` decodes to a patient with `ID = n`, and
every value under the disease key of `n` decodes to a disease with `ID = n`. -/
def Ledger.idsMatch (P : Platform) (L : Ledger) : Prop :=
  (∀ n b, L.state (patientKey n) = some b →
    ∃ p, P.unmarshalPatient b = .ok p ∧ p.ID = n) ∧
  (∀ n b, L.state (diseaseKey n) = some b →
    ∃ d, P.unmarshalDisease b = .ok d ∧ d.ID = n)

/-- One invocation: the answers of its collaborator, the function name and the
parameters. -/
structure Invocation where
  stub : Stub
  function : String
  args : List String

/-- The ledger after a sequence of invocations, in order, from the ledger `L`. -/
def invokeAll (P : Platform) (L : Ledger) : List Invocation → Ledger
  | [] => L
  | i :: rest => invokeAll P (Invoke P i.stub L i.function i.args).2 rest

/-- The three invocations that lead to `ledgerWithAssignment`. -/
def assignmentSteps : List Invocation :=
  [⟨Stub.fabric "tx1" 100, "createPatient", ["1", "Ali", "Cairo"]⟩,
   ⟨Stub.fabric "tx2" 101, "createDisease", ["7", "Diabetes", "desc"]⟩,
   ⟨Stub.fabric "tx3" 102, "assignDiseaseToPatient", ["1", "7"]⟩]

/-- Later invocations that name disease `7` or write to the ledger. -/
def laterSteps : List Invocation :=
  [⟨Stub.fabric "tx4" 103, "createDisease", ["7", "Flu", "other"]⟩,
   ⟨Stub.fabric "tx5" 104, "updatePatientData", ["1", "Aly", "Giza"]⟩,
   ⟨Stub.fabric "tx6" 105, "createDisease", ["8", "Flu", "other"]⟩]

/-- The ledger `ledgerWithAssignment` after `createDisease ["8", "Flu", "cough"]` and
`assignDiseaseToPatient ["1", "8"]`. -/
def ledgerWithTwoDiseases : Ledger :=
  (assignDiseaseToPatient Platform.reference (Stub.fabric "tx5" 104)
    (createDisease Platform.reference (Stub.fabric "tx4" 103) ledgerWithAssignment
      ["8", "Flu", "cough"]).2 ["1", "8"]).2

/-! ## Basic facts -/

theorem Slice.elems_of {α : Type} (xs : List α) : (Slice.of xs).elems = xs := rfl

theorem Slice.elems_append {α : Type} (s : Slice α) (x : α) :
    (s.append x).elems = s.elems ++ [x] := rfl

theorem len_le_zero_iff (s : String) : len s ≤ 0 ↔ s = "" := by
  rcases s with ⟨cs⟩
  cases cs with
  | nil => simp [len, String.utf8ByteSize, String.utf8ByteSize.go]
  | cons c cs =>
    have hc := Char.utf8Size_pos c
    have hne : (String.mk (c :: cs)) ≠ "" := by
      intro h
      have := congrArg String.data h
      simp at this
    simp only [hne, iff_false, len, String.utf8ByteSize, String.utf8ByteSize.go]
    omega

theorem len_eq_zero_iff (s : String) : len s = 0 ↔ s = "" := by
  rw [← len_le_zero_iff]
  omega

theorem ParseInt_ne_empty {s : String} {v : Int} (h : ParseInt s = some v) : s ≠ "" := by
  rintro rfl
  simp [ParseInt] at h

/-! ## The reference codec reads what it writes -/

theorem dropLit_append (lit rest : List Char) : dropLit lit (lit ++ rest) = some rest := by
  induction lit with
  | nil => cases rest <;> simp [dropLit]
  | cons l ls ih => simp [dropLit, ih]

theorem readStringBody_escape (s rest acc : List Char) :
    readStringBody (jsonEscape s ++ '"' :: rest) false acc = some (acc.reverse ++ s, rest) := by
  induction s generalizing acc with
  | nil => simp [jsonEscape, readStringBody]
  | cons c cs ih =>
    by_cases h1 : c = '"'
    · subst h1
      simp [jsonEscape, readStringBody, ih]
    · by_cases h2 : c = '\\'
      · subst h2
        simp [jsonEscape, readStringBody, ih]
      · simp [jsonEscape, readStringBody, ih, h1, h2]

theorem readString_write (s : String) (rest : List Char) :
    readString (writeString s ++ rest) = some (s, rest) := by
  simp [readString, writeString, readStringBody_escape]

theorem digitVal_digitChar (d : Nat) (h : d < 10) : digitVal (Nat.digitChar d) = some d := by
  interval_cases d <;> decide

theorem toDigitsCore_spec (fuel : Nat) : ∀ n : Nat, n < fuel →
    ∃ pre : List Nat, pre ≠ [] ∧ (∀ d ∈ pre, d < 10) ∧
      (∀ ds, Nat.toDigitsCore 10 fuel n ds = pre.map Nat.digitChar ++ ds) ∧
      (∀ acc, pre.foldl (fun a d => a * 10 + d) acc = acc * 10 ^ pre.length + n) := by
  induction fuel with
  | zero => intro n h; omega
  | succ fuel ih =>
    intro n hn
    by_cases h0 : n / 10 = 0
    · refine ⟨[n % 10], by simp, ?_, ?_, ?_⟩
      · intro d hd
        simp at hd
        omega
      · intro ds
        simp [Nat.toDigitsCore, h0]
      · intro acc
        simp
        omega
    · obtain ⟨pre, hne, hlt, hcore, hval⟩ := ih (n / 10) (by omega)
      refine ⟨pre ++ [n % 10], by simp, ?_, ?_, ?_⟩
      · intro d hd
        simp at hd
        rcases hd with hd | hd
        · exact hlt d hd
        · omega
      · intro ds
        simp [Nat.toDigitsCore, h0, hcore]
      · intro acc
        simp [List.foldl_append, hval, pow_succ]
        have := Nat.div_add_mod n 10
        nlinarith [this]

theorem toDigits_spec (n : Nat) :
    ∃ pre : List Nat, pre ≠ [] ∧ (∀ d ∈ pre, d < 10) ∧
      (toString n).data = pre.map Nat.digitChar ∧
      pre.foldl (fun a d => a * 10 + d) 0 = n := by
  obtain ⟨pre, hne, hlt, hcore, hval⟩ := toDigitsCore_spec (n + 1) n (by omega)
  refine ⟨pre, hne, hlt, ?_, ?_⟩
  · have := hcore []
    simp [toString, Nat.repr, Nat.toDigits, this, List.asString]
  · simpa using hval 0

theorem readDigits_digits (pre : List Nat) (hlt : ∀ d ∈ pre, d < 10) (c : Char)
    (hc : digitVal c = none) (rest : List Char) (acc : Nat) :
    readDigits (pre.map Nat.digitChar ++ c :: rest) acc =
      (pre.foldl (fun a d => a * 10 + d) acc, c :: rest) := by
  induction pre generalizing acc with
  | nil => simp [readDigits, hc]
  | cons d ds ih =>
    have hd := digitVal_digitChar d (hlt d (by simp))
    simp [readDigits, hd, ih (fun x hx => hlt x (by simp [hx]))]

theorem readNat_write (n : Nat) (c : Char) (hc : digitVal c = none) (rest : List Char) :
    readNat ((toString n).data ++ c :: rest) = some (n, c :: rest) := by
  obtain ⟨pre, hne, hlt, hdata, hval⟩ := toDigits_spec n
  rw [hdata]
  cases pre with
  | nil => exact absurd rfl hne
  | cons d ds =>
    have hd := digitVal_digitChar d (hlt d (by simp))
    have := readDigits_digits (d :: ds) hlt c hc rest 0
    simp only [List.map_cons, List.cons_append] at this
    simp [readNat, hd, this, hval]

theorem readInt_write (v : Int) (c : Char) (hc : digitVal c = none) (rest : List Char) :
    readInt (writeInt v ++ c :: rest) = some (v, c :: rest) := by
  cases v with
  | ofNat n =>
    obtain ⟨pre, hne, hlt, hdata, hval⟩ := toDigits_spec n
    have hw : writeInt (Int.ofNat n) = (toString n).data := by
      simp [writeInt, fmtInt, toString]
    have hr := readNat_write n c hc rest
    rw [hw]
    rw [hdata] at hr ⊢
    cases pre with
    | nil => exact absurd rfl hne
    | cons d ds =>
      have hd := digitVal_digitChar d (hlt d (by simp))
      have hneg : Nat.digitChar d ≠ '-' := by
        intro h
        rw [h] at hd
        have h2 : digitVal '-' = none := by decide
        rw [h2] at hd
        exact absurd hd (by simp)
      simp only [List.map_cons, List.cons_append] at hr ⊢
      simp [readInt, hneg, hr]
  | negSucc n =>
    have hw : writeInt (Int.negSucc n) = '-' :: (toString (n + 1)).data := by
      simp [writeInt, fmtInt, toString]
    rw [hw]
    simp [readInt, readNat_write (n + 1) c hc rest]
    rw [Int.negSucc_eq]
    omega

theorem readInt_write_lit (v : Int) (lit rest : List Char) (c : Char) (tl : List Char)
    (hlit : lit = c :: tl) (hc : digitVal c = none) :
    readInt (writeInt v ++ (lit ++ rest)) = some (v, lit ++ rest) := by
  subst hlit
  exact readInt_write v c hc (tl ++ rest)

theorem readDisease_write (d : Disease) (rest : List Char) :
    readDisease (writeDisease d ++ rest) = some (d, rest) := by
  have h1 := fun r => readInt_write_lit d.ID (nextKey "Name") r ',' _ rfl (by decide)
  simp only [readDisease, writeDisease, List.append_assoc, dropLit_append, h1,
    readString_write, Option.bind_eq_bind, Option.some_bind, Option.pure_def]

theorem readOpration_write (o : Opration) (rest : List Char) :
    readOpration (writeOpration o ++ rest) = some (o, rest) := by
  have h1 := fun r => readInt_write_lit o.CreatedAt closeObject r '\x7d' _ rfl (by decide)
  simp only [readOpration, writeOpration, List.append_assoc, dropLit_append, h1,
    readString_write, Option.bind_eq_bind, Option.some_bind, Option.pure_def]

theorem length_lt_writeRest {α : Type} (w : α → List Char) (xs : List α) :
    xs.length < (writeRest w xs).length := by
  induction xs with
  | nil => simp [writeRest]
  | cons x xs ih =>
    simp [writeRest]
    omega

theorem readRest_write {α : Type} (w : α → List Char)
    (r : List Char → Option (α × List Char))
    (hr : ∀ x rest, r (w x ++ rest) = some (x, rest)) (xs : List α) :
    ∀ (fuel : Nat) (rest : List Char), xs.length < fuel →
      readRest r fuel (writeRest w xs ++ rest) = some (xs, rest) := by
  induction xs with
  | nil =>
    intro fuel rest h
    cases fuel with
    | zero => omega
    | succ fuel => simp [writeRest, readRest]
  | cons x xs ih =>
    intro fuel rest h
    cases fuel with
    | zero => omega
    | succ fuel =>
      have h2 : xs.length < fuel := by
        simp at h
        omega
      simp [writeRest, readRest, hr, ih fuel rest h2]

theorem readSlice_write {α : Type} (w : α → List Char)
    (r : List Char → Option (α × List Char))
    (hr : ∀ x rest, r (w x ++ rest) = some (x, rest))
    (hw : ∀ x, ∃ tl, w x = '\x7b' :: tl) (s : Slice α) (rest : List Char) :
    readSlice r (writeSlice w s ++ rest) = some (s, rest) := by
  cases s with
  | nil => simp [readSlice, writeSlice, dropLit]
  | of xs =>
    cases xs with
    | nil => simp [readSlice, writeSlice, dropLit]
    | cons x xs =>
      obtain ⟨tl, htl⟩ := hw x
      have h1 : dropLit "null".data ('[' :: (w x ++ writeRest w xs) ++ rest) = none := by
        simp [dropLit]
      have h2 : dropLit "[]".data ('[' :: (w x ++ writeRest w xs) ++ rest) = none := by
        simp [dropLit, htl]
      have h3 : dropLit "[".data ('[' :: (w x ++ writeRest w xs) ++ rest)
          = some (w x ++ (writeRest w xs ++ rest)) := by
        simp [dropLit]
      have h4 := readRest_write w r hr xs (writeRest w xs ++ rest).length rest
        (by
          have := length_lt_writeRest w xs
          simp
          omega)
      simp only [readSlice, writeSlice, h1, h2, h3, hr, h4]

theorem readPatientIdentity_write (p : Patient) (rest : List Char) :
    readPatientIdentity (writePatientIdentity p ++ rest) =
      some ((p.ID, p.Name, p.Address), rest) := by
  have h1 := fun r => readInt_write_lit p.ID (nextKey "Name") r ',' _ rfl (by decide)
  simp only [readPatientIdentity, writePatientIdentity, List.append_assoc, dropLit_append,
    h1, readString_write, Option.bind_eq_bind, Option.some_bind, Option.pure_def]

theorem readPatientTimes_write (p : Patient) (c : Char) (hc : digitVal c = none)
    (rest : List Char) :
    readPatientTimes (writePatientTimes p ++ c :: rest) =
      some ((p.CreatedAt, p.UpdatedAt), c :: rest) := by
  have h2 := fun r =>
    readInt_write_lit p.CreatedAt (nextKey "UpdatedAt") r ',' _ rfl (by decide)
  have h3 := readInt_write p.UpdatedAt c hc rest
  simp only [readPatientTimes, writePatientTimes, List.append_assoc, dropLit_append,
    h2, h3, Option.bind_eq_bind, Option.some_bind, Option.pure_def]

theorem readPatientLists_write (p : Patient) (rest : List Char) :
    readPatientLists (writePatientLists p ++ rest) =
      some ((p.Diseases, p.History), rest) := by
  have h4 := readSlice_write writeDisease readDisease readDisease_write
    (fun d => ⟨_, rfl⟩) p.Diseases
  have h5 := readSlice_write writeOpration readOpration readOpration_write
    (fun o => ⟨_, rfl⟩) p.History
  simp only [readPatientLists, writePatientLists, List.append_assoc, dropLit_append,
    h4, h5, Option.bind_eq_bind, Option.some_bind, Option.pure_def]

theorem readPatient_write (p : Patient) (rest : List Char) :
    readPatient (writePatient p ++ rest) = some (p, rest) := by
  have h1 := readPatientIdentity_write p
  have h2 : ∀ r, readPatientTimes (writePatientTimes p ++ (writePatientLists p ++ r)) =
      some ((p.CreatedAt, p.UpdatedAt), writePatientLists p ++ r) := fun r =>
    readPatientTimes_write p ',' (by decide) _
  have h3 := readPatientLists_write p
  simp only [readPatient, writePatient, List.append_assoc, h1, h2, h3,
    Option.bind_eq_bind, Option.some_bind, Option.pure_def]

theorem reference_unmarshalPatient_marshalPatient (p : Patient) :
    Platform.reference.unmarshalPatient (Platform.reference.marshalPatient p) = .ok p := by
  have h := readPatient_write p []
  simp only [List.append_nil] at h
  simp [Platform.reference, h]

theorem reference_unmarshalDisease_marshalDisease (d : Disease) :
    Platform.reference.unmarshalDisease (Platform.reference.marshalDisease d) = .ok d := by
  have h := readDisease_write d []
  simp only [List.append_nil] at h
  simp [Platform.reference, h]

/-! ## Keys -/

theorem patientKey_ne_diseaseKey (a b : Int) : patientKey a ≠ diseaseKey b := by
  intro h
  have h2 := congrArg String.data h
  simp [patientKey, diseaseKey, String.data_append] at h2

theorem fabricCreateCompositeKey_ne_patientKey (objectType : String)
    (attributes : List String) (k : String)
    (h : fabricCreateCompositeKey objectType attributes = .ok k) (id : Int) :
    k ≠ patientKey id := by
  intro hk
  unfold fabricCreateCompositeKey at h
  split at h
  · injection h with h
    subst h
    have h2 := congrArg String.data hk
    simp [patientKey, String.data_append] at h2
  · exact absurd h (by simp)

theorem fabric_indexApart (txID : String) (t : Int) : (Stub.fabric txID t).IndexApart := by
  intro objectType attributes k h id
  exact fabricCreateCompositeKey_ne_patientKey objectType attributes k h id

/-! ## What an operation writes -/

theorem Stub.PutState_ok {S : Stub} {L L1 : Ledger} {key : String} {value : Bytes}
    (h : S.PutState L key value = .ok L1) : L1 = L.put S key value := by
  unfold Stub.PutState at h
  split at h
  · exact absurd h (by simp)
  · injection h with h
    exact h.symm

theorem Stub.GetState_ok {S : Stub} {L : Ledger} {key : String} {v : Option Bytes}
    (h : S.GetState L key = .ok v) : L.state key = v := by
  unfold Stub.GetState at h
  split at h
  · exact absurd h (by simp)
  · injection h

theorem Stub.PutState_eq_ok {S : Stub} {L L1 : Ledger} {key : String} {value : Bytes} :
    S.PutState L key value = .ok L1 ↔
      S.putStateErr key value = none ∧ L.put S key value = L1 := by
  unfold Stub.PutState
  cases S.putStateErr key value <;> simp

theorem Stub.GetState_eq_ok {S : Stub} {L : Ledger} {key : String} {v : Option Bytes} :
    S.GetState L key = .ok v ↔ S.getStateErr key = none ∧ L.state key = v := by
  unfold Stub.GetState
  cases S.getStateErr key <;> simp

theorem createPatient_ledger (P : Platform) (S : Stub) (L : Ledger) (args : List String) :
    (createPatient P S L args).2 = L ∨
    ∃ id name address,
      (createPatient P S L args).2 = L.put S (patientKey id)
        (P.marshalPatient ⟨id, name, address, S.now 0, S.now 0, .nil, .nil⟩) ∨
      ∃ k, S.createCompositeKey "patient~ID" ["patient", runeString id] = .ok k ∧
        (createPatient P S L args).2 = (L.put S (patientKey id)
          (P.marshalPatient ⟨id, name, address, S.now 0, S.now 0, .nil, .nil⟩)).put S k "\x00" := by
  simp only [createPatient]
  repeat' split
  all_goals first
    | (left; rfl)
    | (right
       simp only [Stub.PutState_eq_ok] at *
       casesm* _ ∧ _
       subst_vars
       first
         | exact ⟨_, _, _, Or.inl rfl⟩
         | exact ⟨_, _, _, Or.inr ⟨_, ‹_›, rfl⟩⟩)

theorem updatePatientData_ledger (P : Platform) (S : Stub) (L : Ledger)
    (args : List String) :
    (updatePatientData P S L args).2 = L ∨
    ∃ id b p name address, L.state (patientKey id) = some b ∧
      P.unmarshalPatient b = .ok p ∧
      (updatePatientData P S L args).2 = L.put S (patientKey id)
        (P.marshalPatient { p with Name := name, Address := address, UpdatedAt := S.now 0 }) := by
  simp only [updatePatientData]
  repeat' split
  all_goals first
    | (left; rfl)
    | (right
       simp only [Stub.PutState_eq_ok, Stub.GetState_eq_ok] at *
       casesm* _ ∧ _
       subst_vars
       exact ⟨_, _, _, _, _, ‹_›, ‹_›, rfl⟩)

theorem addPatientHistory_ledger (P : Platform) (S : Stub) (L : Ledger)
    (args : List String) :
    (addPatientHistory P S L args).2 = L ∨
    ∃ id b p description, L.state (patientKey id) = some b ∧
      P.unmarshalPatient b = .ok p ∧
      (addPatientHistory P S L args).2 = L.put S (patientKey id)
        (P.marshalPatient { p with
          History := p.History.append ⟨description, S.now 0⟩, UpdatedAt := S.now 1 }) := by
  simp only [addPatientHistory]
  repeat' split
  all_goals first
    | (left; rfl)
    | (right
       simp only [Stub.PutState_eq_ok, Stub.GetState_eq_ok] at *
       casesm* _ ∧ _
       subst_vars
       exact ⟨_, _, _, _, ‹_›, ‹_›, rfl⟩)

theorem createDisease_ledger (P : Platform) (S : Stub) (L : Ledger) (args : List String) :
    (createDisease P S L args).2 = L ∨
    ∃ id v,
      (createDisease P S L args).2 = L.put S (diseaseKey id) v ∨
      ∃ k, S.createCompositeKey "Disease~ID" ["Disease", runeString id] = .ok k ∧
        (createDisease P S L args).2 = (L.put S (diseaseKey id) v).put S k "\x00" := by
  simp only [createDisease]
  repeat' split
  all_goals first
    | (left; rfl)
    | (right
       simp only [Stub.PutState_eq_ok] at *
       casesm* _ ∧ _
       subst_vars
       first
         | exact ⟨_, _, Or.inl rfl⟩
         | exact ⟨_, _, Or.inr ⟨_, ‹_›, rfl⟩⟩)

theorem assignDiseaseToPatient_ledger (P : Platform) (S : Stub) (L : Ledger)
    (args : List String) :
    (assignDiseaseToPatient P S L args).2 = L ∨
    ∃ id b p d, L.state (patientKey id) = some b ∧
      P.unmarshalPatient b = .ok p ∧
      (∀ x ∈ p.Diseases.elems, x.ID ≠ d.ID) ∧
      (assignDiseaseToPatient P S L args).2 = L.put S (patientKey id)
        (P.marshalPatient { p with
          Diseases := p.Diseases.append d, UpdatedAt := S.now 0 }) := by
  simp only [assignDiseaseToPatient]
  repeat' split
  all_goals first
    | (left; rfl)
    | (right
       simp only [Stub.PutState_eq_ok, Stub.GetState_eq_ok] at *
       casesm* _ ∧ _
       subst_vars
       refine ⟨_, _, _, _, ‹_›, ‹_›, ?_, rfl⟩
       intro x hx hxd
       have hany : (List.any _ (fun dis : Disease => decide (dis.ID = _))) = true :=
         List.any_eq_true.mpr ⟨x, hx, decide_eq_true hxd⟩
       contradiction)

theorem getPatientbyID_ledger (P : Platform) (S : Stub) (L : Ledger) (args : List String) :
    (getPatientbyID P S L args).2 = L := by
  simp only [getPatientbyID]
  repeat' split
  all_goals rfl

theorem getDiseasebyID_ledger (P : Platform) (S : Stub) (L : Ledger) (args : List String) :
    (getDiseasebyID P S L args).2 = L := by
  simp only [getDiseasebyID]
  repeat' split
  all_goals rfl

theorem getPatientHistorybyID_ledger (P : Platform) (S : Stub) (L : Ledger)
    (args : List String) : (getPatientHistorybyID P S L args).2 = L := by
  simp only [getPatientHistorybyID]
  repeat' split
  all_goals rfl

/-! ## Distinct diseases -/

theorem wellStored_put_patient (P : Platform) (S : Stub) (L : Ledger)
    (h : L.wellStored P) (id : Int) (p : Patient) (hp : p.distinctDiseases) :
    (L.put S (patientKey id) (P.marshalPatient p)).wellStored P := by
  intro id2 b hb
  by_cases hk : patientKey id2 = patientKey id
  · simp only [Ledger.put, hk, if_true, Option.some.injEq] at hb
    exact ⟨p, hb.symm, hp⟩
  · simp only [Ledger.put, hk, if_false] at hb
    exact h id2 b hb

theorem wellStored_put_other (P : Platform) (S : Stub) (L : Ledger)
    (h : L.wellStored P) (k : String) (v : Bytes) (hk : ∀ id, k ≠ patientKey id) :
    (L.put S k v).wellStored P := by
  intro id2 b hb
  have hne : ¬ patientKey id2 = k := fun e => hk id2 e.symm
  simp only [Ledger.put, hne, if_false] at hb
  exact h id2 b hb

theorem wellStored_decode (P : Platform)
    (hround : ∀ p, P.unmarshalPatient (P.marshalPatient p) = .ok p) (L : Ledger)
    (h : L.wellStored P) (id : Int) (b : Bytes) (p : Patient)
    (hb : L.state (patientKey id) = some b) (hp : P.unmarshalPatient b = .ok p) :
    p.distinctDiseases := by
  obtain ⟨p0, rfl, hp0⟩ := h id b hb
  rw [hround p0] at hp
  injection hp with hp
  exact hp ▸ hp0

theorem wellStored_invoke (P : Platform)
    (hround : ∀ p, P.unmarshalPatient (P.marshalPatient p) = .ok p) (S : Stub)
    (hS : S.IndexApart) (L : Ledger) (h : L.wellStored P) (function : String)
    (args : List String) : (Invoke P S L function args).2.wellStored P := by
  unfold Invoke
  split_ifs
  · rcases createPatient_ledger P S L args with e | ⟨id, name, address, e | ⟨k, hk, e⟩⟩
    · rw [e]; exact h
    · rw [e]
      exact wellStored_put_patient P S L h id _ (by simp [Patient.distinctDiseases, Slice.elems])
    · rw [e]
      exact wellStored_put_other P S _
        (wellStored_put_patient P S L h id _
          (by simp [Patient.distinctDiseases, Slice.elems])) k _ (hS _ _ k hk)
  · rcases updatePatientData_ledger P S L args with e | ⟨id, b, p, name, address, hb, hp, e⟩
    · rw [e]; exact h
    · rw [e]
      exact wellStored_put_patient P S L h id _ (wellStored_decode P hround L h id b p hb hp)
  · rcases addPatientHistory_ledger P S L args with e | ⟨id, b, p, description, hb, hp, e⟩
    · rw [e]; exact h
    · rw [e]
      exact wellStored_put_patient P S L h id _ (wellStored_decode P hround L h id b p hb hp)
  · rw [getPatientbyID_ledger]; exact h
  · rw [getPatientHistorybyID_ledger]; exact h
  · rcases createDisease_ledger P S L args with e | ⟨id, v, e | ⟨k, hk, e⟩⟩
    · rw [e]; exact h
    · rw [e]
      exact wellStored_put_other P S L h _ _ (fun i e2 => patientKey_ne_diseaseKey i id e2.symm)
    · rw [e]
      exact wellStored_put_other P S _
        (wellStored_put_other P S L h _ _
          (fun i e2 => patientKey_ne_diseaseKey i id e2.symm)) k _ (hS _ _ k hk)
  · rw [getDiseasebyID_ledger]; exact h
  · rcases assignDiseaseToPatient_ledger P S L args with e | ⟨id, b, p, d, hb, hp, hfresh, e⟩
    · rw [e]; exact h
    · rw [e]
      refine wellStored_put_patient P S L h id _ ?_
      have hp0 := wellStored_decode P hround L h id b p hb hp
      unfold Patient.distinctDiseases at hp0 ⊢
      simp only [Slice.elems_append, List.map_append, List.map_cons, List.map_nil]
      rw [List.nodup_append]
      refine ⟨hp0, List.nodup_singleton _, ?_⟩
      intro a ha hd
      simp only [List.mem_singleton] at hd
      obtain ⟨x, hx, rfl⟩ := List.mem_map.mp ha
      exact hfresh x hx hd
  · exact h

theorem reachable_wellStored (P : Platform)
    (hround : ∀ p, P.unmarshalPatient (P.marshalPatient p) = .ok p) (L : Ledger)
    (hL : Reachable P L) : L.wellStored P := by
  induction hL with
  | empty =>
    intro id b hb
    simp [Ledger.empty] at hb
  | invoke S function args _ hS ih => exact wellStored_invoke P hround S hS _ ih function args

/-! ## Validation of the arguments -/

theorem createPatient_earlyViolation (P : Platform) (S : Stub) (L : Ledger)
    (args : List String) (v : Violation)
    (h : firstViolation 3 [0] args = some v) :
    createPatient P S L args = (.error (Operation.createPatient.violationMsg v), L) := by
  rcases args with _ | ⟨a0, _ | ⟨a1, _ | ⟨a2, _ | ⟨a3, rest⟩⟩⟩⟩
  all_goals first
    | (simp [firstViolation] at h
       subst h
       rfl)
    | skip
  by_cases h0 : a0 = ""
  · subst h0
    simp [firstViolation, firstEmpty] at h
    subst h
    simp [createPatient, len_eq_zero_iff, Operation.violationMsg, Operation.argNames, ordinal]
  by_cases h1 : a1 = ""
  · subst h1
    simp [firstViolation, firstEmpty, h0] at h
    subst h
    simp [createPatient, len_eq_zero_iff, Operation.violationMsg, Operation.argNames, ordinal, h0]
  by_cases h2 : a2 = ""
  · subst h2
    simp [firstViolation, firstEmpty, h0, h1] at h
    subst h
    simp [createPatient, len_eq_zero_iff, Operation.violationMsg, Operation.argNames, ordinal, h0, h1]
  cases hp : ParseInt a0
  · simp [firstViolation, firstEmpty, firstUnparsable, h0, h1, h2, hp] at h
    subst h
    simp [createPatient, len_eq_zero_iff, Operation.violationMsg, ordinal, h0, h1, h2, hp]
  · simp [firstViolation, firstEmpty, firstUnparsable, h0, h1, h2, hp] at h

theorem updatePatientData_earlyViolation (P : Platform) (S : Stub) (L : Ledger)
    (args : List String) (v : Violation)
    (h : firstViolation 3 [0] args = some v) :
    updatePatientData P S L args = (.error (Operation.updatePatientData.violationMsg v), L) := by
  rcases args with _ | ⟨a0, _ | ⟨a1, _ | ⟨a2, _ | ⟨a3, rest⟩⟩⟩⟩
  all_goals first
    | (simp [firstViolation] at h
       subst h
       rfl)
    | skip
  by_cases h0 : a0 = ""
  · subst h0
    simp [firstViolation, firstEmpty] at h
    subst h
    simp [updatePatientData, len_eq_zero_iff, Operation.violationMsg, Operation.argNames, ordinal]
  by_cases h1 : a1 = ""
  · subst h1
    simp [firstViolation, firstEmpty, h0] at h
    subst h
    simp [updatePatientData, len_eq_zero_iff, Operation.violationMsg, Operation.argNames, ordinal, h0]
  by_cases h2 : a2 = ""
  · subst h2
    simp [firstViolation, firstEmpty, h0, h1] at h
    subst h
    simp [updatePatientData, len_eq_zero_iff, Operation.violationMsg, Operation.argNames, ordinal, h0, h1]
  cases hp : ParseInt a0
  · simp [firstViolation, firstEmpty, firstUnparsable, h0, h1, h2, hp] at h
    subst h
    simp [updatePatientData, len_eq_zero_iff, Operation.violationMsg, ordinal, h0, h1, h2, hp]
  · simp [firstViolation, firstEmpty, firstUnparsable, h0, h1, h2, hp] at h

theorem addPatientHistory_earlyViolation (P : Platform) (S : Stub) (L : Ledger)
    (args : List String) (v : Violation)
    (h : firstViolation 2 [0] args = some v) :
    addPatientHistory P S L args = (.error (Operation.addPatientHistory.violationMsg v), L) := by
  rcases args with _ | ⟨a0, _ | ⟨a1, _ | ⟨a2, _ | ⟨a3, rest⟩⟩⟩⟩
  all_goals first
    | (simp [firstViolation] at h
       subst h
       rfl)
    | skip
  by_cases h0 : a0 = ""
  · subst h0
    simp [firstViolation, firstEmpty] at h
    subst h
    simp [addPatientHistory, len_eq_zero_iff, Operation.violationMsg, Operation.argNames, ordinal]
  by_cases h1 : a1 = ""
  · subst h1
    simp [firstViolation, firstEmpty, h0] at h
    subst h
    simp [addPatientHistory, len_eq_zero_iff, Operation.violationMsg, Operation.argNames, ordinal, h0]
  cases hp : ParseInt a0
  · simp [firstViolation, firstEmpty, firstUnparsable, h0, h1, hp] at h
    subst h
    simp [addPatientHistory, len_eq_zero_iff, Operation.violationMsg, ordinal, h0, h1, hp]
  · simp [firstViolation, firstEmpty, firstUnparsable, h0, h1, hp] at h

theorem getPatientbyID_earlyViolation (P : Platform) (S : Stub) (L : Ledger)
    (args : List String) (v : Violation)
    (h : firstViolation 1 [0] args = some v) :
    getPatientbyID P S L args = (.error (Operation.getPatientbyID.violationMsg v), L) := by
  rcases args with _ | ⟨a0, _ | ⟨a1, _ | ⟨a2, _ | ⟨a3, rest⟩⟩⟩⟩
  all_goals first
    | (simp [firstViolation] at h
       subst h
       rfl)
    | skip
  by_cases h0 : a0 = ""
  · subst h0
    simp [firstViolation, firstEmpty] at h
    subst h
    simp [getPatientbyID, len_eq_zero_iff, Operation.violationMsg, Operation.argNames, ordinal]
  cases hp : ParseInt a0
  · simp [firstViolation, firstEmpty, firstUnparsable, h0, hp] at h
    subst h
    simp [getPatientbyID, len_eq_zero_iff, Operation.violationMsg, ordinal, h0, hp]
  · simp [firstViolation, firstEmpty, firstUnparsable, h0, hp] at h

theorem getPatientHistorybyID_earlyViolation (P : Platform) (S : Stub) (L : Ledger)
    (args : List String) (v : Violation)
    (h : firstViolation 1 [0] args = some v) :
    getPatientHistorybyID P S L args = (.error (Operation.getPatientHistorybyID.violationMsg v), L) := by
  rcases args with _ | ⟨a0, _ | ⟨a1, _ | ⟨a2, _ | ⟨a3, rest⟩⟩⟩⟩
  all_goals first
    | (simp [firstViolation] at h
       subst h
       rfl)
    | skip
  by_cases h0 : a0 = ""
  · subst h0
    simp [firstViolation, firstEmpty] at h
    subst h
    simp [getPatientHistorybyID, len_eq_zero_iff, Operation.violationMsg, Operation.argNames, ordinal]
  cases hp : ParseInt a0
  · simp [firstViolation, firstEmpty, firstUnparsable, h0, hp] at h
    subst h
    simp [getPatientHistorybyID, len_eq_zero_iff, Operation.violationMsg, ordinal, h0, hp]
  · simp [firstViolation, firstEmpty, firstUnparsable, h0, hp] at h

theorem createDisease_earlyViolation (P : Platform) (S : Stub) (L : Ledger)
    (args : List String) (v : Violation)
    (h : firstViolation 3 [0] args = some v) :
    createDisease P S L args = (.error (Operation.createDisease.violationMsg v), L) := by
  rcases args with _ | ⟨a0, _ | ⟨a1, _ | ⟨a2, _ | ⟨a3, rest⟩⟩⟩⟩
  all_goals first
    | (simp [firstViolation] at h
       subst h
       rfl)
    | skip
  by_cases h0 : a0 = ""
  · subst h0
    simp [firstViolation, firstEmpty] at h
    subst h
    simp [createDisease, len_eq_zero_iff, Operation.violationMsg, Operation.argNames, ordinal]
  by_cases h1 : a1 = ""
  · subst h1
    simp [firstViolation, firstEmpty, h0] at h
    subst h
    simp [createDisease, len_eq_zero_iff, Operation.violationMsg, Operation.argNames, ordinal, h0]
  by_cases h2 : a2 = ""
  · subst h2
    simp [firstViolation, firstEmpty, h0, h1] at h
    subst h
    simp [createDisease, len_eq_zero_iff, Operation.violationMsg, Operation.argNames, ordinal, h0, h1]
  cases hp : ParseInt a0
  · simp [firstViolation, firstEmpty, firstUnparsable, h0, h1, h2, hp] at h
    subst h
    simp [createDisease, len_eq_zero_iff, Operation.violationMsg, ordinal, h0, h1, h2, hp]
  · simp [firstViolation, firstEmpty, firstUnparsable, h0, h1, h2, hp] at h

theorem getDiseasebyID_earlyViolation (P : Platform) (S : Stub) (L : Ledger)
    (args : List String) (v : Violation)
    (h : firstViolation 1 [0] args = some v) :
    getDiseasebyID P S L args = (.error (Operation.getDiseasebyID.violationMsg v), L) := by
  rcases args with _ | ⟨a0, _ | ⟨a1, _ | ⟨a2, _ | ⟨a3, rest⟩⟩⟩⟩
  all_goals first
    | (simp [firstViolation] at h
       subst h
       rfl)
    | skip
  by_cases h0 : a0 = ""
  · subst h0
    simp [firstViolation, firstEmpty] at h
    subst h
    simp [getDiseasebyID, len_eq_zero_iff, Operation.violationMsg, Operation.argNames, ordinal]
  cases hp : ParseInt a0
  · simp [firstViolation, firstEmpty, firstUnparsable, h0, hp] at h
    subst h
    simp [getDiseasebyID, len_eq_zero_iff, Operation.violationMsg, ordinal, h0, hp]
  · simp [firstViolation, firstEmpty, firstUnparsable, h0, hp] at h

theorem assignDiseaseToPatient_earlyViolation (P : Platform) (S : Stub) (L : Ledger)
    (args : List String) (v : Violation)
    (h : firstViolation 2 [0] args = some v) :
    assignDiseaseToPatient P S L args = (.error (Operation.assignDiseaseToPatient.violationMsg v), L) := by
  rcases args with _ | ⟨a0, _ | ⟨a1, _ | ⟨a2, _ | ⟨a3, rest⟩⟩⟩⟩
  all_goals first
    | (simp [firstViolation] at h
       subst h
       rfl)
    | skip
  by_cases h0 : a0 = ""
  · subst h0
    simp [firstViolation, firstEmpty] at h
    subst h
    simp [assignDiseaseToPatient, len_eq_zero_iff, Operation.violationMsg, Operation.argNames, ordinal]
  by_cases h1 : a1 = ""
  · subst h1
    simp [firstViolation, firstEmpty, h0] at h
    subst h
    simp [assignDiseaseToPatient, len_eq_zero_iff, Operation.violationMsg, Operation.argNames, ordinal, h0]
  cases hp : ParseInt a0
  · simp [firstViolation, firstEmpty, firstUnparsable, h0, h1, hp] at h
    subst h
    simp [assignDiseaseToPatient, len_eq_zero_iff, Operation.violationMsg, ordinal, h0, h1, hp]
  · simp [firstViolation, firstEmpty, firstUnparsable, h0, h1, hp] at h

theorem run_of_earlyViolation (P : Platform) (S : Stub) (L : Ledger) (op : Operation)
    (args : List String) (v : Violation) (h : op.earlyViolation args = some v) :
    op.run P S L args = (.error (op.violationMsg v), L) := by
  cases op
  · exact createPatient_earlyViolation P S L args v h
  · exact updatePatientData_earlyViolation P S L args v h
  · exact addPatientHistory_earlyViolation P S L args v h
  · exact getPatientbyID_earlyViolation P S L args v h
  · exact getPatientHistorybyID_earlyViolation P S L args v h
  · exact createDisease_earlyViolation P S L args v h
  · exact getDiseasebyID_earlyViolation P S L args v h
  · exact assignDiseaseToPatient_earlyViolation P S L args v h

theorem assignDiseaseToPatient_second_unparsable (P : Platform) (S : Stub) (L : Ledger)
    (pidStr x : String) (pid : Int) (hpid : ParseInt pidStr = some pid) (hx : x ≠ "")
    (hx2 : ParseInt x = none) :
    assignDiseaseToPatient P S L [pidStr, x] =
      match S.GetState L (patientKey pid) with
      | .error e => (.error ("Failed to get patient:" ++ e), L)
      | .ok none => (.error "patient does not exist", L)
      | .ok (some _) => (.error "ID: 1st argument must be a numeric 64bit of string", L) := by
  have hpne := ParseInt_ne_empty hpid
  simp only [assignDiseaseToPatient, len_le_zero_iff, hpne, hx, hpid, hx2, if_false]

theorem firstEmpty_of_mem (args : List String) (h : "" ∈ args) (k : Nat) :
    ∃ i, firstEmpty args k = some i := by
  induction args generalizing k with
  | nil => simp at h
  | cons a rest ih =>
    by_cases ha : a = ""
    · exact ⟨k, by simp [firstEmpty, ha]⟩
    · have hr : "" ∈ rest := by
        rcases List.mem_cons.mp h with h | h
        · exact absurd h.symm ha
        · exact h
      obtain ⟨i, hi⟩ := ih hr (k + 1)
      exact ⟨i, by simp [firstEmpty, ha, hi]⟩

theorem firstEmpty_of_not_mem (args : List String) (h : "" ∉ args) (k : Nat) :
    firstEmpty args k = none := by
  induction args generalizing k with
  | nil => rfl
  | cons a rest ih =>
    have ha : ¬ a = "" := fun e => h (by simp [e])
    have hr : "" ∉ rest := fun e => h (by simp [e])
    simp [firstEmpty, ha, ih hr]

theorem earlyViolation_of_invalidArgs (op : Operation) (args : List String)
    (h : op.invalidArgs args) :
    (∃ v, op.earlyViolation args = some v) ∨
    (op = .assignDiseaseToPatient ∧ ∃ a0 a1 pid, args = [a0, a1] ∧
      ParseInt a0 = some pid ∧ a1 ≠ "" ∧ ParseInt a1 = none) := by
  by_cases hlen : args.length = op.argNames.length
  swap
  · exact Or.inl ⟨.count, by simp [Operation.earlyViolation, firstViolation, hlen]⟩
  by_cases hmem : "" ∈ args
  · obtain ⟨i, hi⟩ := firstEmpty_of_mem args hmem 0
    exact Or.inl ⟨.empty i, by simp [Operation.earlyViolation, firstViolation, hlen, hi]⟩
  have hnone := firstEmpty_of_not_mem args hmem 0
  rcases h with h | h | ⟨i, hi, a, ha, hpa⟩
  · exact absurd hlen h
  · exact absurd h hmem
  rcases args with _ | ⟨a0, rest⟩
  · simp at ha
  cases hp0 : ParseInt a0 with
  | none =>
    exact Or.inl ⟨.unparsable 0, by
      simp [Operation.earlyViolation, firstViolation, hlen, hnone, firstUnparsable,
        List.getElem?_cons_zero, hp0]⟩
  | some pid =>
    right
    cases op <;> simp [Operation.idPositions] at hi
    all_goals first
      | (subst hi
         simp at ha
         subst ha
         rw [hp0] at hpa
         exact absurd hpa (by simp))
      | skip
    rcases hi with hi | hi
    · subst hi
      simp at ha
      subst ha
      rw [hp0] at hpa
      exact absurd hpa (by simp)
    · subst hi
      rcases rest with _ | ⟨a1, _ | ⟨a2, rest⟩⟩
      · simp at ha
      · simp at ha
        subst ha
        refine ⟨rfl, a0, a1, pid, rfl, hp0, ?_, hpa⟩
        intro e
        exact hmem (by simp [e])
      · simp [Operation.argNames] at hlen

theorem run_of_invalidArgs (P : Platform) (S : Stub) (L : Ledger) (op : Operation)
    (args : List String) (h : op.invalidArgs args) :
    (op.run P S L args).1.isError = true ∧ (op.run P S L args).2 = L := by
  rcases earlyViolation_of_invalidArgs op args h with ⟨v, hv⟩ | ⟨rfl, a0, a1, pid, rfl, h0, h1, h2⟩
  · rw [run_of_earlyViolation P S L op args v hv]
    exact ⟨rfl, rfl⟩
  · simp only [Operation.run]
    rw [assignDiseaseToPatient_second_unparsable P S L a0 a1 pid h0 h1 h2]
    rcases S.GetState L (patientKey pid) with e | (_ | b) <;> exact ⟨rfl, rfl⟩

/-! ## Creating a patient -/

/-- Creation and read of a patient when the index key is created: on a ledger where
the patient key is absent, with arguments
`[idStr, name, address]` such that `idStr` parses to `id` and `name`, `address` are
non-empty, and a collaborator that reports no error for the get and the put of the
record and returns an index key `k` other than the record key: `createPatient`
succeeds, and a following `getPatientbyID [idStr]` succeeds and returns the encoding
of the patient with `ID = id`, lower-cased name and address,
`CreatedAt = UpdatedAt = now` and nil `Diseases` and `History`. -/
theorem createPatient_then_getPatientbyID (P : Platform) (S S2 : Stub) (L : Ledger)
    (idStr name address : String) (id : Int) (k : String)
    (hid : ParseInt idStr = some id) (hname : name ≠ "") (haddress : address ≠ "")
    (habsent : L.state (patientKey id) = none)
    (hget : S.getStateErr (patientKey id) = none)
    (hput : S.putStateErr (patientKey id)
      (P.marshalPatient
        ⟨id, P.toLower name, P.toLower address, S.now 0, S.now 0, .nil, .nil⟩) = none)
    (hkey : S.createCompositeKey "patient~ID" ["patient", runeString id] = .ok k)
    (hk : k ≠ patientKey id)
    (hget2 : S2.getStateErr (patientKey id) = none) :
    (createPatient P S L [idStr, name, address]).1 = .success none ∧
    (getPatientbyID P S2 (createPatient P S L [idStr, name, address]).2 [idStr]).1 =
      .success (some (P.marshalPatient
        ⟨id, P.toLower name, P.toLower address, S.now 0, S.now 0, .nil, .nil⟩)) := by
  have hidne := ParseInt_ne_empty hid
  have hk2 : ¬ patientKey id = k := fun h => hk h.symm
  cases hidx : S.putStateErr k "\x00" <;>
    simp [createPatient, getPatientbyID, len_eq_zero_iff, hidne, hname, haddress, hid,
      Stub.GetState, Stub.PutState, Ledger.put, hget, habsent, hput, hkey, hidx, hget2, hk2]

/-- Instance of `createPatient_then_getPatientbyID`: patient `1` on the empty ledger
of the reference collaborator. -/
theorem createPatient_then_getPatientbyID_witness :
    (createPatient Platform.reference (Stub.fabric "tx1" 100) Ledger.empty
        ["1", "Ali", "Cairo"]).1 = .success none ∧
    (getPatientbyID Platform.reference (Stub.fabric "tx2" 101)
        (createPatient Platform.reference (Stub.fabric "tx1" 100) Ledger.empty
          ["1", "Ali", "Cairo"]).2 ["1"]).1 =
      .success (some (Platform.reference.marshalPatient
        ⟨1, "ali", "cairo", 100, 100, .nil, .nil⟩)) :=
  createPatient_then_getPatientbyID Platform.reference (Stub.fabric "tx1" 100)
    (Stub.fabric "tx2" 101) Ledger.empty "1" "Ali" "Cairo" 1
    (String.mk ('\x00' :: ("patient~ID".data ++ '\x00' ::
      ("patient".data ++ ['\x00'] ++ ("\x01".data ++ ['\x00'])))))
    (by decide) (by decide) (by decide) rfl rfl rfl rfl (by decide) rfl

/-- C2: on a ledger where the patient key holds a value, with arguments
`[idStr, name, address]` such that `idStr` parses to `id` and `name`, `address` are
non-empty, `createPatient` fails and returns the ledger it was given, whatever the
collaborator answers; the failure is the already-exists one when the get reports no
error; and a following `getPatientbyID` returns what it returned before. -/
theorem createPatient_existing (P : Platform) (S S2 : Stub) (L : Ledger)
    (idStr name address : String) (id : Int) (b : Bytes)
    (hid : ParseInt idStr = some id) (hname : name ≠ "") (haddress : address ≠ "")
    (hpresent : L.state (patientKey id) = some b) :
    (createPatient P S L [idStr, name, address]).1.isError = true ∧
    (createPatient P S L [idStr, name, address]).2 = L ∧
    (S.getStateErr (patientKey id) = none →
      (createPatient P S L [idStr, name, address]).1 =
        .error ("This patient already exists: " ++ patientKey id)) ∧
    getPatientbyID P S2 (createPatient P S L [idStr, name, address]).2 [idStr] =
      getPatientbyID P S2 L [idStr] := by
  have hidne := ParseInt_ne_empty hid
  cases hget : S.getStateErr (patientKey id) <;>
    simp [createPatient, len_eq_zero_iff, hidne, hname, haddress, hid,
      Stub.GetState, hget, hpresent, Response.isError]

/-- Witness of C2: creating patient `1` a second time. -/
theorem createPatient_existing_witness :
    (createPatient Platform.reference (Stub.fabric "tx2" 101)
        (createPatient Platform.reference (Stub.fabric "tx1" 100) Ledger.empty
          ["1", "Ali", "Cairo"]).2 ["1", "Bob", "Giza"]).1 =
      .error "This patient already exists: Patient-1" :=
  (createPatient_existing Platform.reference (Stub.fabric "tx2" 101) (Stub.fabric "tx3" 102)
    (createPatient Platform.reference (Stub.fabric "tx1" 100) Ledger.empty
      ["1", "Ali", "Cairo"]).2 "1" "Bob" "Giza" 1
    (Platform.reference.marshalPatient ⟨1, "ali", "cairo", 100, 100, .nil, .nil⟩)
    (by decide) (by decide) (by decide) (by decide)).2.2.1 rfl

/-! ## Assigning a disease -/

/-- C3: on a ledger holding a decodable patient `p` under the key of `pid` and a
decodable disease `d` with `d.ID = did` under the key of `did`, no entry of
`p.Diseases` having the id `did`, with a collaborator that reports no error and a
codec that reads the written record back: the first `assignDiseaseToPatient`
succeeds and stores the patient with `Diseases` equal to those of `p` followed by
`d`; a second identical call fails with the already-have message and returns the
ledger it was given. -/
theorem assignDiseaseToPatient_twice (P : Platform) (S S2 : Stub) (L : Ledger)
    (pidStr didStr : String) (pid did : Int) (pBytes dBytes : Bytes)
    (p : Patient) (d : Disease)
    (hpid : ParseInt pidStr = some pid) (hdid : ParseInt didStr = some did)
    (hp : L.state (patientKey pid) = some pBytes)
    (hpd : P.unmarshalPatient pBytes = .ok p)
    (hd : L.state (diseaseKey did) = some dBytes)
    (hdd : P.unmarshalDisease dBytes = .ok d)
    (hdID : d.ID = did) (hfresh : ∀ x ∈ p.Diseases.elems, x.ID ≠ did)
    (hget : S.getStateErr (patientKey pid) = none)
    (hget' : S.getStateErr (diseaseKey did) = none)
    (hput : S.putStateErr (patientKey pid) (P.marshalPatient
      { p with Diseases := .of (p.Diseases.elems ++ [d]), UpdatedAt := S.now 0 }) = none)
    (hget2 : S2.getStateErr (patientKey pid) = none)
    (hget2' : S2.getStateErr (diseaseKey did) = none)
    (hround : P.unmarshalPatient (P.marshalPatient
      { p with Diseases := .of (p.Diseases.elems ++ [d]), UpdatedAt := S.now 0 }) =
        .ok { p with Diseases := .of (p.Diseases.elems ++ [d]), UpdatedAt := S.now 0 }) :
    (assignDiseaseToPatient P S L [pidStr, didStr]).1 = .success none ∧
    (assignDiseaseToPatient P S L [pidStr, didStr]).2.state (patientKey pid) =
      some (P.marshalPatient
        { p with Diseases := .of (p.Diseases.elems ++ [d]), UpdatedAt := S.now 0 }) ∧
    (assignDiseaseToPatient P S2 (assignDiseaseToPatient P S L [pidStr, didStr]).2
        [pidStr, didStr]).1 =
      .error (alreadyHaveMsg
        { p with Diseases := .of (p.Diseases.elems ++ [d]), UpdatedAt := S.now 0 } d) ∧
    (assignDiseaseToPatient P S2 (assignDiseaseToPatient P S L [pidStr, didStr]).2
        [pidStr, didStr]).2 =
      (assignDiseaseToPatient P S L [pidStr, didStr]).2 := by
  have hpne := ParseInt_ne_empty hpid
  have hdne := ParseInt_ne_empty hdid
  have hkeys : ¬ diseaseKey did = patientKey pid := fun h =>
    patientKey_ne_diseaseKey pid did h.symm
  have hany : (p.Diseases.elems.any fun dis => decide (dis.ID = d.ID)) = false := by
    rw [List.any_eq_false]
    intro x hx
    simpa [hdID] using hfresh x hx
  have hfirst : assignDiseaseToPatient P S L [pidStr, didStr] =
      (.success none, L.put S (patientKey pid) (P.marshalPatient
        { p with Diseases := .of (p.Diseases.elems ++ [d]), UpdatedAt := S.now 0 })) := by
    simp [assignDiseaseToPatient, len_eq_zero_iff, hpne, hdne, hpid, hdid, Stub.GetState,
      Stub.PutState, hget, hget', hp, hd, hpd, hdd, hany, Slice.append, hput]
  rw [hfirst]
  simp [assignDiseaseToPatient, len_eq_zero_iff, hpne, hdne, hpid, hdid, Stub.GetState,
    hget2, hget2', Ledger.put, hkeys, hd, hdd, hround, Slice.elems_of]

/-- Witness of C3: disease `7` assigned twice to patient `1`. -/
theorem assignDiseaseToPatient_twice_witness :
    (assignDiseaseToPatient Platform.reference (Stub.fabric "tx3" 102) ledgerWithDisease
        ["1", "7"]).1 = .success none ∧
    (assignDiseaseToPatient Platform.reference (Stub.fabric "tx4" 103)
        (assignDiseaseToPatient Platform.reference (Stub.fabric "tx3" 102)
          ledgerWithDisease ["1", "7"]).2 ["1", "7"]).1 =
      .error "This Patient:1-ali already have this Disease:7-diabetes" :=
  have h := assignDiseaseToPatient_twice Platform.reference (Stub.fabric "tx3" 102)
    (Stub.fabric "tx4" 103) ledgerWithDisease "1" "7" 1 7
    (Platform.reference.marshalPatient ⟨1, "ali", "cairo", 100, 100, .nil, .nil⟩)
    (Platform.reference.marshalDisease ⟨7, "diabetes", "desc"⟩)
    ⟨1, "ali", "cairo", 100, 100, .nil, .nil⟩ ⟨7, "diabetes", "desc"⟩
    (by decide) (by decide) (by decide)
    (reference_unmarshalPatient_marshalPatient _) (by decide)
    (reference_unmarshalDisease_marshalDisease _) rfl (by simp [Slice.elems])
    rfl rfl rfl rfl rfl (reference_unmarshalPatient_marshalPatient _)
  ⟨h.1, h.2.2.1⟩

/-- C4: in every ledger reached from the empty ledger by a finite sequence of
invocations (any function names, arguments, clock readings and collaborator answers,
the index keys being apart from the patient keys), on a platform whose codec reads
back the patients it writes, every patient decoded from a patient key has no two
entries of `Diseases` with the same `ID`. -/
theorem reachable_distinctDiseases (P : Platform)
    (hround : ∀ p, P.unmarshalPatient (P.marshalPatient p) = .ok p) (L : Ledger)
    (hL : Reachable P L) (id : Int) (b : Bytes) (p : Patient)
    (hb : L.state (patientKey id) = some b) (hp : P.unmarshalPatient b = .ok p) :
    (p.Diseases.elems.map Disease.ID).Nodup :=
  wellStored_decode P hround L (reachable_wellStored P hround L hL) id b p hb hp

set_option maxRecDepth 100000 in
/-- Witness of C4: the ledger after creating patient `1` and the diseases `7` and `8`,
assigning both to the patient, and a refused second assignment of disease `7`; the
stored patient has the two diseases, with the ids `7` and `8`. -/
theorem reachable_distinctDiseases_witness :
    Reachable Platform.reference ledgerWithTwoDiseases ∧
    (Invoke Platform.reference (Stub.fabric "tx6" 105) ledgerWithTwoDiseases
      "assignDiseaseToPatient" ["1", "7"]).1 =
      .error "This Patient:1-ali already have this Disease:7-diabetes" ∧
    ledgerWithTwoDiseases.state (patientKey 1) = some (Platform.reference.marshalPatient
      ⟨1, "ali", "cairo", 100, 104,
        .of [⟨7, "diabetes", "desc"⟩, ⟨8, "flu", "cough"⟩], .nil⟩) ∧
    ([(⟨7, "diabetes", "desc"⟩ : Disease), ⟨8, "flu", "cough"⟩].map Disease.ID).Nodup :=
  have hreach : Reachable Platform.reference ledgerWithTwoDiseases :=
    Reachable.invoke (Stub.fabric "tx5" 104) "assignDiseaseToPatient" ["1", "8"]
      (Reachable.invoke (Stub.fabric "tx4" 103) "createDisease" ["8", "Flu", "cough"]
        (Reachable.invoke (Stub.fabric "tx3" 102) "assignDiseaseToPatient" ["1", "7"]
          (Reachable.invoke (Stub.fabric "tx2" 101) "createDisease"
            ["7", "Diabetes", "desc"]
            (Reachable.invoke (Stub.fabric "tx1" 100) "createPatient"
              ["1", "Ali", "Cairo"] Reachable.empty (fabric_indexApart _ _))
            (fabric_indexApart _ _))
          (fabric_indexApart _ _))
        (fabric_indexApart _ _))
      (fabric_indexApart _ _)
  have hrefused : Reachable Platform.reference
      (Invoke Platform.reference (Stub.fabric "tx6" 105) ledgerWithTwoDiseases
        "assignDiseaseToPatient" ["1", "7"]).2 :=
    Reachable.invoke (Stub.fabric "tx6" 105) "assignDiseaseToPatient" ["1", "7"] hreach
      (fabric_indexApart _ _)
  ⟨hreach, by decide, by decide,
    reachable_distinctDiseases Platform.reference reference_unmarshalPatient_marshalPatient
      (Invoke Platform.reference (Stub.fabric "tx6" 105) ledgerWithTwoDiseases
        "assignDiseaseToPatient" ["1", "7"]).2 hrefused 1 _
      ⟨1, "ali", "cairo", 100, 104,
        .of [⟨7, "diabetes", "desc"⟩, ⟨8, "flu", "cough"⟩], .nil⟩ (by decide)
      (reference_unmarshalPatient_marshalPatient _)⟩

/-! ## Record and index entry -/

/-- C5 (the code at the failing inputs): with the Fabric collaborator,
`createPatient ["0", "Ali", "Cairo"]` on the empty ledger reports a failure, because
`string(patientID)` is U+0000 and the composite key is refused, after the record was
written under `Patient-0`, and `createDisease ["0", "Flu", "desc"]` does the same for
`Disease-0`; with a collaborator whose put of the index entry reports an error,
`createPatient ["1", "Ali", "Cairo"]` reports success while no index entry was
written. -/
theorem createPatient_record_without_index :
    ((createPatient Platform.reference (Stub.fabric "tx1" 100) Ledger.empty
        ["0", "Ali", "Cairo"]).1.isError = true ∧
      (createPatient Platform.reference (Stub.fabric "tx1" 100) Ledger.empty
        ["0", "Ali", "Cairo"]).2.state (patientKey 0) =
        some (Platform.reference.marshalPatient ⟨0, "ali", "cairo", 100, 100, .nil, .nil⟩) ∧
      Ledger.empty.state (patientKey 0) = none) ∧
    ((createDisease Platform.reference (Stub.fabric "tx1" 100) Ledger.empty
        ["0", "Flu", "desc"]).1.isError = true ∧
      (createDisease Platform.reference (Stub.fabric "tx1" 100) Ledger.empty
        ["0", "Flu", "desc"]).2.state (diseaseKey 0) =
        some (Platform.reference.marshalDisease ⟨0, "flu", "desc"⟩)) ∧
    ((Stub.indexPutFails "tx1" 100).createCompositeKey "patient~ID"
        ["patient", runeString 1] = .ok "\x00patient~ID\x00patient\x00\x01\x00" ∧
      (createPatient Platform.reference (Stub.indexPutFails "tx1" 100) Ledger.empty
        ["1", "Ali", "Cairo"]).1 = .success none ∧
      (createPatient Platform.reference (Stub.indexPutFails "tx1" 100) Ledger.empty
        ["1", "Ali", "Cairo"]).2.state "\x00patient~ID\x00patient\x00\x01\x00" = none) := by
  refine ⟨⟨by decide, by decide, by decide⟩, ⟨by decide, by decide⟩, rfl, by decide, by decide⟩

/-! ## Updating a patient -/

/-- C6: on a ledger holding a decodable patient `p` under the key of `id`, with
arguments `[idStr, name, address]` such that `idStr` parses to `id` and `name`,
`address` are non-empty, and a collaborator that reports no error on the get and the
put of the record: `updatePatientData` succeeds, the record stored afterwards has the
`ID`, `CreatedAt`, `Diseases` and `History` of `p`, the lower-cased name and address
and `UpdatedAt = now`, and every other key keeps its value and its versions. -/
theorem updatePatientData_existing (P : Platform) (S : Stub) (L : Ledger)
    (idStr name address : String) (id : Int) (b : Bytes) (p : Patient)
    (hid : ParseInt idStr = some id) (hname : name ≠ "") (haddress : address ≠ "")
    (hb : L.state (patientKey id) = some b) (hp : P.unmarshalPatient b = .ok p)
    (hget : S.getStateErr (patientKey id) = none)
    (hput : S.putStateErr (patientKey id) (P.marshalPatient
      ⟨p.ID, P.toLower name, P.toLower address, p.CreatedAt, S.now 0, p.Diseases,
        p.History⟩) = none) :
    (updatePatientData P S L [idStr, name, address]).1 = .success none ∧
    (updatePatientData P S L [idStr, name, address]).2.state (patientKey id) =
      some (P.marshalPatient
        ⟨p.ID, P.toLower name, P.toLower address, p.CreatedAt, S.now 0, p.Diseases,
          p.History⟩) ∧
    ∀ k, k ≠ patientKey id →
      (updatePatientData P S L [idStr, name, address]).2.state k = L.state k ∧
      (updatePatientData P S L [idStr, name, address]).2.versions k = L.versions k := by
  have hidne := ParseInt_ne_empty hid
  have h : updatePatientData P S L [idStr, name, address] =
      (.success none, L.put S (patientKey id) (P.marshalPatient
        ⟨p.ID, P.toLower name, P.toLower address, p.CreatedAt, S.now 0, p.Diseases,
          p.History⟩)) := by
    simp [updatePatientData, len_eq_zero_iff, hidne, hname, haddress, hid, Stub.GetState,
      Stub.PutState, hget, hb, hp, hput]
  rw [h]
  refine ⟨rfl, by simp [Ledger.put], ?_⟩
  intro k hk
  simp [Ledger.put, hk]

/-- Witness of C6: patient `1` renamed. -/
theorem updatePatientData_existing_witness :
    (updatePatientData Platform.reference (Stub.fabric "tx2" 105) ledgerWithPatient
        ["1", "Ali Hassan", "Alex"]).1 = .success none ∧
    (updatePatientData Platform.reference (Stub.fabric "tx2" 105) ledgerWithPatient
        ["1", "Ali Hassan", "Alex"]).2.state (patientKey 1) =
      some (Platform.reference.marshalPatient
        ⟨1, "ali hassan", "alex", 100, 105, .nil, .nil⟩) :=
  have h := updatePatientData_existing Platform.reference (Stub.fabric "tx2" 105)
    ledgerWithPatient "1" "Ali Hassan" "Alex" 1
    (Platform.reference.marshalPatient ⟨1, "ali", "cairo", 100, 100, .nil, .nil⟩)
    ⟨1, "ali", "cairo", 100, 100, .nil, .nil⟩
    (by decide) (by decide) (by decide) (by decide)
    (reference_unmarshalPatient_marshalPatient _) rfl rfl
  ⟨h.1, h.2.1⟩

/-! ## Missing patient -/

/-- C7: on a ledger where the patient key of `id` is absent, with a collaborator whose
get of that key reports no error and arguments that pass the checks made before the
ledger is read, `updatePatientData`, `addPatientHistory`, `assignDiseaseToPatient` and
`getPatientbyID` each fail with `patient does not exist` and return the ledger they
were given. -/
theorem missing_patient (P : Platform) (S : Stub) (L : Ledger)
    (idStr name address description didStr : String) (id : Int)
    (hid : ParseInt idStr = some id) (hname : name ≠ "") (haddress : address ≠ "")
    (hdescription : description ≠ "") (hdid : didStr ≠ "")
    (habsent : L.state (patientKey id) = none)
    (hget : S.getStateErr (patientKey id) = none) :
    updatePatientData P S L [idStr, name, address] =
      (.error "patient does not exist", L) ∧
    addPatientHistory P S L [idStr, description] = (.error "patient does not exist", L) ∧
    assignDiseaseToPatient P S L [idStr, didStr] = (.error "patient does not exist", L) ∧
    getPatientbyID P S L [idStr] = (.error "patient does not exist", L) := by
  have hidne := ParseInt_ne_empty hid
  refine ⟨?_, ?_, ?_, ?_⟩
  · simp [updatePatientData, len_eq_zero_iff, hidne, hname, haddress, hid, Stub.GetState,
      hget, habsent]
  · simp [addPatientHistory, len_eq_zero_iff, hidne, hdescription, hid, Stub.GetState,
      hget, habsent]
  · simp [assignDiseaseToPatient, len_eq_zero_iff, hidne, hdid, hid, Stub.GetState,
      hget, habsent]
  · simp [getPatientbyID, len_eq_zero_iff, hidne, hid, Stub.GetState, hget, habsent]

/-- Witness of C7: patient `2` on the ledger that holds patient `1` only. -/
theorem missing_patient_witness :
    updatePatientData Platform.reference (Stub.fabric "tx2" 105) ledgerWithPatient
        ["2", "Bob", "Giza"] = (.error "patient does not exist", ledgerWithPatient) ∧
    addPatientHistory Platform.reference (Stub.fabric "tx2" 105) ledgerWithPatient
        ["2", "surgery"] = (.error "patient does not exist", ledgerWithPatient) ∧
    assignDiseaseToPatient Platform.reference (Stub.fabric "tx2" 105) ledgerWithPatient
        ["2", "7"] = (.error "patient does not exist", ledgerWithPatient) ∧
    getPatientbyID Platform.reference (Stub.fabric "tx2" 105) ledgerWithPatient
        ["2"] = (.error "patient does not exist", ledgerWithPatient) :=
  missing_patient Platform.reference (Stub.fabric "tx2" 105) ledgerWithPatient
    "2" "Bob" "Giza" "surgery" "7" 2 (by decide) (by decide) (by decide) (by decide)
    (by decide) (by decide) rfl

/-! ## Adding to the history -/

theorem addPatientHistory_success (P : Platform) (S : Stub) (L : Ledger)
    (idStr description : String) (id : Int) (b : Bytes) (p : Patient)
    (hid : ParseInt idStr = some id)
    (hb : L.state (patientKey id) = some b) (hp : P.unmarshalPatient b = .ok p)
    (hok : (addPatientHistory P S L [idStr, description]).1.isError = false) :
    (addPatientHistory P S L [idStr, description]).2 =
      L.put S (patientKey id) (P.marshalPatient
        ⟨p.ID, p.Name, p.Address, p.CreatedAt, S.now 1, p.Diseases,
          .of (p.History.elems ++ [⟨P.toLower description, S.now 0⟩])⟩) := by
  have hidne := ParseInt_ne_empty hid
  by_cases hd : description = ""
  · simp [addPatientHistory, len_eq_zero_iff, hidne, hd, Response.isError] at hok
  cases hget : S.getStateErr (patientKey id) with
  | some e =>
    simp [addPatientHistory, len_eq_zero_iff, hidne, hd, hid, Stub.GetState, hget,
      Response.isError] at hok
  | none =>
    cases hput : S.putStateErr (patientKey id) (P.marshalPatient
        ⟨p.ID, p.Name, p.Address, p.CreatedAt, S.now 1, p.Diseases,
          .of (p.History.elems ++ [⟨P.toLower description, S.now 0⟩])⟩) with
    | some e =>
      simp [addPatientHistory, len_eq_zero_iff, hidne, hd, hid, Stub.GetState, hget, hb,
        hp, Stub.PutState, Slice.append, hput, Response.isError] at hok
    | none =>
      simp [addPatientHistory, len_eq_zero_iff, hidne, hd, hid, Stub.GetState, hget, hb,
        hp, Stub.PutState, Slice.append, hput]

theorem addHistories_spec (P : Platform)
    (hround : ∀ p, P.unmarshalPatient (P.marshalPatient p) = .ok p)
    (idStr : String) (id : Int) (hid : ParseInt idStr = some id)
    (calls : List (Stub × String)) :
    ∀ (L L1 : Ledger) (p0 : Patient),
      L.state (patientKey id) = some (P.marshalPatient p0) →
      addHistories P idStr calls L = some L1 →
      ∃ p1, L1.state (patientKey id) = some (P.marshalPatient p1) ∧
        p1.History.elems.map Opration.Description =
          p0.History.elems.map Opration.Description ++
            calls.map (fun call => P.toLower call.2) ∧
        p1.ID = p0.ID ∧ p1.Name = p0.Name ∧ p1.Address = p0.Address ∧
        p1.CreatedAt = p0.CreatedAt ∧ p1.Diseases = p0.Diseases := by
  induction calls with
  | nil =>
    intro L L1 p0 hL h
    simp only [addHistories, Option.some.injEq] at h
    subst h
    exact ⟨p0, hL, by simp, rfl, rfl, rfl, rfl, rfl⟩
  | cons call calls ih =>
    intro L L1 p0 hL h
    obtain ⟨S, description⟩ := call
    simp only [addHistories] at h
    cases hr : addPatientHistory P S L [idStr, description] with
    | mk r L2 =>
      rw [hr] at h
      cases r with
      | error e => simp at h
      | success payload =>
        simp only at h
        have hL2 := addPatientHistory_success P S L idStr description id _ p0 hid hL
          (hround p0) (by rw [hr]; rfl)
        rw [hr] at hL2
        simp only at hL2
        obtain ⟨p1, h1, h2, h3, h4, h5, h6, h7⟩ := ih L2 L1
          ⟨p0.ID, p0.Name, p0.Address, p0.CreatedAt, S.now 1, p0.Diseases,
            .of (p0.History.elems ++ [⟨P.toLower description, S.now 0⟩])⟩ (by
          rw [hL2]
          simp [Ledger.put]) h
        refine ⟨p1, h1, ?_, h3, h4, h5, h6, h7⟩
        rw [h2]
        simp [Slice.elems_of]

/-- C8: for an id argument that parses to `id`: a successful `addPatientHistory` on a
ledger holding a decodable patient `p` stores the record of `p` with one entry, the
lower-cased description, appended to `History` and with `UpdatedAt` refreshed, the
other fields being those of `p`; and on a platform whose codec reads back the patients
it writes, after a sequence of successful calls on a stored patient `p0` the history
holds the descriptions of `p0` followed by the lower-cased descriptions of the calls
in call order, so its length is the number of calls when `p0` has no history. -/
theorem addPatientHistory_appends (P : Platform) (idStr : String) (id : Int)
    (hid : ParseInt idStr = some id) :
    (∀ (S : Stub) (L : Ledger) (description : String) (b : Bytes) (p : Patient),
      L.state (patientKey id) = some b → P.unmarshalPatient b = .ok p →
      (addPatientHistory P S L [idStr, description]).1.isError = false →
      (addPatientHistory P S L [idStr, description]).2.state (patientKey id) =
        some (P.marshalPatient
          ⟨p.ID, p.Name, p.Address, p.CreatedAt, S.now 1, p.Diseases,
            .of (p.History.elems ++ [⟨P.toLower description, S.now 0⟩])⟩)) ∧
    ((∀ p, P.unmarshalPatient (P.marshalPatient p) = .ok p) →
      ∀ (calls : List (Stub × String)) (L L1 : Ledger) (p0 : Patient),
        L.state (patientKey id) = some (P.marshalPatient p0) →
        addHistories P idStr calls L = some L1 →
        ∃ p1, L1.state (patientKey id) = some (P.marshalPatient p1) ∧
          p1.History.elems.map Opration.Description =
            p0.History.elems.map Opration.Description ++
              calls.map (fun call => P.toLower call.2) ∧
          (p0.History.elems = [] → p1.History.elems.length = calls.length) ∧
          p1.ID = p0.ID ∧ p1.Name = p0.Name ∧ p1.Address = p0.Address ∧
          p1.CreatedAt = p0.CreatedAt ∧ p1.Diseases = p0.Diseases) := by
  refine ⟨?_, ?_⟩
  · intro S L description b p hb hp hok
    rw [addPatientHistory_success P S L idStr description id b p hid hb hp hok]
    simp [Ledger.put]
  · intro hround calls L L1 p0 hL h
    obtain ⟨p1, h1, h2, h3, h4, h5, h6, h7⟩ :=
      addHistories_spec P hround idStr id hid calls L L1 p0 hL h
    refine ⟨p1, h1, h2, ?_, h3, h4, h5, h6, h7⟩
    intro hfresh
    have hlen := congrArg List.length h2
    simpa [hfresh] using hlen

/-- Witness of C8: two calls on the freshly created patient `1`. -/
theorem addPatientHistory_appends_witness :
    ∃ p1, (addPatientHistory Platform.reference (Stub.fabric "tx3" 102)
        (addPatientHistory Platform.reference (Stub.fabric "tx2" 101) ledgerWithPatient
          ["1", "Open Heart Surgery"]).2 ["1", "Checkup"]).2.state (patientKey 1) =
        some (Platform.reference.marshalPatient p1) ∧
      p1.History.elems.map Opration.Description = ["open heart surgery", "checkup"] ∧
      p1.History.elems.length = 2 :=
  have h := (addPatientHistory_appends Platform.reference "1" 1 (by decide)).2
    reference_unmarshalPatient_marshalPatient
    [(Stub.fabric "tx2" 101, "Open Heart Surgery"), (Stub.fabric "tx3" 102, "Checkup")]
    ledgerWithPatient
    (addPatientHistory Platform.reference (Stub.fabric "tx3" 102)
      (addPatientHistory Platform.reference (Stub.fabric "tx2" 101) ledgerWithPatient
        ["1", "Open Heart Surgery"]).2 ["1", "Checkup"]).2
    ⟨1, "ali", "cairo", 100, 100, .nil, .nil⟩ (by decide) rfl
  h.elim fun p1 hp1 => ⟨p1, hp1.1, hp1.2.1, hp1.2.2.1 rfl⟩

/-! ## Validation comes first -/

/-- C9 (the claim fails): `["1", "x"]` violates the stated rule of
`assignDiseaseToPatient` at its second id only, yet the response is
`patient does not exist` on the empty ledger and the message about the 1st argument on
the ledger that holds patient `1`: it depends on the ledger contents and is in
neither case the message that names the 2nd argument. -/
theorem assignDiseaseToPatient_second_id_after_ledger :
    Operation.assignDiseaseToPatient.statedViolation ["1", "x"] = some (.unparsable 1) ∧
    (assignDiseaseToPatient Platform.reference (Stub.fabric "tx2" 101) Ledger.empty
        ["1", "x"]).1 = .error "patient does not exist" ∧
    (assignDiseaseToPatient Platform.reference (Stub.fabric "tx2" 101) ledgerWithPatient
        ["1", "x"]).1 = .error "ID: 1st argument must be a numeric 64bit of string" ∧
    Operation.assignDiseaseToPatient.violationMsg (.unparsable 1) =
      "ID: 2nd argument must be a numeric 64bit of string" := by
  refine ⟨by decide, by decide, by decide, by decide⟩

/-- C9 (amended): for each of the eight operations, an argument list that violates a
check made before the ledger is consulted (the argument count, then the non-emptiness
of each argument in position order, then the parsing of the first argument) makes the
operation fail with the message of the first violated check, for every ledger and
every collaborator, and the ledger is returned as given; `assignDiseaseToPatient`
parses its second id after it fetched the patient, so `[pid, x]` with `x` non-empty
and unparsable fails and returns the ledger as given, with `patient does not exist`
when the patient is absent. -/
theorem validation_before_ledger (P : Platform) (S : Stub) (L : Ledger) :
    (∀ (op : Operation) (args : List String) (v : Violation),
      op.earlyViolation args = some v →
      op.run P S L args = (.error (op.violationMsg v), L)) ∧
    (∀ (pidStr x : String) (pid : Int),
      ParseInt pidStr = some pid → x ≠ "" → ParseInt x = none →
      (assignDiseaseToPatient P S L [pidStr, x]).1.isError = true ∧
      (assignDiseaseToPatient P S L [pidStr, x]).2 = L ∧
      (S.getStateErr (patientKey pid) = none → L.state (patientKey pid) = none →
        (assignDiseaseToPatient P S L [pidStr, x]).1 = .error "patient does not exist")) := by
  refine ⟨fun op args v h => run_of_earlyViolation P S L op args v h, ?_⟩
  intro pidStr x pid hpid hx hx2
  rw [assignDiseaseToPatient_second_unparsable P S L pidStr x pid hpid hx hx2]
  refine ⟨?_, ?_, ?_⟩
  · rcases S.GetState L (patientKey pid) with e | (_ | b) <;> rfl
  · rcases S.GetState L (patientKey pid) with e | (_ | b) <;> rfl
  · intro hget habsent
    simp [Stub.GetState, hget, habsent]

/-- Witness of C9 (amended): an empty second argument of `createDisease`, and an
unparsable second id of `assignDiseaseToPatient` for a missing patient. -/
theorem validation_before_ledger_witness :
    createDisease Platform.reference (Stub.fabric "tx2" 101) ledgerWithPatient
        ["7", "", "desc"] =
      (.error "Name: 2nd argument must be a non-empty string", ledgerWithPatient) ∧
    (assignDiseaseToPatient Platform.reference (Stub.fabric "tx2" 101) ledgerWithPatient
        ["2", "x"]).1 = .error "patient does not exist" :=
  have h := validation_before_ledger Platform.reference (Stub.fabric "tx2" 101)
    ledgerWithPatient
  ⟨h.1 .createDisease ["7", "", "desc"] (.empty 1) (by decide),
    (h.2 "2" "x" 2 (by decide) (by decide) (by decide)).2.2 rfl (by decide)⟩

/-- C10: for each of the eight operations, every ledger, every collaborator and every
argument list with the wrong number of arguments, or with an empty argument, or with
an id argument that does not parse as a signed 64-bit decimal integer, the operation
returns a failure and the ledger it was given. -/
theorem invalid_arguments_fail (P : Platform) (S : Stub) (L : Ledger) (op : Operation)
    (args : List String) (h : op.invalidArgs args) :
    (op.run P S L args).1.isError = true ∧ (op.run P S L args).2 = L :=
  run_of_invalidArgs P S L op args h

/-- Witness of C10: an unparsable second id of `assignDiseaseToPatient` for a stored
patient. -/
theorem invalid_arguments_fail_witness :
    Operation.assignDiseaseToPatient.invalidArgs ["1", "x"] ∧
    (assignDiseaseToPatient Platform.reference (Stub.fabric "tx2" 101) ledgerWithPatient
        ["1", "x"]).1.isError = true ∧
    (assignDiseaseToPatient Platform.reference (Stub.fabric "tx2" 101) ledgerWithPatient
        ["1", "x"]).2 = ledgerWithPatient :=
  have hargs : Operation.assignDiseaseToPatient.invalidArgs ["1", "x"] :=
    Or.inr (Or.inr ⟨1, by decide, "x", rfl, by decide⟩)
  ⟨hargs, invalid_arguments_fail Platform.reference (Stub.fabric "tx2" 101)
    ledgerWithPatient .assignDiseaseToPatient ["1", "x"] hargs⟩

/-! ## Primary keys -/

theorem fmtInt_injective (a b : Int) (h : fmtInt a = fmtInt b) : a = b := by
  have ha := readInt_write a ',' (by decide) []
  have hb := readInt_write b ',' (by decide) []
  simp only [writeInt, h] at ha
  simp only [writeInt] at hb
  rw [ha] at hb
  simpa using hb

theorem patientKey_injective (a b : Int) (h : patientKey a = patientKey b) : a = b := by
  apply fmtInt_injective
  have h2 := congrArg String.data h
  simp only [patientKey, String.data_append, List.append_cancel_left_eq] at h2
  exact String.ext h2

theorem diseaseKey_injective (a b : Int) (h : diseaseKey a = diseaseKey b) : a = b := by
  apply fmtInt_injective
  have h2 := congrArg String.data h
  simp only [diseaseKey, String.data_append, List.append_cancel_left_eq] at h2
  exact String.ext h2

theorem fabricCreateCompositeKey_ne_diseaseKey (objectType : String)
    (attributes : List String) (k : String)
    (h : fabricCreateCompositeKey objectType attributes = .ok k) (id : Int) :
    k ≠ diseaseKey id := by
  intro hk
  unfold fabricCreateCompositeKey at h
  split at h
  · injection h with h
    subst h
    have h2 := congrArg String.data hk
    simp [diseaseKey, String.data_append] at h2
  · exact absurd h (by simp)

theorem fabric_recordsApart (txID : String) (t : Int) : (Stub.fabric txID t).RecordsApart := by
  intro objectType attributes k h id
  exact ⟨fabricCreateCompositeKey_ne_patientKey objectType attributes k h id,
    fabricCreateCompositeKey_ne_diseaseKey objectType attributes k h id⟩

theorem fabric_noFault (txID : String) (t : Int) : (Stub.fabric txID t).NoFault :=
  ⟨fun _ => rfl, fun _ _ => rfl⟩

theorem createPatient_ok (P : Platform) (S : Stub) (L : Ledger)
    (idStr name address : String) (id : Int) (k : String)
    (hid : ParseInt idStr = some id) (hname : name ≠ "") (haddress : address ≠ "")
    (habsent : L.state (patientKey id) = none) (hS : S.NoFault)
    (hkey : S.createCompositeKey "patient~ID" ["patient", runeString id] = .ok k) :
    createPatient P S L [idStr, name, address] =
      (.success none, (L.put S (patientKey id) (P.marshalPatient
        ⟨id, P.toLower name, P.toLower address, S.now 0, S.now 0, .nil, .nil⟩)).put S k
          "\x00") := by
  have hidne := ParseInt_ne_empty hid
  simp [createPatient, len_eq_zero_iff, hidne, hname, haddress, hid, Stub.GetState,
    Stub.PutState, hS.1, hS.2, habsent, hkey]

theorem createDisease_ok (P : Platform) (S : Stub) (L : Ledger)
    (idStr name description : String) (id : Int) (k : String)
    (hid : ParseInt idStr = some id) (hname : name ≠ "") (hdescription : description ≠ "")
    (habsent : L.state (diseaseKey id) = none) (hS : S.NoFault)
    (hkey : S.createCompositeKey "Disease~ID" ["Disease", runeString id] = .ok k) :
    createDisease P S L [idStr, name, description] =
      (.success none, (L.put S (diseaseKey id) (P.marshalDisease
        ⟨id, P.toLower name, P.toLower description⟩)).put S k "\x00") := by
  have hidne := ParseInt_ne_empty hid
  simp [createDisease, len_eq_zero_iff, hidne, hname, hdescription, hid, Stub.GetState,
    Stub.PutState, hS.1, hS.2, habsent, hkey]

/-- Keys and creations with one id, when the index keys are created: the keys of two
patients are equal only if the ids are equal, likewise for
two diseases, and no patient key is a disease key; so on the empty ledger, with
collaborators that report no error and whose index keys are apart from the record
keys, `createPatient` with an id and then `createDisease` with the same id both
succeed, and each of `getPatientbyID` and `getDiseasebyID` returns its own record. -/
theorem keys_injective_and_apart (P : Platform) :
    (∀ a b : Int, patientKey a = patientKey b → a = b) ∧
    (∀ a b : Int, diseaseKey a = diseaseKey b → a = b) ∧
    (∀ a b : Int, patientKey a ≠ diseaseKey b) ∧
    (∀ (S1 S2 S3 S4 : Stub) (idStr name address dname description : String) (n : Int)
      (k1 k2 : String),
      ParseInt idStr = some n → name ≠ "" → address ≠ "" → dname ≠ "" →
      description ≠ "" →
      S1.NoFault → S2.NoFault → S3.NoFault → S4.NoFault →
      S1.RecordsApart → S2.RecordsApart →
      S1.createCompositeKey "patient~ID" ["patient", runeString n] = .ok k1 →
      S2.createCompositeKey "Disease~ID" ["Disease", runeString n] = .ok k2 →
      (createPatient P S1 Ledger.empty [idStr, name, address]).1 = .success none ∧
      (createDisease P S2 (createPatient P S1 Ledger.empty [idStr, name, address]).2
        [idStr, dname, description]).1 = .success none ∧
      (getPatientbyID P S3
        (createDisease P S2 (createPatient P S1 Ledger.empty [idStr, name, address]).2
          [idStr, dname, description]).2 [idStr]).1 =
        .success (some (P.marshalPatient
          ⟨n, P.toLower name, P.toLower address, S1.now 0, S1.now 0, .nil, .nil⟩)) ∧
      (getDiseasebyID P S4
        (createDisease P S2 (createPatient P S1 Ledger.empty [idStr, name, address]).2
          [idStr, dname, description]).2 [idStr]).1 =
        .success (some (P.marshalDisease
          ⟨n, P.toLower dname, P.toLower description⟩))) := by
  refine ⟨patientKey_injective, diseaseKey_injective, patientKey_ne_diseaseKey, ?_⟩
  intro S1 S2 S3 S4 idStr name address dname description n k1 k2 hid hname haddress
    hdname hdescription hS1 hS2 hS3 hS4 hA1 hA2 hk1 hk2
  have hidne := ParseInt_ne_empty hid
  have h1 := createPatient_ok P S1 Ledger.empty idStr name address n k1 hid hname haddress
    rfl hS1 hk1
  have hpd : ¬ diseaseKey n = patientKey n := fun e => patientKey_ne_diseaseKey n n e.symm
  have hdp : ¬ patientKey n = diseaseKey n := patientKey_ne_diseaseKey n n
  have hk1p : ¬ patientKey n = k1 := fun e => (hA1 _ _ k1 hk1 n).1 e.symm
  have hk1d : ¬ diseaseKey n = k1 := fun e => (hA1 _ _ k1 hk1 n).2 e.symm
  have hk2p : ¬ patientKey n = k2 := fun e => (hA2 _ _ k2 hk2 n).1 e.symm
  have hk2d : ¬ diseaseKey n = k2 := fun e => (hA2 _ _ k2 hk2 n).2 e.symm
  rw [h1]
  have h2 := createDisease_ok P S2 ((Ledger.empty.put S1 (patientKey n) (P.marshalPatient
      ⟨n, P.toLower name, P.toLower address, S1.now 0, S1.now 0, .nil, .nil⟩)).put S1 k1
        "\x00") idStr dname description n k2 hid hdname hdescription
    (by simp [Ledger.put, Ledger.empty, hk1d, hpd]) hS2 hk2
  simp only []
  rw [h2]
  refine ⟨trivial, rfl, ?_, ?_⟩
  · simp [getPatientbyID, len_eq_zero_iff, hidne, hid, Stub.GetState, hS3.1, Ledger.put,
      hk2p, hdp, hk1p]
  · simp [getDiseasebyID, len_eq_zero_iff, hidne, hid, Stub.GetState, hS4.1, Ledger.put,
      hk2d]

/-- Instance of `keys_injective_and_apart`: patient `1` and disease `1` on the empty
ledger. -/
theorem keys_injective_and_apart_witness :
    (createDisease Platform.reference (Stub.fabric "tx2" 101) ledgerWithPatient
        ["1", "Diabetes", "f_Diabetes"]).1 = .success none ∧
    (getPatientbyID Platform.reference (Stub.fabric "tx3" 102)
        (createDisease Platform.reference (Stub.fabric "tx2" 101) ledgerWithPatient
          ["1", "Diabetes", "f_Diabetes"]).2 ["1"]).1 =
      .success (some (Platform.reference.marshalPatient
        ⟨1, "ali", "cairo", 100, 100, .nil, .nil⟩)) ∧
    (getDiseasebyID Platform.reference (Stub.fabric "tx4" 103)
        (createDisease Platform.reference (Stub.fabric "tx2" 101) ledgerWithPatient
          ["1", "Diabetes", "f_Diabetes"]).2 ["1"]).1 =
      .success (some (Platform.reference.marshalDisease ⟨1, "diabetes", "f_diabetes"⟩)) :=
  ((keys_injective_and_apart Platform.reference).2.2.2 (Stub.fabric "tx1" 100)
    (Stub.fabric "tx2" 101) (Stub.fabric "tx3" 102) (Stub.fabric "tx4" 103)
    "1" "Ali" "Cairo" "Diabetes" "f_Diabetes" 1
    "\x00patient~ID\x00patient\x00\x01\x00" "\x00Disease~ID\x00Disease\x00\x01\x00"
    (by decide) (by decide) (by decide) (by decide) (by decide)
    (fabric_noFault _ _) (fabric_noFault _ _) (fabric_noFault _ _) (fabric_noFault _ _)
    (fabric_recordsApart _ _) (fabric_recordsApart _ _) rfl rfl).2

/-! ## Index entries -/

/-- C12 (the code at the failing input): the ids `-1` and `-2` parse, yet
`string(patientID)` is U+FFFD for both, so the components passed to
`CreateCompositeKey` are the same, in `createPatient` and in `createDisease`; with the
Fabric collaborator `createPatient` for
`-1` and then for `-2` both succeed and write the same index key, which then has two
versions: the two patients share one index entry. -/
theorem index_components_collide :
    ParseInt "-1" = some (-1) ∧ ParseInt "-2" = some (-2) ∧
    ["patient", runeString (-1)] = ["patient", runeString (-2)] ∧
    ["Disease", runeString (-1)] = ["Disease", runeString (-2)] ∧
    (createPatient Platform.reference (Stub.fabric "tx1" 100) Ledger.empty
      ["-1", "Ali", "Cairo"]).1 = .success none ∧
    (createPatient Platform.reference (Stub.fabric "tx2" 101)
      (createPatient Platform.reference (Stub.fabric "tx1" 100) Ledger.empty
        ["-1", "Ali", "Cairo"]).2 ["-2", "Bob", "Giza"]).1 = .success none ∧
    ((createPatient Platform.reference (Stub.fabric "tx2" 101)
      (createPatient Platform.reference (Stub.fabric "tx1" 100) Ledger.empty
        ["-1", "Ali", "Cairo"]).2 ["-2", "Bob", "Giza"]).2.versions
          "\x00patient~ID\x00patient\x00�\x00").map KeyModification.TxId =
      ["tx1", "tx2"] := by
  refine ⟨by decide, by decide, by decide, by decide, by decide, by decide, by decide⟩

/-! ## Nothing is deleted -/

theorem put_state_isSome (L : Ledger) (S : Stub) (k : String) (v : Bytes) (key : String)
    (h : (L.state key).isSome = true) : ((L.put S k v).state key).isSome = true := by
  by_cases hk : key = k <;> simp [Ledger.put, hk, h]

theorem run_state_isSome (P : Platform) (S : Stub) (L : Ledger) (op : Operation)
    (args : List String) (key : String) (h : (L.state key).isSome = true) :
    ((op.run P S L args).2.state key).isSome = true := by
  cases op <;> simp only [Operation.run]
  · rcases createPatient_ledger P S L args with e | ⟨id, name, address, e | ⟨k, _, e⟩⟩ <;>
      rw [e]
    · exact h
    · exact put_state_isSome _ _ _ _ _ h
    · exact put_state_isSome _ _ _ _ _ (put_state_isSome _ _ _ _ _ h)
  · rcases updatePatientData_ledger P S L args with e | ⟨id, b, p, name, address, _, _, e⟩ <;>
      rw [e]
    · exact h
    · exact put_state_isSome _ _ _ _ _ h
  · rcases addPatientHistory_ledger P S L args with e | ⟨id, b, p, description, _, _, e⟩ <;>
      rw [e]
    · exact h
    · exact put_state_isSome _ _ _ _ _ h
  · rw [getPatientbyID_ledger]; exact h
  · rw [getPatientHistorybyID_ledger]; exact h
  · rcases createDisease_ledger P S L args with e | ⟨id, v, e | ⟨k, _, e⟩⟩ <;> rw [e]
    · exact h
    · exact put_state_isSome _ _ _ _ _ h
    · exact put_state_isSome _ _ _ _ _ (put_state_isSome _ _ _ _ _ h)
  · rw [getDiseasebyID_ledger]; exact h
  · rcases assignDiseaseToPatient_ledger P S L args with e | ⟨id, b, p, d, _, _, _, e⟩ <;>
      rw [e]
    · exact h
    · exact put_state_isSome _ _ _ _ _ h

/-- C16: for each of the eight operations, every ledger, every collaborator and every
argument list, a key `Patient-n` or `Disease-n` that holds a value before the call
holds a value after it. -/
theorem no_record_deleted (P : Platform) (S : Stub) (L : Ledger) (op : Operation)
    (args : List String) (n : Int) :
    ((L.state (patientKey n)).isSome = true →
      ((op.run P S L args).2.state (patientKey n)).isSome = true) ∧
    ((L.state (diseaseKey n)).isSome = true →
      ((op.run P S L args).2.state (diseaseKey n)).isSome = true) :=
  ⟨run_state_isSome P S L op args _, run_state_isSome P S L op args _⟩

/-- Witness of C16: patient `1` is still stored after an update and after a second
`createPatient`. -/
theorem no_record_deleted_witness :
    (ledgerWithPatient.state (patientKey 1)).isSome = true ∧
    ((updatePatientData Platform.reference (Stub.fabric "tx2" 101) ledgerWithPatient
      ["1", "Bob", "Giza"]).2.state (patientKey 1)).isSome = true :=
  ⟨by decide,
    (no_record_deleted Platform.reference (Stub.fabric "tx2" 101) ledgerWithPatient
      .updatePatientData ["1", "Bob", "Giza"] 1).1 (by decide)⟩

/-! ## Reading a record -/

/-- C17: when the key of the parsed id holds the bytes `b` and the get reports no
error, `getPatientbyID` and `getDiseasebyID` succeed with the payload `b` itself; and
`getPatientbyID`, `getDiseasebyID` and `getPatientHistorybyID` return the ledger they
were given for every argument list. -/
theorem get_returns_stored_bytes (P : Platform) (S : Stub) (L : Ledger) :
    (∀ (idStr : String) (id : Int) (b : Bytes), ParseInt idStr = some id →
      S.getStateErr (patientKey id) = none → L.state (patientKey id) = some b →
      (getPatientbyID P S L [idStr]).1 = .success (some b)) ∧
    (∀ (idStr : String) (id : Int) (b : Bytes), ParseInt idStr = some id →
      S.getStateErr (diseaseKey id) = none → L.state (diseaseKey id) = some b →
      (getDiseasebyID P S L [idStr]).1 = .success (some b)) ∧
    (∀ args : List String, (getPatientbyID P S L args).2 = L ∧
      (getDiseasebyID P S L args).2 = L ∧ (getPatientHistorybyID P S L args).2 = L) := by
  refine ⟨?_, ?_, fun args => ⟨getPatientbyID_ledger P S L args,
    getDiseasebyID_ledger P S L args, getPatientHistorybyID_ledger P S L args⟩⟩
  · intro idStr id b hid hget hb
    have hidne := ParseInt_ne_empty hid
    simp [getPatientbyID, len_eq_zero_iff, hidne, hid, Stub.GetState, hget, hb]
  · intro idStr id b hid hget hb
    have hidne := ParseInt_ne_empty hid
    simp [getDiseasebyID, len_eq_zero_iff, hidne, hid, Stub.GetState, hget, hb]

/-- Witness of C17: the stored bytes of patient `1` and of disease `7`. -/
theorem get_returns_stored_bytes_witness :
    (getPatientbyID Platform.reference (Stub.fabric "tx3" 102) ledgerWithDisease ["1"]).1 =
      .success (some (Platform.reference.marshalPatient
        ⟨1, "ali", "cairo", 100, 100, .nil, .nil⟩)) ∧
    (getDiseasebyID Platform.reference (Stub.fabric "tx3" 102) ledgerWithDisease ["7"]).1 =
      .success (some (Platform.reference.marshalDisease ⟨7, "diabetes", "desc"⟩)) :=
  have h := get_returns_stored_bytes Platform.reference (Stub.fabric "tx3" 102)
    ledgerWithDisease
  ⟨h.1 "1" 1 _ (by decide) rfl (by decide), h.2.1 "7" 7 _ (by decide) rfl (by decide)⟩

/-! ## Creating a disease -/

/-- Creation and read of a disease when the index key is created: with arguments
`[idStr, name, description]` such that `idStr` parses to `id`
and `name`, `description` are non-empty: on a ledger where the disease key is absent,
with a collaborator that reports no error on the get and put of the record and
returns an index key other than the record key, `createDisease` succeeds and a
following `getDiseasebyID [idStr]` returns the encoding of the disease with `ID = id`
and the lower-cased name and description; on a ledger where the disease key holds a
value, `createDisease` fails and returns the ledger it was given. -/
theorem createDisease_then_getDiseasebyID (P : Platform) (S S2 : Stub) (L : Ledger)
    (idStr name description : String) (id : Int)
    (hid : ParseInt idStr = some id) (hname : name ≠ "") (hdescription : description ≠ "") :
    (∀ k : String, L.state (diseaseKey id) = none →
      S.getStateErr (diseaseKey id) = none →
      S.putStateErr (diseaseKey id)
        (P.marshalDisease ⟨id, P.toLower name, P.toLower description⟩) = none →
      S.createCompositeKey "Disease~ID" ["Disease", runeString id] = .ok k →
      k ≠ diseaseKey id → S2.getStateErr (diseaseKey id) = none →
      (createDisease P S L [idStr, name, description]).1 = .success none ∧
      (getDiseasebyID P S2 (createDisease P S L [idStr, name, description]).2 [idStr]).1 =
        .success (some (P.marshalDisease ⟨id, P.toLower name, P.toLower description⟩))) ∧
    (∀ b : Bytes, L.state (diseaseKey id) = some b →
      (createDisease P S L [idStr, name, description]).1.isError = true ∧
      (createDisease P S L [idStr, name, description]).2 = L ∧
      (S.getStateErr (diseaseKey id) = none →
        (createDisease P S L [idStr, name, description]).1 =
          .error ("This Disease already exists: " ++ diseaseKey id))) := by
  have hidne := ParseInt_ne_empty hid
  refine ⟨?_, ?_⟩
  · intro k habsent hget hput hkey hk hget2
    have hk2 : ¬ diseaseKey id = k := fun h => hk h.symm
    cases hidx : S.putStateErr k "\x00" <;>
      simp [createDisease, getDiseasebyID, len_eq_zero_iff, hidne, hname, hdescription, hid,
        Stub.GetState, Stub.PutState, Ledger.put, hget, habsent, hput, hkey, hidx, hget2,
        hk2]
  · intro b hpresent
    cases hget : S.getStateErr (diseaseKey id) <;>
      simp [createDisease, len_eq_zero_iff, hidne, hname, hdescription, hid,
        Stub.GetState, hget, hpresent, Response.isError]

/-- Instance of `createDisease_then_getDiseasebyID`: disease `7` created on the ledger
that holds patient `1`, and created again. -/
theorem createDisease_then_getDiseasebyID_witness :
    (getDiseasebyID Platform.reference (Stub.fabric "tx3" 102)
        (createDisease Platform.reference (Stub.fabric "tx2" 101) ledgerWithPatient
          ["7", "Diabetes", "desc"]).2 ["7"]).1 =
      .success (some (Platform.reference.marshalDisease ⟨7, "diabetes", "desc"⟩)) ∧
    (createDisease Platform.reference (Stub.fabric "tx3" 102) ledgerWithDisease
        ["7", "Diabetes", "desc"]).1 = .error "This Disease already exists: Disease-7" :=
  ⟨((createDisease_then_getDiseasebyID Platform.reference (Stub.fabric "tx2" 101)
      (Stub.fabric "tx3" 102) ledgerWithPatient "7" "Diabetes" "desc" 7
      (by decide) (by decide) (by decide)).1
      "\x00Disease~ID\x00Disease\x00\x07\x00" (by decide) rfl rfl rfl (by decide) rfl).2,
    ((createDisease_then_getDiseasebyID Platform.reference (Stub.fabric "tx3" 102)
      (Stub.fabric "tx4" 103) ledgerWithDisease "7" "Diabetes" "desc" 7
      (by decide) (by decide) (by decide)).2
      (Platform.reference.marshalDisease ⟨7, "diabetes", "desc"⟩) (by decide)).2.2 rfl⟩

/-! ## What an assignment changes -/

theorem updatePatientData_success (P : Platform) (S : Stub) (L : Ledger)
    (idStr name address : String) (id : Int) (b : Bytes) (p : Patient)
    (hid : ParseInt idStr = some id)
    (hb : L.state (patientKey id) = some b) (hp : P.unmarshalPatient b = .ok p)
    (hok : (updatePatientData P S L [idStr, name, address]).1.isError = false) :
    (updatePatientData P S L [idStr, name, address]).2 =
      L.put S (patientKey id) (P.marshalPatient
        ⟨p.ID, P.toLower name, P.toLower address, p.CreatedAt, S.now 0, p.Diseases,
          p.History⟩) := by
  have hidne := ParseInt_ne_empty hid
  by_cases hn : name = ""
  · simp [updatePatientData, len_eq_zero_iff, hidne, hn, Response.isError] at hok
  by_cases ha : address = ""
  · simp [updatePatientData, len_eq_zero_iff, hidne, hn, ha, Response.isError] at hok
  cases hget : S.getStateErr (patientKey id) with
  | some e =>
    simp [updatePatientData, len_eq_zero_iff, hidne, hn, ha, hid, Stub.GetState, hget,
      Response.isError] at hok
  | none =>
    cases hput : S.putStateErr (patientKey id) (P.marshalPatient
        ⟨p.ID, P.toLower name, P.toLower address, p.CreatedAt, S.now 0, p.Diseases,
          p.History⟩) with
    | some e =>
      simp [updatePatientData, len_eq_zero_iff, hidne, hn, ha, hid, Stub.GetState, hget,
        hb, hp, Stub.PutState, hput, Response.isError] at hok
    | none =>
      simp [updatePatientData, len_eq_zero_iff, hidne, hn, ha, hid, Stub.GetState, hget,
        hb, hp, Stub.PutState, hput]

theorem assignDiseaseToPatient_success (P : Platform) (S : Stub) (L : Ledger)
    (pidStr didStr : String) (pid did : Int) (pBytes dBytes : Bytes)
    (p : Patient) (d : Disease)
    (hpid : ParseInt pidStr = some pid) (hdid : ParseInt didStr = some did)
    (hp : L.state (patientKey pid) = some pBytes)
    (hpd : P.unmarshalPatient pBytes = .ok p)
    (hd : L.state (diseaseKey did) = some dBytes)
    (hdd : P.unmarshalDisease dBytes = .ok d)
    (hok : (assignDiseaseToPatient P S L [pidStr, didStr]).1.isError = false) :
    (assignDiseaseToPatient P S L [pidStr, didStr]).2 =
      L.put S (patientKey pid) (P.marshalPatient
        ⟨p.ID, p.Name, p.Address, p.CreatedAt, S.now 0, .of (p.Diseases.elems ++ [d]),
          p.History⟩) := by
  have hpne := ParseInt_ne_empty hpid
  have hdne := ParseInt_ne_empty hdid
  cases hget : S.getStateErr (patientKey pid) with
  | some e =>
    simp [assignDiseaseToPatient, len_eq_zero_iff, hpne, hdne, hpid, Stub.GetState, hget,
      Response.isError] at hok
  | none =>
    cases hget' : S.getStateErr (diseaseKey did) with
    | some e =>
      simp [assignDiseaseToPatient, len_eq_zero_iff, hpne, hdne, hpid, hdid, Stub.GetState,
        hget, hget', hp, Response.isError] at hok
    | none =>
      by_cases hany : (p.Diseases.elems.any fun dis => decide (dis.ID = d.ID)) = true
      · have hex : ∃ x ∈ p.Diseases.elems, x.ID = d.ID := by
          simpa using hany
        simp [assignDiseaseToPatient, len_eq_zero_iff, hpne, hdne, hpid, hdid,
          Stub.GetState, hget, hget', hp, hd, hpd, hdd, hex, Response.isError] at hok
      · cases hput : S.putStateErr (patientKey pid) (P.marshalPatient
            ⟨p.ID, p.Name, p.Address, p.CreatedAt, S.now 0, .of (p.Diseases.elems ++ [d]),
              p.History⟩) with
        | some e =>
          simp [assignDiseaseToPatient, len_eq_zero_iff, hpne, hdne, hpid, hdid,
            Stub.GetState, hget, hget', hp, hd, hpd, hdd, hany, Stub.PutState,
            Slice.append, hput, Response.isError] at hok
        | none =>
          simp [assignDiseaseToPatient, len_eq_zero_iff, hpne, hdne, hpid, hdid,
            Stub.GetState, hget, hget', hp, hd, hpd, hdd, hany, Stub.PutState,
            Slice.append, hput]

/-- C19: a successful `assignDiseaseToPatient [pidStr, didStr]`, the ids parsing to
`pid` and `did`, on a ledger holding a decodable patient `p` and a decodable disease
`d` under their keys: the patient key afterwards holds the record of `p` with the
whole of `d` appended to `Diseases` and `UpdatedAt` refreshed, the other fields
being those of `p`; every other key keeps its value and its versions, and the disease
key still holds the bytes it held. -/
theorem assignDiseaseToPatient_frame (P : Platform) (S : Stub) (L : Ledger)
    (pidStr didStr : String) (pid did : Int) (pBytes dBytes : Bytes)
    (p : Patient) (d : Disease)
    (hpid : ParseInt pidStr = some pid) (hdid : ParseInt didStr = some did)
    (hp : L.state (patientKey pid) = some pBytes)
    (hpd : P.unmarshalPatient pBytes = .ok p)
    (hd : L.state (diseaseKey did) = some dBytes)
    (hdd : P.unmarshalDisease dBytes = .ok d)
    (hok : (assignDiseaseToPatient P S L [pidStr, didStr]).1.isError = false) :
    (assignDiseaseToPatient P S L [pidStr, didStr]).2.state (patientKey pid) =
      some (P.marshalPatient
        ⟨p.ID, p.Name, p.Address, p.CreatedAt, S.now 0,
          .of (p.Diseases.elems ++ [⟨d.ID, d.Name, d.Description⟩]), p.History⟩) ∧
    (∀ k, k ≠ patientKey pid →
      (assignDiseaseToPatient P S L [pidStr, didStr]).2.state k = L.state k ∧
      (assignDiseaseToPatient P S L [pidStr, didStr]).2.versions k = L.versions k) ∧
    (assignDiseaseToPatient P S L [pidStr, didStr]).2.state (diseaseKey did) =
      some dBytes := by
  rw [assignDiseaseToPatient_success P S L pidStr didStr pid did pBytes dBytes p d hpid hdid
    hp hpd hd hdd hok]
  have hkeys : ¬ diseaseKey did = patientKey pid := fun h =>
    patientKey_ne_diseaseKey pid did h.symm
  refine ⟨by simp [Ledger.put], ?_, by simp [Ledger.put, hkeys, hd]⟩
  intro k hk
  simp [Ledger.put, hk]

/-- Witness of C19: disease `7` assigned to patient `1`. -/
theorem assignDiseaseToPatient_frame_witness :
    ledgerWithAssignment.state (patientKey 1) =
      some (Platform.reference.marshalPatient
        ⟨1, "ali", "cairo", 100, 102, .of [⟨7, "diabetes", "desc"⟩], .nil⟩) ∧
    ledgerWithAssignment.state (diseaseKey 7) =
      some (Platform.reference.marshalDisease ⟨7, "diabetes", "desc"⟩) :=
  have h := assignDiseaseToPatient_frame Platform.reference (Stub.fabric "tx3" 102)
    ledgerWithDisease "1" "7" 1 7
    (Platform.reference.marshalPatient ⟨1, "ali", "cairo", 100, 100, .nil, .nil⟩)
    (Platform.reference.marshalDisease ⟨7, "diabetes", "desc"⟩)
    ⟨1, "ali", "cairo", 100, 100, .nil, .nil⟩ ⟨7, "diabetes", "desc"⟩
    (by decide) (by decide) (by decide)
    (reference_unmarshalPatient_marshalPatient _) (by decide)
    (reference_unmarshalDisease_marshalDisease _) (by decide)
  ⟨h.1, h.2.2⟩

/-! ## Records that do not decode -/

theorem updatePatientData_undecodable (P : Platform) (S : Stub) (L : Ledger)
    (idStr : String) (rest : List String) (id : Int) (b : Bytes) (e : String)
    (hid : ParseInt idStr = some id) (hb : L.state (patientKey id) = some b)
    (he : P.unmarshalPatient b = .error e) :
    (updatePatientData P S L (idStr :: rest)).1.isError = true ∧
    (updatePatientData P S L (idStr :: rest)).2 = L := by
  simp only [updatePatientData]
  repeat' split
  all_goals first
    | exact ⟨rfl, rfl⟩
    | (exfalso
       simp_all [Stub.GetState_eq_ok])

theorem addPatientHistory_undecodable (P : Platform) (S : Stub) (L : Ledger)
    (idStr : String) (rest : List String) (id : Int) (b : Bytes) (e : String)
    (hid : ParseInt idStr = some id) (hb : L.state (patientKey id) = some b)
    (he : P.unmarshalPatient b = .error e) :
    (addPatientHistory P S L (idStr :: rest)).1.isError = true ∧
    (addPatientHistory P S L (idStr :: rest)).2 = L := by
  simp only [addPatientHistory]
  repeat' split
  all_goals first
    | exact ⟨rfl, rfl⟩
    | (exfalso
       simp_all [Stub.GetState_eq_ok])

theorem assignDiseaseToPatient_undecodable (P : Platform) (S : Stub) (L : Ledger)
    (idStr : String) (rest : List String) (id : Int) (b : Bytes) (e : String)
    (hid : ParseInt idStr = some id) (hb : L.state (patientKey id) = some b)
    (he : P.unmarshalPatient b = .error e) :
    (assignDiseaseToPatient P S L (idStr :: rest)).1.isError = true ∧
    (assignDiseaseToPatient P S L (idStr :: rest)).2 = L := by
  simp only [assignDiseaseToPatient]
  repeat' split
  all_goals first
    | exact ⟨rfl, rfl⟩
    | (exfalso
       simp_all [Stub.GetState_eq_ok])

theorem assignDiseaseToPatient_undecodable_disease (P : Platform) (S : Stub) (L : Ledger)
    (pidStr didStr : String) (did : Int) (b : Bytes) (e : String)
    (hid : ParseInt didStr = some did) (hb : L.state (diseaseKey did) = some b)
    (he : P.unmarshalDisease b = .error e) :
    (assignDiseaseToPatient P S L [pidStr, didStr]).1.isError = true ∧
    (assignDiseaseToPatient P S L [pidStr, didStr]).2 = L := by
  simp only [assignDiseaseToPatient]
  repeat' split
  all_goals first
    | exact ⟨rfl, rfl⟩
    | (exfalso
       simp_all [Stub.GetState_eq_ok])

/-- C20: when the bytes stored under the key of the patient named by the first
argument do not decode, `updatePatientData`, `addPatientHistory` and
`assignDiseaseToPatient` return a failure and the ledger they were given, for every
collaborator and whatever the other arguments are; likewise `assignDiseaseToPatient`
when the bytes stored under the key of the disease do not decode; and with a
collaborator that reports no error on the gets the failure of `updatePatientData`
carries the message of the decoder. -/
theorem undecodable_record_fails (P : Platform) (S : Stub) (L : Ledger) :
    (∀ (idStr : String) (rest : List String) (id : Int) (b : Bytes) (e : String),
      ParseInt idStr = some id → L.state (patientKey id) = some b →
      P.unmarshalPatient b = .error e →
      ((updatePatientData P S L (idStr :: rest)).1.isError = true ∧
        (updatePatientData P S L (idStr :: rest)).2 = L) ∧
      ((addPatientHistory P S L (idStr :: rest)).1.isError = true ∧
        (addPatientHistory P S L (idStr :: rest)).2 = L) ∧
      ((assignDiseaseToPatient P S L (idStr :: rest)).1.isError = true ∧
        (assignDiseaseToPatient P S L (idStr :: rest)).2 = L)) ∧
    (∀ (pidStr didStr : String) (did : Int) (b : Bytes) (e : String),
      ParseInt didStr = some did → L.state (diseaseKey did) = some b →
      P.unmarshalDisease b = .error e →
      (assignDiseaseToPatient P S L [pidStr, didStr]).1.isError = true ∧
      (assignDiseaseToPatient P S L [pidStr, didStr]).2 = L) ∧
    (∀ (idStr name address : String) (id : Int) (b : Bytes) (e : String),
      ParseInt idStr = some id → name ≠ "" → address ≠ "" →
      S.getStateErr (patientKey id) = none → L.state (patientKey id) = some b →
      P.unmarshalPatient b = .error e →
      updatePatientData P S L [idStr, name, address] = (.error e, L)) := by
  refine ⟨?_, ?_, ?_⟩
  · intro idStr rest id b e hid hb he
    exact ⟨updatePatientData_undecodable P S L idStr rest id b e hid hb he,
      addPatientHistory_undecodable P S L idStr rest id b e hid hb he,
      assignDiseaseToPatient_undecodable P S L idStr rest id b e hid hb he⟩
  · intro pidStr didStr did b e hid hb he
    exact assignDiseaseToPatient_undecodable_disease P S L pidStr didStr did b e hid hb he
  · intro idStr name address id b e hid hname haddress hget hb he
    have hidne := ParseInt_ne_empty hid
    simp [updatePatientData, len_eq_zero_iff, hidne, hname, haddress, hid, Stub.GetState,
      hget, hb, he]

/-- Witness of C20: `updatePatientData` on bytes that are not a record. -/
theorem undecodable_record_fails_witness :
    updatePatientData Platform.reference (Stub.fabric "tx2" 101) ledgerWithGarbage
        ["1", "Bob", "Giza"] =
      (.error "json: cannot unmarshal into Go value of type main.Patient",
        ledgerWithGarbage) :=
  (undecodable_record_fails Platform.reference (Stub.fabric "tx2" 101)
    ledgerWithGarbage).2.2 "1" "Bob" "Giza" 1 "not json" _
    (by decide) (by decide) (by decide) rfl (by decide) rfl

/-! ## The history report -/

theorem historyMember_eq_stated (P : Platform) (v : KeyModification) :
    historyMember P v = statedHistoryEntry P v := by
  simp only [historyMember, statedHistoryEntry, FormatBool, String.append_assoc]
  cases v.IsDelete <;> rfl

theorem historyLoop_ok (P : Platform) (vs : List KeyModification) (buffer : String) :
    historyLoop P (vs.map .ok) buffer true =
      .ok (buffer ++ commaTail (vs.map (historyMember P))) := by
  induction vs generalizing buffer with
  | nil => simp [historyLoop, commaTail]
  | cons v vs ih =>
    simp only [List.map_cons, historyLoop, if_true, ih, commaTail, String.append_assoc]

theorem historyLoop_ok_first (P : Platform) (vs : List KeyModification) (buffer : String) :
    historyLoop P (vs.map .ok) buffer false =
      .ok (buffer ++ commaSeparated (vs.map (historyMember P))) := by
  cases vs with
  | nil => simp [historyLoop, commaSeparated]
  | cons v vs =>
    simp [historyLoop, historyLoop_ok, commaSeparated, String.append_assoc]

theorem getPatientHistorybyID_ok (P : Platform) (S : Stub) (L : Ledger) (idStr : String)
    (id : Int) (vs : List KeyModification) (hid : ParseInt idStr = some id)
    (hvs : S.getHistoryForKey L (patientKey id) = .ok (some (vs.map .ok))) :
    getPatientHistorybyID P S L [idStr] =
      (.success (some (statedHistoryReport P vs)), L) := by
  have hidne := ParseInt_ne_empty hid
  have hmap : vs.map (historyMember P) = vs.map (statedHistoryEntry P) :=
    List.map_congr_left fun v _ => historyMember_eq_stated P v
  simp [getPatientHistorybyID, len_eq_zero_iff, hidne, hid, hvs, historyLoop_ok_first,
    statedHistoryReport, hmap, String.append_assoc]

/-- C13: for an id argument that parses to `id` and a version sequence `vs` that the
collaborator returns for the patient key without error, `getPatientHistorybyID`
succeeds, returns the ledger it was given, and its payload is the stated report of
`vs`: between brackets, one stated member for each version, in the order of `vs`,
separated by commas. -/
theorem getPatientHistorybyID_report (P : Platform) (S : Stub) (L : Ledger)
    (idStr : String) (id : Int) (vs : List KeyModification)
    (hid : ParseInt idStr = some id)
    (hvs : S.getHistoryForKey L (patientKey id) = .ok (some (vs.map .ok))) :
    getPatientHistorybyID P S L [idStr] =
      (.success (some ("[" ++ commaSeparated (vs.map (statedHistoryEntry P)) ++ "]")), L) ∧
    (vs.map (statedHistoryEntry P)).length = vs.length :=
  ⟨getPatientHistorybyID_ok P S L idStr id vs hid hvs, List.length_map _ _⟩

/-- Witness of C13: a version and a deletion. -/
theorem getPatientHistorybyID_report_witness :
    (getPatientHistorybyID Platform.reference
        (Stub.withHistory [⟨"tx1", "\x7b\"ID\":1\x7d", 100, 0, false⟩, ⟨"tx2", "", 101, 5, true⟩])
        Ledger.empty ["1"]).1 =
      .success (some ("[\x7b\"TxId\":\"tx1\", \"Value\":\x7b\"ID\":1\x7d, "
        ++ "\"Timestamp\":\"100.0\", \"IsDelete\":\"false\"\x7d,"
        ++ "\x7b\"TxId\":\"tx2\", \"Value\":null, "
        ++ "\"Timestamp\":\"101.5\", \"IsDelete\":\"true\"\x7d]")) :=
  (congrArg Prod.fst (getPatientHistorybyID_report Platform.reference
    (Stub.withHistory [⟨"tx1", "\x7b\"ID\":1\x7d", 100, 0, false⟩, ⟨"tx2", "", 101, 5, true⟩])
    Ledger.empty "1" 1 _ (by decide) rfl).1).trans (by decide)

/-! ## History of a created and updated patient -/

theorem createPatient_success (P : Platform) (S : Stub) (L : Ledger)
    (idStr name address : String) (id : Int)
    (hid : ParseInt idStr = some id) (hS : S.IndexApart)
    (hok : (createPatient P S L [idStr, name, address]).1.isError = false) :
    L.state (patientKey id) = none ∧
    (createPatient P S L [idStr, name, address]).2.state (patientKey id) =
      some (P.marshalPatient
        ⟨id, P.toLower name, P.toLower address, S.now 0, S.now 0, .nil, .nil⟩) ∧
    (createPatient P S L [idStr, name, address]).2.versions (patientKey id) =
      L.versions (patientKey id) ++
        [⟨S.txID, P.marshalPatient
          ⟨id, P.toLower name, P.toLower address, S.now 0, S.now 0, .nil, .nil⟩,
          S.txSeconds, S.txNanos, false⟩] := by
  have hidne := ParseInt_ne_empty hid
  by_cases hn : name = ""
  · simp [createPatient, len_eq_zero_iff, hidne, hn, Response.isError] at hok
  by_cases ha : address = ""
  · simp [createPatient, len_eq_zero_iff, hidne, hn, ha, Response.isError] at hok
  cases hget : S.getStateErr (patientKey id) with
  | some e =>
    simp [createPatient, len_eq_zero_iff, hidne, hn, ha, hid, Stub.GetState, hget,
      Response.isError] at hok
  | none =>
    cases hst : L.state (patientKey id) with
    | some b =>
      simp [createPatient, len_eq_zero_iff, hidne, hn, ha, hid, Stub.GetState, hget, hst,
        Response.isError] at hok
    | none =>
      cases hput : S.putStateErr (patientKey id) (P.marshalPatient
          ⟨id, P.toLower name, P.toLower address, S.now 0, S.now 0, .nil, .nil⟩) with
      | some e =>
        simp [createPatient, len_eq_zero_iff, hidne, hn, ha, hid, Stub.GetState, hget, hst,
          Stub.PutState, hput, Response.isError] at hok
      | none =>
        cases hkey : S.createCompositeKey "patient~ID" ["patient", runeString id] with
        | error e =>
          simp [createPatient, len_eq_zero_iff, hidne, hn, ha, hid, Stub.GetState, hget,
            hst, Stub.PutState, hput, hkey, Response.isError] at hok
        | ok k =>
          have hk : ¬ patientKey id = k := fun h => hS _ _ k hkey id h.symm
          cases hidx : S.putStateErr k "\x00" <;>
            simp [createPatient, len_eq_zero_iff, hidne, hn, ha, hid, Stub.GetState, hget,
              hst, Stub.PutState, hput, hkey, hidx, Ledger.put, hk]

theorem updatePatientData_success_stored (P : Platform) (S : Stub) (L : Ledger)
    (idStr name address : String) (id : Int)
    (hid : ParseInt idStr = some id)
    (hok : (updatePatientData P S L [idStr, name, address]).1.isError = false) :
    ∃ b p, L.state (patientKey id) = some b ∧ P.unmarshalPatient b = .ok p ∧
      (updatePatientData P S L [idStr, name, address]).2 =
        L.put S (patientKey id) (P.marshalPatient
          ⟨p.ID, P.toLower name, P.toLower address, p.CreatedAt, S.now 0, p.Diseases,
            p.History⟩) := by
  have hidne := ParseInt_ne_empty hid
  cases hst : L.state (patientKey id) with
  | none =>
    exfalso
    revert hok
    simp only [updatePatientData]
    repeat' split
    all_goals
      intro hok
      simp_all [Stub.GetState_eq_ok, Response.isError]
  | some b =>
    cases hu : P.unmarshalPatient b with
    | error e =>
      have h := (updatePatientData_undecodable P S L idStr [name, address] id b e hid hst hu).1
      rw [h] at hok
      exact absurd hok (by simp)
    | ok p =>
      exact ⟨b, p, rfl, hu,
        updatePatientData_success P S L idStr name address id b p hid hst hu hok⟩

/-- C14: on a ledger that recorded no version of the patient key, a successful
`createPatient` followed by two successful `updatePatientData` on the same id, the
index key of the creation being no patient key: the patient key went through exactly
three versions, one for each step, none a deletion and each with the value the step
stored; and with a collaborator whose history iterator yields the recorded versions,
`getPatientHistorybyID` returns the stated report of these three versions in the
order creation, first update, second update. -/
theorem history_of_create_and_two_updates (P : Platform) (S1 S2 S3 S4 : Stub)
    (L L1 L2 L3 : Ledger)
    (idStr name1 address1 name2 address2 name3 address3 : String) (id : Int)
    (hid : ParseInt idStr = some id)
    (hfresh : L.versions (patientKey id) = [])
    (hS1 : S1.IndexApart)
    (hL1 : createPatient P S1 L [idStr, name1, address1] = (.success none, L1))
    (hL2 : updatePatientData P S2 L1 [idStr, name2, address2] = (.success none, L2))
    (hL3 : updatePatientData P S3 L2 [idStr, name3, address3] = (.success none, L3))
    (hhist : S4.getHistoryForKey L3 (patientKey id) =
      .ok (some ((L3.versions (patientKey id)).map .ok))) :
    ∃ v1 v2 v3 : Bytes,
      L1.state (patientKey id) = some v1 ∧ L2.state (patientKey id) = some v2 ∧
      L3.state (patientKey id) = some v3 ∧
      L3.versions (patientKey id) =
        [⟨S1.txID, v1, S1.txSeconds, S1.txNanos, false⟩,
          ⟨S2.txID, v2, S2.txSeconds, S2.txNanos, false⟩,
          ⟨S3.txID, v3, S3.txSeconds, S3.txNanos, false⟩] ∧
      (getPatientHistorybyID P S4 L3 [idStr]).1 =
        .success (some (statedHistoryReport P
          [⟨S1.txID, v1, S1.txSeconds, S1.txNanos, false⟩,
            ⟨S2.txID, v2, S2.txSeconds, S2.txNanos, false⟩,
            ⟨S3.txID, v3, S3.txSeconds, S3.txNanos, false⟩])) := by
  have h1 := createPatient_success P S1 L idStr name1 address1 id hid hS1 (by rw [hL1]; rfl)
  rw [hL1] at h1
  obtain ⟨_, hs1, hv1⟩ := h1
  simp only [hfresh, List.nil_append] at hv1
  obtain ⟨b2, p2, _, _, e2⟩ := updatePatientData_success_stored P S2 L1 idStr name2 address2
    id hid (by rw [hL2]; rfl)
  rw [hL2] at e2
  simp only at e2
  obtain ⟨b3, p3, _, _, e3⟩ := updatePatientData_success_stored P S3 L2 idStr name3 address3
    id hid (by rw [hL3]; rfl)
  rw [hL3] at e3
  simp only at e3
  have hv3 : L3.versions (patientKey id) =
      [⟨S1.txID, P.marshalPatient
          ⟨id, P.toLower name1, P.toLower address1, S1.now 0, S1.now 0, .nil, .nil⟩,
          S1.txSeconds, S1.txNanos, false⟩,
        ⟨S2.txID, P.marshalPatient
          ⟨p2.ID, P.toLower name2, P.toLower address2, p2.CreatedAt, S2.now 0, p2.Diseases,
            p2.History⟩, S2.txSeconds, S2.txNanos, false⟩,
        ⟨S3.txID, P.marshalPatient
          ⟨p3.ID, P.toLower name3, P.toLower address3, p3.CreatedAt, S3.now 0, p3.Diseases,
            p3.History⟩, S3.txSeconds, S3.txNanos, false⟩] := by
    rw [e3, e2]
    simp [Ledger.put, hv1]
  refine ⟨_, _, _, hs1, by rw [e2]; simp [Ledger.put], by rw [e3]; simp [Ledger.put], hv3, ?_⟩
  rw [hv3] at hhist
  rw [getPatientHistorybyID_ok P S4 L3 idStr id _ hid hhist]

/-- Witness of C14: patient `1` created and updated twice. -/
theorem history_of_create_and_two_updates_witness :
    (ledgerUpdatedTwice.versions (patientKey 1)).map KeyModification.TxId =
      ["tx1", "tx2", "tx3"] ∧
    (ledgerUpdatedTwice.versions (patientKey 1)).map KeyModification.IsDelete =
      [false, false, false] := by
  obtain ⟨v1, v2, v3, _, _, _, hv, _⟩ :=
    history_of_create_and_two_updates Platform.reference (Stub.fabric "tx1" 100)
      (Stub.fabric "tx2" 101) (Stub.fabric "tx3" 102) (Stub.fabric "tx4" 103)
      Ledger.empty ledgerWithPatient ledgerUpdatedOnce ledgerUpdatedTwice
      "1" "Ali" "Cairo" "Ali Hassan" "Alex" "Ali" "Giza" 1 (by decide) rfl
      (fabric_indexApart _ _) rfl rfl rfl rfl
  rw [hv]
  exact ⟨rfl, rfl⟩

/-! ## Timestamps -/

/-- C15 (the claim fails): patient `1` is created at the clock reading 100 and
updated at the clock reading 50; the ledger is reachable and its record has
`CreatedAt = 100` and `UpdatedAt = 50`, below both the `CreatedAt` and the `UpdatedAt`
stored before the update. -/
theorem updatedAt_below_createdAt :
    Reachable Platform.reference ledgerClockBack ∧
    ledgerWithPatient.state (patientKey 1) = some (Platform.reference.marshalPatient
      ⟨1, "ali", "cairo", 100, 100, .nil, .nil⟩) ∧
    (updatePatientData Platform.reference (Stub.fabric "tx2" 50) ledgerWithPatient
      ["1", "Ali Hassan", "Alex"]).1 = .success none ∧
    ledgerClockBack.state (patientKey 1) = some (Platform.reference.marshalPatient
      ⟨1, "ali hassan", "alex", 100, 50, .nil, .nil⟩) ∧
    Platform.reference.unmarshalPatient (Platform.reference.marshalPatient
      ⟨1, "ali hassan", "alex", 100, 50, .nil, .nil⟩) =
        .ok ⟨1, "ali hassan", "alex", 100, 50, .nil, .nil⟩ ∧
    ¬ ((100 : Int) ≤ 50) :=
  ⟨Reachable.invoke (Stub.fabric "tx2" 50) "updatePatientData" ["1", "Ali Hassan", "Alex"]
      (Reachable.invoke (Stub.fabric "tx1" 100) "createPatient" ["1", "Ali", "Cairo"]
        Reachable.empty (fabric_indexApart _ _))
      (fabric_indexApart _ _),
    by decide, by decide, by decide, reference_unmarshalPatient_marshalPatient _, by decide⟩

theorem assignDiseaseToPatient_success_stored (P : Platform) (S : Stub) (L : Ledger)
    (pidStr didStr : String) (pid : Int) (pBytes : Bytes) (p : Patient)
    (hpid : ParseInt pidStr = some pid)
    (hp : L.state (patientKey pid) = some pBytes)
    (hpd : P.unmarshalPatient pBytes = .ok p)
    (hok : (assignDiseaseToPatient P S L [pidStr, didStr]).1.isError = false) :
    ∃ d, (assignDiseaseToPatient P S L [pidStr, didStr]).2 =
      L.put S (patientKey pid) (P.marshalPatient
        ⟨p.ID, p.Name, p.Address, p.CreatedAt, S.now 0, .of (p.Diseases.elems ++ [d]),
          p.History⟩) := by
  cases hdid : ParseInt didStr with
  | none =>
    exfalso
    revert hok
    simp only [assignDiseaseToPatient]
    repeat' split
    all_goals
      intro hok
      simp_all [Response.isError]
  | some did =>
    cases hds : L.state (diseaseKey did) with
    | none =>
      exfalso
      revert hok
      simp only [assignDiseaseToPatient]
      repeat' split
      all_goals
        intro hok
        simp_all [Stub.GetState_eq_ok, Response.isError]
    | some db =>
      cases hdd : P.unmarshalDisease db with
      | error e =>
        have h := (assignDiseaseToPatient_undecodable_disease P S L pidStr didStr did db e
          hdid hds hdd).1
        rw [h] at hok
        exact absurd hok (by simp)
      | ok d =>
        exact ⟨d, assignDiseaseToPatient_success P S L pidStr didStr pid did pBytes db p d
          hpid hdid hp hpd hds hdd hok⟩

theorem timely_mono (P : Platform) (t t1 : Int) (L : Ledger) (h : L.timely P t)
    (ht : t ≤ t1) : L.timely P t1 := by
  intro id b hb
  obtain ⟨p, hp, h1, h2⟩ := h id b hb
  exact ⟨p, hp, h1, le_trans h2 ht⟩

theorem timely_put_patient (P : Platform) (S : Stub) (L : Ledger) (t : Int)
    (h : L.timely P t) (id : Int) (p : Patient) (h1 : p.CreatedAt ≤ p.UpdatedAt)
    (h2 : p.UpdatedAt ≤ t) :
    (L.put S (patientKey id) (P.marshalPatient p)).timely P t := by
  intro id2 b hb
  by_cases hk : patientKey id2 = patientKey id
  · simp only [Ledger.put, hk, if_true, Option.some.injEq] at hb
    exact ⟨p, hb.symm, h1, h2⟩
  · simp only [Ledger.put, hk, if_false] at hb
    exact h id2 b hb

theorem timely_put_other (P : Platform) (S : Stub) (L : Ledger) (t : Int)
    (h : L.timely P t) (k : String) (v : Bytes) (hk : ∀ id, k ≠ patientKey id) :
    (L.put S k v).timely P t := by
  intro id2 b hb
  have hne : ¬ patientKey id2 = k := fun e => hk id2 e.symm
  simp only [Ledger.put, hne, if_false] at hb
  exact h id2 b hb

theorem timely_decode (P : Platform)
    (hround : ∀ p, P.unmarshalPatient (P.marshalPatient p) = .ok p) (L : Ledger) (t : Int)
    (h : L.timely P t) (id : Int) (b : Bytes) (p : Patient)
    (hb : L.state (patientKey id) = some b) (hp : P.unmarshalPatient b = .ok p) :
    p.CreatedAt ≤ p.UpdatedAt ∧ p.UpdatedAt ≤ t := by
  obtain ⟨p0, rfl, h1, h2⟩ := h id b hb
  rw [hround p0] at hp
  injection hp with hp
  exact hp ▸ ⟨h1, h2⟩

theorem timely_invoke (P : Platform)
    (hround : ∀ p, P.unmarshalPatient (P.marshalPatient p) = .ok p) (S : Stub)
    (hS : S.IndexApart) (L : Ledger) (t t1 : Int) (h : L.timely P t)
    (hclock : ∀ i, t ≤ S.now i ∧ S.now i ≤ t1) (function : String)
    (args : List String) : (Invoke P S L function args).2.timely P t1 := by
  have ht : t ≤ t1 := le_trans (hclock 0).1 (hclock 0).2
  have h1 := timely_mono P t t1 L h ht
  unfold Invoke
  split_ifs
  · rcases createPatient_ledger P S L args with e | ⟨id, name, address, e | ⟨k, hk, e⟩⟩
    · rw [e]; exact h1
    · rw [e]
      exact timely_put_patient P S L t1 h1 id _ (le_refl _) (hclock 0).2
    · rw [e]
      exact timely_put_other P S _ t1
        (timely_put_patient P S L t1 h1 id _ (le_refl _) (hclock 0).2) k _ (hS _ _ k hk)
  · rcases updatePatientData_ledger P S L args with e | ⟨id, b, p, name, address, hb, hp, e⟩
    · rw [e]; exact h1
    · rw [e]
      have hd := timely_decode P hround L t h id b p hb hp
      exact timely_put_patient P S L t1 h1 id _
        (le_trans hd.1 (le_trans hd.2 (hclock 0).1)) (hclock 0).2
  · rcases addPatientHistory_ledger P S L args with e | ⟨id, b, p, description, hb, hp, e⟩
    · rw [e]; exact h1
    · rw [e]
      have hd := timely_decode P hround L t h id b p hb hp
      exact timely_put_patient P S L t1 h1 id _
        (le_trans hd.1 (le_trans hd.2 (hclock 1).1)) (hclock 1).2
  · rw [getPatientbyID_ledger]; exact h1
  · rw [getPatientHistorybyID_ledger]; exact h1
  · rcases createDisease_ledger P S L args with e | ⟨id, v, e | ⟨k, hk, e⟩⟩
    · rw [e]; exact h1
    · rw [e]
      exact timely_put_other P S L t1 h1 _ _
        (fun i e2 => patientKey_ne_diseaseKey i id e2.symm)
    · rw [e]
      exact timely_put_other P S _ t1
        (timely_put_other P S L t1 h1 _ _
          (fun i e2 => patientKey_ne_diseaseKey i id e2.symm)) k _ (hS _ _ k hk)
  · rw [getDiseasebyID_ledger]; exact h1
  · rcases assignDiseaseToPatient_ledger P S L args with e | ⟨id, b, p, d, hb, hp, _, e⟩
    · rw [e]; exact h1
    · rw [e]
      have hd := timely_decode P hround L t h id b p hb hp
      exact timely_put_patient P S L t1 h1 id _
        (le_trans hd.1 (le_trans hd.2 (hclock 0).1)) (hclock 0).2
  · exact h1

theorem reachableBy_timely (P : Platform)
    (hround : ∀ p, P.unmarshalPatient (P.marshalPatient p) = .ok p) (t : Int) (L : Ledger)
    (hL : ReachableBy P t L) : L.timely P t := by
  induction hL with
  | empty t =>
    intro id b hb
    simp [Ledger.empty] at hb
  | invoke S function args t1 _ hS hclock ih =>
    exact timely_invoke P hround S hS _ _ t1 ih hclock function args

/-- C15 (amended): on a platform whose codec reads back the patients it writes, in
every ledger reached from the empty ledger by invocations during which the clock
never goes back, every patient decoded from a patient key has
`CreatedAt ≤ UpdatedAt`; on such a ledger a successful `updatePatientData`,
`addPatientHistory` or `assignDiseaseToPatient` whose clock readings are not before
the earlier ones stores a record with `UpdatedAt` at least the one stored before; and
on any ledger, whatever the clock, these operations store the `CreatedAt` they
found. -/
theorem updatedAt_monotone (P : Platform)
    (hround : ∀ p, P.unmarshalPatient (P.marshalPatient p) = .ok p) :
    (∀ (t : Int) (L : Ledger) (id : Int) (b : Bytes) (p : Patient),
      ReachableBy P t L → L.state (patientKey id) = some b →
      P.unmarshalPatient b = .ok p → p.CreatedAt ≤ p.UpdatedAt) ∧
    (∀ (S : Stub) (L : Ledger) (idStr : String) (id : Int) (b : Bytes) (p : Patient),
      ParseInt idStr = some id → L.state (patientKey id) = some b →
      P.unmarshalPatient b = .ok p →
      (∀ name address : String,
        (updatePatientData P S L [idStr, name, address]).1.isError = false →
        ∃ p1, (updatePatientData P S L [idStr, name, address]).2.state (patientKey id) =
            some (P.marshalPatient p1) ∧
          p1.CreatedAt = p.CreatedAt ∧
          (∀ t, ReachableBy P t L → (∀ i, t ≤ S.now i) → p.UpdatedAt ≤ p1.UpdatedAt)) ∧
      (∀ description : String,
        (addPatientHistory P S L [idStr, description]).1.isError = false →
        ∃ p1, (addPatientHistory P S L [idStr, description]).2.state (patientKey id) =
            some (P.marshalPatient p1) ∧
          p1.CreatedAt = p.CreatedAt ∧
          (∀ t, ReachableBy P t L → (∀ i, t ≤ S.now i) → p.UpdatedAt ≤ p1.UpdatedAt)) ∧
      (∀ didStr : String,
        (assignDiseaseToPatient P S L [idStr, didStr]).1.isError = false →
        ∃ p1, (assignDiseaseToPatient P S L [idStr, didStr]).2.state (patientKey id) =
            some (P.marshalPatient p1) ∧
          p1.CreatedAt = p.CreatedAt ∧
          (∀ t, ReachableBy P t L → (∀ i, t ≤ S.now i) → p.UpdatedAt ≤ p1.UpdatedAt))) := by
  refine ⟨?_, ?_⟩
  · intro t L id b p hL hb hp
    exact (timely_decode P hround L t (reachableBy_timely P hround t L hL) id b p hb hp).1
  · intro S L idStr id b p hid hb hp
    have hmono : ∀ i, ∀ t, ReachableBy P t L → (∀ i, t ≤ S.now i) → p.UpdatedAt ≤ S.now i :=
      fun i t hL hclock =>
        le_trans (timely_decode P hround L t (reachableBy_timely P hround t L hL)
          id b p hb hp).2 (hclock i)
    refine ⟨?_, ?_, ?_⟩
    · intro name address hok
      rw [updatePatientData_success P S L idStr name address id b p hid hb hp hok]
      exact ⟨⟨p.ID, P.toLower name, P.toLower address, p.CreatedAt, S.now 0, p.Diseases,
        p.History⟩, by simp [Ledger.put], rfl, hmono 0⟩
    · intro description hok
      rw [addPatientHistory_success P S L idStr description id b p hid hb hp hok]
      exact ⟨⟨p.ID, p.Name, p.Address, p.CreatedAt, S.now 1, p.Diseases,
        .of (p.History.elems ++ [⟨P.toLower description, S.now 0⟩])⟩,
        by simp [Ledger.put], rfl, hmono 1⟩
    · intro didStr hok
      obtain ⟨d, e⟩ := assignDiseaseToPatient_success_stored P S L idStr didStr id b p hid
        hb hp hok
      rw [e]
      exact ⟨⟨p.ID, p.Name, p.Address, p.CreatedAt, S.now 0, .of (p.Diseases.elems ++ [d]),
        p.History⟩, by simp [Ledger.put], rfl, hmono 0⟩

/-- Witness of C15 (amended): patient `1`, created at the clock reading 100 and
updated at the clock reading 101. -/
theorem updatedAt_monotone_witness :
    ReachableBy Platform.reference 100 ledgerWithPatient ∧
    ∃ p1, ledgerUpdatedOnce.state (patientKey 1) =
        some (Platform.reference.marshalPatient p1) ∧
      p1.CreatedAt = 100 ∧ (100 : Int) ≤ p1.UpdatedAt :=
  have hreach : ReachableBy Platform.reference 100 ledgerWithPatient :=
    ReachableBy.invoke (Stub.fabric "tx1" 100) "createPatient" ["1", "Ali", "Cairo"] 100
      (ReachableBy.empty 100) (fabric_indexApart _ _) (fun _ => ⟨le_refl _, le_refl _⟩)
  have h := ((updatedAt_monotone Platform.reference
    reference_unmarshalPatient_marshalPatient).2 (Stub.fabric "tx2" 101) ledgerWithPatient
    "1" 1 _ ⟨1, "ali", "cairo", 100, 100, .nil, .nil⟩ (by decide) (by decide)
    (reference_unmarshalPatient_marshalPatient _)).1 "Ali Hassan" "Alex" (by decide)
  ⟨hreach, h.elim fun p1 hp1 =>
    ⟨p1, hp1.1, hp1.2.1,
      hp1.2.2 100 hreach (fun _ => show (100 : Int) ≤ 101 by decide)⟩⟩

/-! ## An empty history -/

/-- C21: for an id argument that parses to `id`, when the collaborator returns an
empty version sequence for the patient key without error, `getPatientHistorybyID`
succeeds with the payload `[]` and returns the ledger it was given. -/
theorem getPatientHistorybyID_empty (P : Platform) (S : Stub) (L : Ledger)
    (idStr : String) (id : Int) (hid : ParseInt idStr = some id)
    (hvs : S.getHistoryForKey L (patientKey id) = .ok (some [])) :
    getPatientHistorybyID P S L [idStr] = (.success (some "[]"), L) := by
  have hidne := ParseInt_ne_empty hid
  simp [getPatientHistorybyID, len_eq_zero_iff, hidne, hid, hvs, historyLoop]

/-- Witness of C21: patient `5` was never written. -/
theorem getPatientHistorybyID_empty_witness :
    getPatientHistorybyID Platform.reference (Stub.fabric "tx2" 101) ledgerWithPatient
      ["5"] = (.success (some "[]"), ledgerWithPatient) :=
  getPatientHistorybyID_empty Platform.reference (Stub.fabric "tx2" 101) ledgerWithPatient
    "5" 5 (by decide) rfl

/-! ## Dispatch -/

/-- C22: for each of the eight operations `Invoke` on the name of the operation
returns what the function of that operation returns on the same arguments, response
and ledger; for every other function name it returns a failure, the one with the
message of the source, and the ledger it was given. -/
theorem Invoke_dispatch (P : Platform) (S : Stub) (L : Ledger) (args : List String) :
    (∀ op : Operation, Invoke P S L op.name args = op.run P S L args) ∧
    (Invoke P S L "createPatient" args = createPatient P S L args ∧
      Invoke P S L "updatePatientData" args = updatePatientData P S L args ∧
      Invoke P S L "addPatientHistory" args = addPatientHistory P S L args ∧
      Invoke P S L "getPatientbyID" args = getPatientbyID P S L args ∧
      Invoke P S L "getPatientHistorybyID" args = getPatientHistorybyID P S L args ∧
      Invoke P S L "createDisease" args = createDisease P S L args ∧
      Invoke P S L "getDiseasebyID" args = getDiseasebyID P S L args ∧
      Invoke P S L "assignDiseaseToPatient" args = assignDiseaseToPatient P S L args) ∧
    (∀ function : String, (∀ op : Operation, function ≠ op.name) →
      Invoke P S L function args = (.error invalidFunctionMsg, L) ∧
      (Invoke P S L function args).1.isError = true ∧
      (Invoke P S L function args).2 = L) := by
  refine ⟨?_, ⟨rfl, rfl, rfl, rfl, rfl, rfl, rfl, rfl⟩, ?_⟩
  · intro op
    cases op <;> rfl
  · intro function h
    have h1 := h .createPatient
    have h2 := h .updatePatientData
    have h3 := h .addPatientHistory
    have h4 := h .getPatientbyID
    have h5 := h .getPatientHistorybyID
    have h6 := h .createDisease
    have h7 := h .getDiseasebyID
    have h8 := h .assignDiseaseToPatient
    simp only [Operation.name] at h1 h2 h3 h4 h5 h6 h7 h8
    simp [Invoke, h1, h2, h3, h4, h5, h6, h7, h8, Response.isError]

/-- Witness of C22: a function name that is none of the eight. -/
theorem Invoke_dispatch_witness :
    Invoke Platform.reference (Stub.fabric "tx2" 101) ledgerWithPatient "deletePatient"
      ["1"] = (.error invalidFunctionMsg, ledgerWithPatient) :=
  ((Invoke_dispatch Platform.reference (Stub.fabric "tx2" 101) ledgerWithPatient ["1"]).2.2
    "deletePatient" (fun op => by cases op <;> decide)).1

/-! ## Addressing by the parsed integer -/

theorem createPatient_sameId (P : Platform) (S : Stub) (L : Ledger) (s s' : String)
    (id : Int) (hs : ParseInt s = some id) (hs' : ParseInt s' = some id)
    (rest : List String) : createPatient P S L (s :: rest) = createPatient P S L (s' :: rest) := by
  have h := ParseInt_ne_empty hs
  have h' := ParseInt_ne_empty hs'
  rcases rest with _ | ⟨a, _ | ⟨b, _ | ⟨c, r⟩⟩⟩ <;>
    simp [createPatient, len_eq_zero_iff, h, h', hs, hs']

theorem updatePatientData_sameId (P : Platform) (S : Stub) (L : Ledger) (s s' : String)
    (id : Int) (hs : ParseInt s = some id) (hs' : ParseInt s' = some id)
    (rest : List String) : updatePatientData P S L (s :: rest) = updatePatientData P S L (s' :: rest) := by
  have h := ParseInt_ne_empty hs
  have h' := ParseInt_ne_empty hs'
  rcases rest with _ | ⟨a, _ | ⟨b, _ | ⟨c, r⟩⟩⟩ <;>
    simp [updatePatientData, len_eq_zero_iff, h, h', hs, hs']

theorem createDisease_sameId (P : Platform) (S : Stub) (L : Ledger) (s s' : String)
    (id : Int) (hs : ParseInt s = some id) (hs' : ParseInt s' = some id)
    (rest : List String) : createDisease P S L (s :: rest) = createDisease P S L (s' :: rest) := by
  have h := ParseInt_ne_empty hs
  have h' := ParseInt_ne_empty hs'
  rcases rest with _ | ⟨a, _ | ⟨b, _ | ⟨c, r⟩⟩⟩ <;>
    simp [createDisease, len_eq_zero_iff, h, h', hs, hs']

theorem addPatientHistory_sameId (P : Platform) (S : Stub) (L : Ledger) (s s' : String)
    (id : Int) (hs : ParseInt s = some id) (hs' : ParseInt s' = some id)
    (rest : List String) : addPatientHistory P S L (s :: rest) = addPatientHistory P S L (s' :: rest) := by
  have h := ParseInt_ne_empty hs
  have h' := ParseInt_ne_empty hs'
  rcases rest with _ | ⟨a, _ | ⟨b, r⟩⟩ <;>
    simp [addPatientHistory, len_eq_zero_iff, h, h', hs, hs']

theorem getPatientbyID_sameId (P : Platform) (S : Stub) (L : Ledger) (s s' : String)
    (id : Int) (hs : ParseInt s = some id) (hs' : ParseInt s' = some id)
    (rest : List String) : getPatientbyID P S L (s :: rest) = getPatientbyID P S L (s' :: rest) := by
  have h := ParseInt_ne_empty hs
  have h' := ParseInt_ne_empty hs'
  rcases rest with _ | ⟨a, r⟩ <;>
    simp [getPatientbyID, len_eq_zero_iff, h, h', hs, hs']

theorem getPatientHistorybyID_sameId (P : Platform) (S : Stub) (L : Ledger) (s s' : String)
    (id : Int) (hs : ParseInt s = some id) (hs' : ParseInt s' = some id)
    (rest : List String) : getPatientHistorybyID P S L (s :: rest) = getPatientHistorybyID P S L (s' :: rest) := by
  have h := ParseInt_ne_empty hs
  have h' := ParseInt_ne_empty hs'
  rcases rest with _ | ⟨a, r⟩ <;>
    simp [getPatientHistorybyID, len_eq_zero_iff, h, h', hs, hs']

theorem getDiseasebyID_sameId (P : Platform) (S : Stub) (L : Ledger) (s s' : String)
    (id : Int) (hs : ParseInt s = some id) (hs' : ParseInt s' = some id)
    (rest : List String) : getDiseasebyID P S L (s :: rest) = getDiseasebyID P S L (s' :: rest) := by
  have h := ParseInt_ne_empty hs
  have h' := ParseInt_ne_empty hs'
  rcases rest with _ | ⟨a, r⟩ <;>
    simp [getDiseasebyID, len_eq_zero_iff, h, h', hs, hs']

theorem assignDiseaseToPatient_sameId (P : Platform) (S : Stub) (L : Ledger)
    (s s' : String) (id : Int) (hs : ParseInt s = some id) (hs' : ParseInt s' = some id)
    (rest : List String) :
    assignDiseaseToPatient P S L (s :: rest) = assignDiseaseToPatient P S L (s' :: rest) := by
  have h := ParseInt_ne_empty hs
  have h' := ParseInt_ne_empty hs'
  rcases rest with _ | ⟨a, _ | ⟨b, r⟩⟩ <;>
    simp [assignDiseaseToPatient, len_eq_zero_iff, h, h', hs, hs']

theorem assignDiseaseToPatient_sameSecondId (P : Platform) (S : Stub) (L : Ledger)
    (a0 t t' : String) (did : Int) (ht : ParseInt t = some did)
    (ht' : ParseInt t' = some did) :
    assignDiseaseToPatient P S L [a0, t] = assignDiseaseToPatient P S L [a0, t'] := by
  have h := ParseInt_ne_empty ht
  have h' := ParseInt_ne_empty ht'
  simp [assignDiseaseToPatient, len_eq_zero_iff, h, h', ht, ht']

theorem run_sameId (P : Platform) (S : Stub) (L : Ledger) (s s' : String)
    (id : Int) (hs : ParseInt s = some id) (hs' : ParseInt s' = some id)
    (op : Operation) (rest : List String) :
    op.run P S L (s :: rest) = op.run P S L (s' :: rest) := by
  cases op <;> simp only [Operation.run]
  · exact createPatient_sameId P S L s s' id hs hs' rest
  · exact updatePatientData_sameId P S L s s' id hs hs' rest
  · exact addPatientHistory_sameId P S L s s' id hs hs' rest
  · exact getPatientbyID_sameId P S L s s' id hs hs' rest
  · exact getPatientHistorybyID_sameId P S L s s' id hs hs' rest
  · exact createDisease_sameId P S L s s' id hs hs' rest
  · exact getDiseasebyID_sameId P S L s s' id hs hs' rest
  · exact assignDiseaseToPatient_sameId P S L s s' id hs hs' rest

theorem createPatient_success_present (P : Platform) (S : Stub) (L : Ledger)
    (idStr name address : String) (id : Int) (hid : ParseInt idStr = some id)
    (hok : (createPatient P S L [idStr, name, address]).1.isError = false) :
    name ≠ "" ∧ address ≠ "" ∧
    ((createPatient P S L [idStr, name, address]).2.state (patientKey id)).isSome = true := by
  have hidne := ParseInt_ne_empty hid
  by_cases hn : name = ""
  · simp [createPatient, len_eq_zero_iff, hidne, hn, Response.isError] at hok
  by_cases ha : address = ""
  · simp [createPatient, len_eq_zero_iff, hidne, hn, ha, Response.isError] at hok
  refine ⟨hn, ha, ?_⟩
  cases hget : S.getStateErr (patientKey id) with
  | some e =>
    simp [createPatient, len_eq_zero_iff, hidne, hn, ha, hid, Stub.GetState, hget,
      Response.isError] at hok
  | none =>
    cases hst : L.state (patientKey id) with
    | some b =>
      simp [createPatient, len_eq_zero_iff, hidne, hn, ha, hid, Stub.GetState, hget, hst,
        Response.isError] at hok
    | none =>
      cases hput : S.putStateErr (patientKey id) (P.marshalPatient
          ⟨id, P.toLower name, P.toLower address, S.now 0, S.now 0, .nil, .nil⟩) with
      | some e =>
        simp [createPatient, len_eq_zero_iff, hidne, hn, ha, hid, Stub.GetState, hget, hst,
          Stub.PutState, hput, Response.isError] at hok
      | none =>
        cases hkey : S.createCompositeKey "patient~ID" ["patient", runeString id] with
        | error e =>
          simp [createPatient, len_eq_zero_iff, hidne, hn, ha, hid, Stub.GetState, hget,
            hst, Stub.PutState, hput, hkey, Response.isError] at hok
        | ok k =>
          by_cases hk : k = patientKey id
          · subst hk
            cases hidx : S.putStateErr (patientKey id) "\x00" <;>
              simp [createPatient, len_eq_zero_iff, hidne, hn, ha, hid, Stub.GetState,
                hget, hst, Stub.PutState, hput, hkey, hidx, Ledger.put]
          · have hk2 : ¬ patientKey id = k := fun h => hk h.symm
            cases hidx : S.putStateErr k "\x00" <;>
              simp [createPatient, len_eq_zero_iff, hidne, hn, ha, hid, Stub.GetState,
                hget, hst, Stub.PutState, hput, hkey, hidx, Ledger.put, hk2]

theorem createPatient_present (P : Platform) (S : Stub) (L : Ledger)
    (idStr name address : String) (id : Int)
    (hid : ParseInt idStr = some id) (hname : name ≠ "") (haddress : address ≠ "")
    (hpresent : (L.state (patientKey id)).isSome = true) :
    (createPatient P S L [idStr, name, address]).1.isError = true ∧
    (createPatient P S L [idStr, name, address]).2 = L ∧
    (S.getStateErr (patientKey id) = none →
      (createPatient P S L [idStr, name, address]).1 =
        .error ("This patient already exists: " ++ patientKey id)) := by
  have hidne := ParseInt_ne_empty hid
  obtain ⟨b, hb⟩ := Option.isSome_iff_exists.mp hpresent
  cases hget : S.getStateErr (patientKey id) <;>
    simp [createPatient, len_eq_zero_iff, hidne, hname, haddress, hid,
      Stub.GetState, hget, hb, Response.isError]

/-- C23: an operation uses its id arguments only through the integers they parse to.
For two strings `s`, `s'` that parse to the same integer: every operation run on
`s :: rest` returns the response and the ledger it returns on `s' :: rest`, and so
does `Invoke` for every function name; `assignDiseaseToPatient` returns the same on
`[s, t]` and `[s', t']` when `t`, `t'` also parse to one integer; and after a
successful `createPatient [s, n, a]`, `createPatient [s', n, a]` fails, changes
nothing, and the failure is the already-exists one when the get reports no error. -/
theorem same_parsed_id_same_result (P : Platform) (S : Stub) (L : Ledger)
    (s s' : String) (id : Int) (hs : ParseInt s = some id) (hs' : ParseInt s' = some id) :
    (∀ (op : Operation) (rest : List String),
      op.run P S L (s :: rest) = op.run P S L (s' :: rest)) ∧
    (∀ (function : String) (rest : List String),
      Invoke P S L function (s :: rest) = Invoke P S L function (s' :: rest)) ∧
    (∀ (t t' : String) (did : Int), ParseInt t = some did → ParseInt t' = some did →
      assignDiseaseToPatient P S L [s, t] = assignDiseaseToPatient P S L [s', t']) ∧
    (∀ (S2 : Stub) (n a : String),
      (createPatient P S L [s, n, a]).1.isError = false →
      (createPatient P S2 (createPatient P S L [s, n, a]).2 [s', n, a]).1.isError = true ∧
      (createPatient P S2 (createPatient P S L [s, n, a]).2 [s', n, a]).2 =
        (createPatient P S L [s, n, a]).2 ∧
      (S2.getStateErr (patientKey id) = none →
        (createPatient P S2 (createPatient P S L [s, n, a]).2 [s', n, a]).1 =
          .error ("This patient already exists: " ++ patientKey id))) := by
  refine ⟨run_sameId P S L s s' id hs hs', ?_, ?_, ?_⟩
  · intro function rest
    simp only [Invoke, createPatient_sameId P S L s s' id hs hs' rest,
      updatePatientData_sameId P S L s s' id hs hs' rest,
      addPatientHistory_sameId P S L s s' id hs hs' rest,
      getPatientbyID_sameId P S L s s' id hs hs' rest,
      getPatientHistorybyID_sameId P S L s s' id hs hs' rest,
      createDisease_sameId P S L s s' id hs hs' rest,
      getDiseasebyID_sameId P S L s s' id hs hs' rest,
      assignDiseaseToPatient_sameId P S L s s' id hs hs' rest]
  · intro t t' did ht ht'
    rw [assignDiseaseToPatient_sameId P S L s s' id hs hs' [t],
      assignDiseaseToPatient_sameSecondId P S L s' t t' did ht ht']
  · intro S2 n a hok
    obtain ⟨hn, ha, hp⟩ := createPatient_success_present P S L s n a id hs hok
    exact createPatient_present P S2 _ s' n a id hs' hn ha hp

/-- Witness of C23: the strings `1` and `01`; the second creation is refused. -/
theorem same_parsed_id_same_result_witness :
    ParseInt "1" = some 1 ∧ ParseInt "+1" = some 1 ∧ ParseInt "01" = some 1 ∧
    (createPatient Platform.reference (Stub.fabric "tx2" 101)
        (createPatient Platform.reference (Stub.fabric "tx1" 100) Ledger.empty
          ["1", "Ali", "Cairo"]).2 ["01", "Ali", "Cairo"]).1 =
      .error ("This patient already exists: " ++ patientKey 1) :=
  ⟨by decide, by decide, by decide,
    ((same_parsed_id_same_result Platform.reference (Stub.fabric "tx1" 100) Ledger.empty
      "1" "01" 1 (by decide) (by decide)).2.2.2 (Stub.fabric "tx2" 101) "Ali" "Cairo"
        (by decide)).2.2 rfl⟩

/-! ## Stored identifiers -/

theorem createDisease_ledger_fresh (P : Platform) (S : Stub) (L : Ledger)
    (args : List String) :
    (createDisease P S L args).2 = L ∨
    ∃ id name description, L.state (diseaseKey id) = none ∧
      ((createDisease P S L args).2 =
          L.put S (diseaseKey id) (P.marshalDisease ⟨id, name, description⟩) ∨
        ∃ k, S.createCompositeKey "Disease~ID" ["Disease", runeString id] = .ok k ∧
          (createDisease P S L args).2 =
            (L.put S (diseaseKey id) (P.marshalDisease ⟨id, name, description⟩)).put S k
              "\x00") := by
  simp only [createDisease]
  repeat' split
  all_goals first
    | (left; rfl)
    | (right
       simp only [Stub.PutState_eq_ok, Stub.GetState_eq_ok] at *
       casesm* _ ∧ _
       subst_vars
       first
         | exact ⟨_, _, _, ‹_›, Or.inl rfl⟩
         | exact ⟨_, _, _, ‹_›, Or.inr ⟨_, ‹_›, rfl⟩⟩)

theorem reference_keepsID : Platform.reference.KeepsID :=
  ⟨fun p => ⟨p, reference_unmarshalPatient_marshalPatient p, rfl⟩,
    fun d => ⟨d, reference_unmarshalDisease_marshalDisease d, rfl⟩⟩

theorem idsMatch_empty (P : Platform) : Ledger.empty.idsMatch P := by
  constructor <;> intro n b hb <;> simp [Ledger.empty] at hb

theorem idsMatch_put_patient (P : Platform) (hP : P.KeepsID) (S : Stub) (L : Ledger)
    (h : L.idsMatch P) (id : Int) (p : Patient) (hp : p.ID = id) :
    (L.put S (patientKey id) (P.marshalPatient p)).idsMatch P := by
  constructor
  · intro n b hb
    by_cases hk : patientKey n = patientKey id
    · simp only [Ledger.put, hk, if_true, Option.some.injEq] at hb
      obtain ⟨q, hq, hqid⟩ := hP.1 p
      have hn : n = id := patientKey_injective n id hk
      exact ⟨q, hb ▸ hq, by rw [hqid, hp, hn]⟩
    · simp only [Ledger.put, hk, if_false] at hb
      exact h.1 n b hb
  · intro n b hb
    have hk : ¬ diseaseKey n = patientKey id := fun e => patientKey_ne_diseaseKey id n e.symm
    simp only [Ledger.put, hk, if_false] at hb
    exact h.2 n b hb

theorem idsMatch_put_disease (P : Platform) (hP : P.KeepsID) (S : Stub) (L : Ledger)
    (h : L.idsMatch P) (id : Int) (d : Disease) (hd : d.ID = id) :
    (L.put S (diseaseKey id) (P.marshalDisease d)).idsMatch P := by
  constructor
  · intro n b hb
    have hk : ¬ patientKey n = diseaseKey id := patientKey_ne_diseaseKey n id
    simp only [Ledger.put, hk, if_false] at hb
    exact h.1 n b hb
  · intro n b hb
    by_cases hk : diseaseKey n = diseaseKey id
    · simp only [Ledger.put, hk, if_true, Option.some.injEq] at hb
      obtain ⟨q, hq, hqid⟩ := hP.2 d
      have hn : n = id := diseaseKey_injective n id hk
      exact ⟨q, hb ▸ hq, by rw [hqid, hd, hn]⟩
    · simp only [Ledger.put, hk, if_false] at hb
      exact h.2 n b hb

theorem idsMatch_put_other (P : Platform) (S : Stub) (L : Ledger)
    (h : L.idsMatch P) (k : String) (v : Bytes)
    (hk : ∀ id, k ≠ patientKey id ∧ k ≠ diseaseKey id) :
    (L.put S k v).idsMatch P := by
  constructor
  · intro n b hb
    have hne : ¬ patientKey n = k := fun e => (hk n).1 e.symm
    simp only [Ledger.put, hne, if_false] at hb
    exact h.1 n b hb
  · intro n b hb
    have hne : ¬ diseaseKey n = k := fun e => (hk n).2 e.symm
    simp only [Ledger.put, hne, if_false] at hb
    exact h.2 n b hb

theorem idsMatch_decode (P : Platform) (L : Ledger) (h : L.idsMatch P) (id : Int)
    (b : Bytes) (p : Patient) (hb : L.state (patientKey id) = some b)
    (hp : P.unmarshalPatient b = .ok p) : p.ID = id := by
  obtain ⟨q, hq, hqid⟩ := h.1 id b hb
  rw [hq] at hp
  injection hp with hp
  exact hp ▸ hqid

theorem idsMatch_invoke (P : Platform) (hP : P.KeepsID) (S : Stub) (hS : S.RecordsApart)
    (L : Ledger) (h : L.idsMatch P) (function : String) (args : List String) :
    (Invoke P S L function args).2.idsMatch P := by
  unfold Invoke
  split_ifs
  · rcases createPatient_ledger P S L args with e | ⟨id, name, address, e | ⟨k, hk, e⟩⟩
    · rw [e]; exact h
    · rw [e]
      exact idsMatch_put_patient P hP S L h id _ rfl
    · rw [e]
      exact idsMatch_put_other P S _ (idsMatch_put_patient P hP S L h id _ rfl) k _
        (hS _ _ k hk)
  · rcases updatePatientData_ledger P S L args with e | ⟨id, b, p, name, address, hb, hp, e⟩
    · rw [e]; exact h
    · rw [e]
      exact idsMatch_put_patient P hP S L h id _ (idsMatch_decode P L h id b p hb hp)
  · rcases addPatientHistory_ledger P S L args with e | ⟨id, b, p, description, hb, hp, e⟩
    · rw [e]; exact h
    · rw [e]
      exact idsMatch_put_patient P hP S L h id _ (idsMatch_decode P L h id b p hb hp)
  · rw [getPatientbyID_ledger]; exact h
  · rw [getPatientHistorybyID_ledger]; exact h
  · rcases createDisease_ledger_fresh P S L args with
      e | ⟨id, name, description, _, e | ⟨k, hk, e⟩⟩
    · rw [e]; exact h
    · rw [e]
      exact idsMatch_put_disease P hP S L h id _ rfl
    · rw [e]
      exact idsMatch_put_other P S _ (idsMatch_put_disease P hP S L h id _ rfl) k _
        (hS _ _ k hk)
  · rw [getDiseasebyID_ledger]; exact h
  · rcases assignDiseaseToPatient_ledger P S L args with e | ⟨id, b, p, d, hb, hp, _, e⟩
    · rw [e]; exact h
    · rw [e]
      exact idsMatch_put_patient P hP S L h id _ (idsMatch_decode P L h id b p hb hp)
  · exact h

theorem put_patient_disease_kept (S : Stub) (L : Ledger) (id : Int) (v : Bytes) (n : Int) :
    (L.put S (patientKey id) v).state (diseaseKey n) = L.state (diseaseKey n) := by
  have hk : ¬ diseaseKey n = patientKey id := fun e => patientKey_ne_diseaseKey id n e.symm
  simp only [Ledger.put, hk, if_false]

theorem put_index_disease_kept (S S2 : Stub) (hS : S.RecordsApart) (L : Ledger)
    (objectType : String) (attributes : List String) (k : String)
    (hk : S.createCompositeKey objectType attributes = .ok k) (v : Bytes) (n : Int) :
    (L.put S2 k v).state (diseaseKey n) = L.state (diseaseKey n) := by
  have hne : ¬ diseaseKey n = k := fun e => (hS _ _ k hk n).2 e.symm
  simp only [Ledger.put, hne, if_false]

theorem put_fresh_disease_kept (S : Stub) (L : Ledger) (id : Int) (v b : Bytes) (n : Int)
    (hfresh : L.state (diseaseKey id) = none) (hb : L.state (diseaseKey n) = some b) :
    (L.put S (diseaseKey id) v).state (diseaseKey n) = some b := by
  have hne : ¬ diseaseKey n = diseaseKey id := by
    intro e
    rw [e, hfresh] at hb
    exact Option.noConfusion hb
  simp only [Ledger.put, hne, if_false]
  exact hb

theorem invoke_disease_kept (P : Platform) (S : Stub) (hS : S.RecordsApart) (L : Ledger)
    (function : String) (args : List String) (n : Int) (b : Bytes)
    (hb : L.state (diseaseKey n) = some b) :
    (Invoke P S L function args).2.state (diseaseKey n) = some b := by
  unfold Invoke
  split_ifs
  · rcases createPatient_ledger P S L args with e | ⟨id, name, address, e | ⟨k, hk, e⟩⟩
    · rw [e]; exact hb
    · rw [e, put_patient_disease_kept]; exact hb
    · rw [e, put_index_disease_kept S S hS _ _ _ k hk, put_patient_disease_kept]; exact hb
  · rcases updatePatientData_ledger P S L args with e | ⟨id, _, p, name, address, _, _, e⟩
    · rw [e]; exact hb
    · rw [e, put_patient_disease_kept]; exact hb
  · rcases addPatientHistory_ledger P S L args with e | ⟨id, _, p, description, _, _, e⟩
    · rw [e]; exact hb
    · rw [e, put_patient_disease_kept]; exact hb
  · rw [getPatientbyID_ledger]; exact hb
  · rw [getPatientHistorybyID_ledger]; exact hb
  · rcases createDisease_ledger_fresh P S L args with
      e | ⟨id, name, description, hfresh, e | ⟨k, hk, e⟩⟩
    · rw [e]; exact hb
    · rw [e]
      exact put_fresh_disease_kept S L id _ b n hfresh hb
    · rw [e, put_index_disease_kept S S hS _ _ _ k hk]
      exact put_fresh_disease_kept S L id _ b n hfresh hb
  · rw [getDiseasebyID_ledger]; exact hb
  · rcases assignDiseaseToPatient_ledger P S L args with e | ⟨id, _, p, d, _, _, _, e⟩
    · rw [e]; exact hb
    · rw [e, put_patient_disease_kept]; exact hb
  · exact hb

theorem idsMatch_invokeAll (P : Platform) (hP : P.KeepsID) (steps : List Invocation)
    (hsteps : ∀ i ∈ steps, i.stub.RecordsApart) (L : Ledger) (h : L.idsMatch P) :
    (invokeAll P L steps).idsMatch P := by
  induction steps generalizing L with
  | nil => exact h
  | cons i rest ih =>
    simp only [invokeAll]
    exact ih (fun j hj => hsteps j (List.mem_cons_of_mem _ hj)) _
      (idsMatch_invoke P hP i.stub (hsteps i (List.mem_cons_self _ _)) L h _ _)

theorem invokeAll_disease_kept (P : Platform) (steps : List Invocation)
    (hsteps : ∀ i ∈ steps, i.stub.RecordsApart) (L : Ledger) (n : Int) (b : Bytes)
    (hb : L.state (diseaseKey n) = some b) :
    (invokeAll P L steps).state (diseaseKey n) = some b := by
  induction steps generalizing L with
  | nil => exact hb
  | cons i rest ih =>
    simp only [invokeAll]
    exact ih (fun j hj => hsteps j (List.mem_cons_of_mem _ hj)) _
      (invoke_disease_kept P i.stub (hsteps i (List.mem_cons_self _ _)) L _ _ n b hb)

/-- C24: with a codec under which decoding an encoded record gives back its `ID`, and
collaborators whose index keys are keys of no record, in the ledger reached from the
empty ledger by any sequence of invocations every value under the patient key of `n`
decodes to a patient with `ID = n`, and every value under the disease key of `n`
decodes to a disease with `ID = n` and is still the value under that key after any
further sequence of invocations. -/
theorem reachable_ids_match (P : Platform) (hP : P.KeepsID)
    (steps later : List Invocation)
    (hsteps : ∀ i ∈ steps, i.stub.RecordsApart)
    (hlater : ∀ i ∈ later, i.stub.RecordsApart) :
    (∀ n b, (invokeAll P Ledger.empty steps).state (patientKey n) = some b →
      ∃ p, P.unmarshalPatient b = .ok p ∧ p.ID = n) ∧
    (∀ n b, (invokeAll P Ledger.empty steps).state (diseaseKey n) = some b →
      (∃ d, P.unmarshalDisease b = .ok d ∧ d.ID = n) ∧
      (invokeAll P (invokeAll P Ledger.empty steps) later).state (diseaseKey n) =
        some b) := by
  have h := idsMatch_invokeAll P hP steps hsteps Ledger.empty (idsMatch_empty P)
  refine ⟨h.1, fun n b hb => ⟨h.2 n b hb, ?_⟩⟩
  exact invokeAll_disease_kept P later hlater _ n b hb

/-- Witness of C24: after the creation of patient `1` and disease `7` and their
assignment, a second creation of disease `7`, an update of the patient and the
creation of disease `8` leave the value of disease `7` as it was. -/
theorem reachable_ids_match_witness :
    (invokeAll Platform.reference Ledger.empty assignmentSteps).state (diseaseKey 7) =
      some (Platform.reference.marshalDisease ⟨7, "diabetes", "desc"⟩) ∧
    (invokeAll Platform.reference (invokeAll Platform.reference Ledger.empty assignmentSteps)
      laterSteps).state (diseaseKey 7) =
      some (Platform.reference.marshalDisease ⟨7, "diabetes", "desc"⟩) ∧
    ∃ p, Platform.reference.unmarshalPatient (Platform.reference.marshalPatient
      ⟨1, "ali", "cairo", 100, 102, .of [⟨7, "diabetes", "desc"⟩], .nil⟩) = .ok p ∧
      p.ID = 1 :=
  have hsteps : ∀ i ∈ assignmentSteps, i.stub.RecordsApart := by
    intro i hi
    simp only [assignmentSteps, List.mem_cons, List.mem_singleton, List.not_mem_nil,
      or_false] at hi
    rcases hi with rfl | rfl | rfl <;> exact fabric_recordsApart _ _
  have hlater : ∀ i ∈ laterSteps, i.stub.RecordsApart := by
    intro i hi
    simp only [laterSteps, List.mem_cons, List.mem_singleton, List.not_mem_nil,
      or_false] at hi
    rcases hi with rfl | rfl | rfl <;> exact fabric_recordsApart _ _
  ⟨by decide,
    ((reachable_ids_match Platform.reference reference_keepsID assignmentSteps laterSteps
      hsteps hlater).2 7 _ (by decide)).2,
    (reachable_ids_match Platform.reference reference_keepsID assignmentSteps laterSteps
      hsteps hlater).1 1 _ (by decide)⟩

/-! ## The index component of the ids `0` and `1114111` -/

/-- C1 (the code at the failing inputs): on the empty ledger, where no patient key is
present, with arguments whose id parses and whose name and address are non-empty,
and the Fabric collaborator, `createPatient` reports a failure for the ids `0` and
`1114111`, on every platform: `string(patientID)` is then U+0000 or U+10FFFF, which
`CreateCompositeKey` refuses; for the id `1` it reports success. -/
theorem createPatient_fails_at_zero (P : Platform) :
    (ParseInt "0" = some 0 ∧ Ledger.empty.state (patientKey 0) = none ∧
      runeString 0 = String.mk [Char.ofNat 0] ∧
      (createPatient P (Stub.fabric "tx1" 100) Ledger.empty
        ["0", "Ali", "Cairo"]).1.isError = true) ∧
    (ParseInt "1114111" = some 1114111 ∧
      Ledger.empty.state (patientKey 1114111) = none ∧
      runeString 1114111 = String.mk [Char.ofNat 0x10FFFF] ∧
      (createPatient P (Stub.fabric "tx1" 100) Ledger.empty
        ["1114111", "Ali", "Cairo"]).1.isError = true) ∧
    (createPatient P (Stub.fabric "tx1" 100) Ledger.empty
      ["1", "Ali", "Cairo"]).1 = .success none := by
  have h0 : ParseInt "0" = some 0 := by decide
  have hm : ParseInt "1114111" = some 1114111 := by decide
  have h1 : ParseInt "1" = some 1 := by decide
  have k0 : fabricCreateCompositeKey "patient~ID" ["patient", runeString 0] =
      .error "U+0000 and U+10FFFF are not allowed in the input attribute of a composite key" :=
    rfl
  have km : fabricCreateCompositeKey "patient~ID" ["patient", runeString 1114111] =
      .error "U+0000 and U+10FFFF are not allowed in the input attribute of a composite key" :=
    rfl
  have k1 : fabricCreateCompositeKey "patient~ID" ["patient", runeString 1] =
      .ok "\x00patient~ID\x00patient\x00\x01\x00" := rfl
  refine ⟨⟨h0, rfl, by decide, ?_⟩, ⟨hm, rfl, by decide, ?_⟩, ?_⟩
  · simp [createPatient, len_eq_zero_iff, h0, Stub.GetState, Stub.PutState, Stub.fabric,
      Ledger.empty, k0, Response.isError]
  · simp [createPatient, len_eq_zero_iff, hm, Stub.GetState, Stub.PutState, Stub.fabric,
      Ledger.empty, km, Response.isError]
  · simp [createPatient, len_eq_zero_iff, h1, Stub.GetState, Stub.PutState, Stub.fabric,
      Ledger.empty, k1]

/-- C18 (the code at the failing inputs): on the empty ledger, where no disease key
is present, with arguments whose id parses and whose name and description are
non-empty, and the Fabric collaborator, `createDisease` reports a failure for the
ids `0` and `1114111`, on every platform: `string(diseaseID)` is then U+0000 or
U+10FFFF, which `CreateCompositeKey` refuses; for the id `1` it reports success. -/
theorem createDisease_fails_at_zero (P : Platform) :
    (ParseInt "0" = some 0 ∧ Ledger.empty.state (diseaseKey 0) = none ∧
      (createDisease P (Stub.fabric "tx1" 100) Ledger.empty
        ["0", "Diabetes", "f_Diabetes"]).1.isError = true) ∧
    (ParseInt "1114111" = some 1114111 ∧
      Ledger.empty.state (diseaseKey 1114111) = none ∧
      (createDisease P (Stub.fabric "tx1" 100) Ledger.empty
        ["1114111", "Diabetes", "f_Diabetes"]).1.isError = true) ∧
    (createDisease P (Stub.fabric "tx1" 100) Ledger.empty
      ["1", "Diabetes", "f_Diabetes"]).1 = .success none := by
  have h0 : ParseInt "0" = some 0 := by decide
  have hm : ParseInt "1114111" = some 1114111 := by decide
  have h1 : ParseInt "1" = some 1 := by decide
  have k0 : fabricCreateCompositeKey "Disease~ID" ["Disease", runeString 0] =
      .error "U+0000 and U+10FFFF are not allowed in the input attribute of a composite key" :=
    rfl
  have km : fabricCreateCompositeKey "Disease~ID" ["Disease", runeString 1114111] =
      .error "U+0000 and U+10FFFF are not allowed in the input attribute of a composite key" :=
    rfl
  have k1 : fabricCreateCompositeKey "Disease~ID" ["Disease", runeString 1] =
      .ok "\x00Disease~ID\x00Disease\x00\x01\x00" := rfl
  refine ⟨⟨h0, rfl, ?_⟩, ⟨hm, rfl, ?_⟩, ?_⟩
  · simp [createDisease, len_eq_zero_iff, h0, Stub.GetState, Stub.PutState, Stub.fabric,
      Ledger.empty, k0, Response.isError]
  · simp [createDisease, len_eq_zero_iff, hm, Stub.GetState, Stub.PutState, Stub.fabric,
      Ledger.empty, km, Response.isError]
  · simp [createDisease, len_eq_zero_iff, h1, Stub.GetState, Stub.PutState, Stub.fabric,
      Ledger.empty, k1]

/-- C11 (the code at the failing input): the keys of the id `0` are `Patient-0` and
`Disease-0`, two different keys, yet with the Fabric collaborator neither creation
with the id `0` succeeds: `createPatient ["0", "Ali", "Cairo"]` on the empty ledger
reports a failure, and so does `createDisease ["0", "Diabetes", "f_Diabetes"]`, on
the empty ledger and on the ledger the first call returns, on every platform. -/
theorem same_id_zero_not_created (P : Platform) :
    patientKey 0 = "Patient-0" ∧ diseaseKey 0 = "Disease-0" ∧
    (createPatient P (Stub.fabric "tx1" 100) Ledger.empty
      ["0", "Ali", "Cairo"]).1.isError = true ∧
    (createDisease P (Stub.fabric "tx2" 101) Ledger.empty
      ["0", "Diabetes", "f_Diabetes"]).1.isError = true ∧
    (createDisease P (Stub.fabric "tx2" 101)
      (createPatient P (Stub.fabric "tx1" 100) Ledger.empty ["0", "Ali", "Cairo"]).2
      ["0", "Diabetes", "f_Diabetes"]).1.isError = true := by
  have h0 : ParseInt "0" = some 0 := by decide
  have kp : fabricCreateCompositeKey "patient~ID" ["patient", runeString 0] =
      .error "U+0000 and U+10FFFF are not allowed in the input attribute of a composite key" :=
    rfl
  have kd : fabricCreateCompositeKey "Disease~ID" ["Disease", runeString 0] =
      .error "U+0000 and U+10FFFF are not allowed in the input attribute of a composite key" :=
    rfl
  have hdp : ¬ diseaseKey 0 = patientKey 0 := fun e => patientKey_ne_diseaseKey 0 0 e.symm
  refine ⟨by decide, by decide, ?_, ?_, ?_⟩
  · simp [createPatient, len_eq_zero_iff, h0, Stub.GetState, Stub.PutState, Stub.fabric,
      Ledger.empty, kp, Response.isError]
  · simp [createDisease, len_eq_zero_iff, h0, Stub.GetState, Stub.PutState, Stub.fabric,
      Ledger.empty, kd, Response.isError]
  · simp [createPatient, createDisease, len_eq_zero_iff, h0, Stub.GetState, Stub.PutState,
      Stub.fabric, Ledger.empty, Ledger.put, kp, kd, hdp, Response.isError]

end PatientsChaincode
